import Mathlib

/-!
# Bushtalk Radio X-Plane 12 client: a verification development

A shallow embedding of the client's core (package `xplane`: identifier
resolution, frame decoding, tail-number decoding; package `bushtalk`: the
publishing client; `main.go`: the forwarder) and theorems about it.

Conventions of the embedding:

* a Go `string` / `[]byte` is the list of its bytes (`GoString`);
* a Go `float64` is its IEEE-754 binary64 bit fields (`F64`), with the comparisons
  and the round-to-nearest-even multiplication of the hardware;
* a Go `map` is the list of its entries; a `range` over a map visits the
  entries in the order of that list, so a statement for every list covers every
  iteration order the runtime may choose;
* the functions of the Go standard library that the code calls (`strings.TrimSpace`,
  `strings.ReplaceAll`, `base64.StdEncoding`, `fmt.Sscanf`, `strconv.ParseInt`,
  `json.Marshal`) are modelled after their documented behaviour;
* calls that leave the process (HTTP, the clock) are parameters of the
  function that makes them, and the calls made are returned as a trace.
-/

namespace Bushtalk

/-! ## Go strings -/

/-- Go string or byte slice: the sequence of its bytes. -/
abbrev GoString := List Nat

/-- Bytes of an ASCII literal. -/
def str (s : String) : GoString := s.toList.map Char.toNat

/-- Every element is a byte. -/
def IsBytes (s : GoString) : Prop := ∀ b ∈ s, b < 256

instance (s : GoString) : Decidable (IsBytes s) :=
  inferInstanceAs (Decidable (∀ b ∈ s, b < 256))

/-- UTF-8 encodings of the code points with the Unicode White_Space property,
the set tested by `unicode.IsSpace`: U+0009..U+000D, U+0020, U+0085, U+00A0,
U+1680, U+2000..U+200A, U+2028, U+2029, U+202F, U+205F, U+3000. -/
def whiteSpace : List GoString :=
  [[0x09], [0x0A], [0x0B], [0x0C], [0x0D], [0x20],
   [0xC2, 0x85], [0xC2, 0xA0], [0xE1, 0x9A, 0x80],
   [0xE2, 0x80, 0x80], [0xE2, 0x80, 0x81], [0xE2, 0x80, 0x82], [0xE2, 0x80, 0x83],
   [0xE2, 0x80, 0x84], [0xE2, 0x80, 0x85], [0xE2, 0x80, 0x86], [0xE2, 0x80, 0x87],
   [0xE2, 0x80, 0x88], [0xE2, 0x80, 0x89], [0xE2, 0x80, 0x8A],
   [0xE2, 0x80, 0xA8], [0xE2, 0x80, 0xA9], [0xE2, 0x80, 0xAF],
   [0xE2, 0x81, 0x9F], [0xE3, 0x80, 0x80]]

/-- The white-space rune a string starts with, if any. -/
def leadingSpace (s : GoString) : Option GoString :=
  whiteSpace.find? (fun w => w.isPrefixOf s)

/-- The white-space rune a string ends with, if any. -/
def trailingSpace (s : GoString) : Option GoString :=
  whiteSpace.find? (fun w => w.isSuffixOf s)

/-- Left half of `strings.TrimSpace`: drop white-space runes from the front. -/
def trimLeftAux : Nat → GoString → GoString
  | 0, s => s
  | n + 1, s =>
    match leadingSpace s with
    | none => s
    | some w => trimLeftAux n (s.drop w.length)

/-- Right half of `strings.TrimSpace`: drop white-space runes from the back. -/
def trimRightAux : Nat → GoString → GoString
  | 0, s => s
  | n + 1, s =>
    match trailingSpace s with
    | none => s
    | some w => trimRightAux n (s.take (s.length - w.length))

/-- Go `strings.TrimSpace`: all leading and trailing white space removed. -/
def TrimSpace (s : GoString) : GoString :=
  let t := trimLeftAux s.length s
  trimRightAux t.length t

/-- No white-space rune at the front. -/
def NoLeadingSpace (s : GoString) : Prop := ∀ w ∈ whiteSpace, ¬ w <+: s

/-- No white-space rune at the back. -/
def NoTrailingSpace (s : GoString) : Prop := ∀ w ∈ whiteSpace, ¬ w <:+ s

instance (s : GoString) : Decidable (NoLeadingSpace s) :=
  inferInstanceAs (Decidable (∀ w ∈ whiteSpace, ¬ w <+: s))

instance (s : GoString) : Decidable (NoTrailingSpace s) :=
  inferInstanceAs (Decidable (∀ w ∈ whiteSpace, ¬ w <:+ s))

/-- The sentinel of `cleanTailNumber`. -/
def UNKNOWN : GoString := str "UNKNOWN"

/-- Go `strings.ReplaceAll(s, "\x00", "")`: every NUL byte removed. -/
def removeNul (s : GoString) : GoString := s.filter (fun b => b != 0)

/-- cleanTailNumber removes null bytes and trims whitespace -/
def cleanTailNumber (s : GoString) : GoString :=
  let s1 := removeNul s
  let s2 := TrimSpace s1
  if s2 = [] then UNKNOWN else s2

/-! ## encoding/base64, StdEncoding -/

/-- The standard alphabet. -/
def encodeStd : GoString :=
  str "ABCDEFGHIJKLMNOPQRSTUVWXYZabcdefghijklmnopqrstuvwxyz0123456789+/"

/-- Table `enc.encode`. -/
def encodeChar (i : Nat) : Nat := encodeStd.getD i 0

/-- Table `enc.decodeMap`: the index of an alphabet character, 0xff otherwise. -/
def decodeMap (c : Nat) : Nat :=
  let i := encodeStd.indexOf c
  if i < 64 then i else 0xff

/-- The pad character `=`. -/
def padChar : Nat := 61

/-- Go `base64.StdEncoding.EncodeToString`. -/
def EncodeToString : GoString → GoString
  | a :: b :: c :: rest =>
    let val := a <<< 16 ||| b <<< 8 ||| c
    encodeChar (val >>> 18 &&& 0x3F) :: encodeChar (val >>> 12 &&& 0x3F) ::
      encodeChar (val >>> 6 &&& 0x3F) :: encodeChar (val &&& 0x3F) :: EncodeToString rest
  | [a, b] =>
    let val := a <<< 16 ||| b <<< 8
    [encodeChar (val >>> 18 &&& 0x3F), encodeChar (val >>> 12 &&& 0x3F),
     encodeChar (val >>> 6 &&& 0x3F), padChar]
  | [a] =>
    let val := a <<< 16
    [encodeChar (val >>> 18 &&& 0x3F), encodeChar (val >>> 12 &&& 0x3F), padChar, padChar]
  | [] => []

/-- Skip over newlines, as `decodeQuantum` does after padding. -/
def skipNewlines (s : GoString) : GoString := s.dropWhile (fun c => c == 10 || c == 13)

/-- The bytes of a quantum of `dlen` sextets (`dbuf`, missing ones zero):
`dlen - 1` bytes of the 24-bit value. -/
def quantumBytes (dbuf : List Nat) (dlen : Nat) : GoString :=
  let val := dbuf.getD 0 0 <<< 18 ||| dbuf.getD 1 0 <<< 12 ||| dbuf.getD 2 0 <<< 6 ||| dbuf.getD 3 0
  ([val >>> 16 % 256, val >>> 8 % 256, val >>> 0 % 256]).take (dlen - 1)

/-- Loop of `(*Encoding).Decode` over `decodeQuantum` for the padded, non-strict standard
encoding: `dbuf` holds the sextets of the quantum being read.  `none` stands for a
`CorruptInputError`. -/
def decodeFrom : GoString → List Nat → Option GoString
  | [], dbuf => if dbuf.length = 0 then some [] else none
  | c :: rest, dbuf =>
    if decodeMap c ≠ 0xff then
      if dbuf.length = 3 then
        (decodeFrom rest []).map (fun out => quantumBytes (dbuf ++ [decodeMap c]) 4 ++ out)
      else decodeFrom rest (dbuf ++ [decodeMap c])
    else if c = 10 ∨ c = 13 then decodeFrom rest dbuf
    else if c ≠ padChar then none
    else if dbuf.length = 2 then
      match skipNewlines rest with
      | [] => none
      | c2 :: rest2 =>
        if c2 ≠ padChar then none
        else if skipNewlines rest2 = [] then some (quantumBytes dbuf 2) else none
    else if dbuf.length = 3 then
      if skipNewlines rest = [] then some (quantumBytes dbuf 3) else none
    else none

/-- Go `base64.StdEncoding.DecodeString`; `none` when it returns an error. -/
def DecodeString (s : GoString) : Option GoString := decodeFrom s []

/-- Whether a byte is a character of the standard alphabet. -/
def isAlphabet (c : Nat) : Bool := decodeMap c != 0xff

/-- Standard padded base64 text (RFC 4648, section 4): groups of four characters of the
alphabet, of which the last may end in one or two pad characters. -/
def isStdBase64 : GoString → Bool
  | [] => true
  | [a, b, c, d] =>
    isAlphabet a && isAlphabet b
      && ((c == padChar && d == padChar) || (isAlphabet c && (d == padChar || isAlphabet d)))
  | a :: b :: c :: d :: rest =>
    isAlphabet a && isAlphabet b && isAlphabet c && isAlphabet d && isStdBase64 rest
  | _ => false

/-- A text with its CR and LF bytes removed. -/
def stripNewlines (s : GoString) : GoString := s.filter (fun c => !(c == 10 || c == 13))

/-- Validity of the rest of a standard padded base64 text when `k` characters of the
current group of four have been read. -/
def validFrom : Nat → GoString → Bool
  | k, [] => k == 0
  | k, c :: rest =>
    if isAlphabet c then (if k = 3 then validFrom 0 rest else validFrom (k + 1) rest)
    else if c = padChar then
      (if k = 2 then decide (rest = [padChar]) else if k = 3 then decide (rest = []) else false)
    else false

/-! ## float64 -/

/-- IEEE-754 binary64 value by its bit fields: sign, biased exponent (11 bits),
fraction (52 bits). -/
structure F64 where
  sign : Bool
  expo : Nat
  frac : Nat
  deriving DecidableEq, Repr

namespace F64

/-- The fields are in range. -/
def WF (x : F64) : Prop := x.expo < 2048 ∧ x.frac < 2 ^ 52

def isNaN (x : F64) : Bool := x.expo == 2047 && x.frac != 0

def isInf (x : F64) : Bool := x.expo == 2047 && x.frac == 0

def isZero (x : F64) : Bool := x.expo == 0 && x.frac == 0

def isFinite (x : F64) : Bool := decide (x.expo < 2047)

/-- Significand of a finite value: `|x| = mant x * 2 ^ exp2 x`. -/
def mant (x : F64) : Nat := if x.expo = 0 then x.frac else 2 ^ 52 + x.frac

/-- Exponent of the unit in the last place of a finite value. -/
def exp2 (x : F64) : Int := (if x.expo = 0 then 1 else (x.expo : Int)) - 1075

/-- Order key: for values that are not NaN, `x < y` as reals iff `key x < key y`,
and the two zeros share the key 0. -/
def key (x : F64) : Int :=
  let mag : Int := (x.expo : Int) * 2 ^ 52 + (x.frac : Int)
  if x.sign then -mag else mag

/-- Go `x == y` on float64. -/
def eq (x y : F64) : Bool := !x.isNaN && !y.isNaN && x.key == y.key

/-- Go `x != y` on float64. -/
def ne (x y : F64) : Bool := !(eq x y)

/-- Go `x < y` on float64. -/
def lt (x y : F64) : Bool := !x.isNaN && !y.isNaN && decide (x.key < y.key)

/-- Positive zero. -/
def zero : F64 := ⟨false, 0, 0⟩

/-- The quiet NaN (payloads of NaNs are not distinguished by any operation here). -/
def nan : F64 := ⟨false, 2047, 2 ^ 51⟩

def inf (sign : Bool) : F64 := ⟨sign, 2047, 0⟩

/-- Least `j` at or after the given one with `n < 2 ^ 2 ^ j`. -/
def expBound : Nat → Nat → Nat → Nat
  | 0, _, j => j
  | fuel + 1, n, j => if n < 2 ^ 2 ^ j then j else expBound fuel n (j + 1)

/-- Binary search for the largest `k` with `2 ^ k ≤ n`, below `acc + 2 ^ j`. -/
def log2Search : Nat → Nat → Nat → Nat
  | 0, _, acc => acc
  | j + 1, n, acc =>
    if 2 ^ (acc + 2 ^ j) ≤ n then log2Search j n (acc + 2 ^ j) else log2Search j n acc

/-- Number of binary digits. -/
def bitLen (n : Nat) : Nat :=
  if n = 0 then 0 else log2Search (expBound n n 0) n 0 + 1

/-- Numerator and denominator of `(n / d) / 2 ^ q`. -/
def scaled (n d : Nat) (q : Int) : Nat × Nat :=
  if 0 ≤ q then (n, d * 2 ^ q.toNat) else (n * 2 ^ (-q).toNat, d)

/-- The binary64 value nearest to `± n / d` (ties to even, overflow to infinity):
the rounding of every arithmetic operation and of every decimal literal. -/
def ofRatio (sign : Bool) (n d : Nat) : F64 :=
  if n = 0 then ⟨sign, 0, 0⟩
  else
    let l : Int := (bitLen n : Int) - (bitLen d : Int)
    let e : Int := if (scaled n d l).2 ≤ (scaled n d l).1 then l else l - 1
    let q : Int := max (e - 52) (-1074)
    let nd := scaled n d q
    let m := nd.1 / nd.2
    let r := nd.1 % nd.2
    let m1 := if nd.2 < 2 * r ∨ (2 * r = nd.2 ∧ m % 2 = 1) then m + 1 else m
    let bits := (q + 1074).toNat * 2 ^ 52 + m1
    if 2047 * 2 ^ 52 ≤ bits then inf sign else ⟨sign, bits / 2 ^ 52, bits % 2 ^ 52⟩

/-- The value `± m * 2 ^ e` rounded to binary64. -/
def ofScaled (sign : Bool) (m : Nat) (e : Int) : F64 :=
  if 0 ≤ e then ofRatio sign (m * 2 ^ e.toNat) 1 else ofRatio sign m (2 ^ (-e).toNat)

/-- Go `x * y` on float64. -/
def mul (x y : F64) : F64 :=
  let s := xor x.sign y.sign
  if x.isNaN || y.isNaN then nan
  else if x.isInf || y.isInf then (if x.isZero || y.isZero then nan else inf s)
  else ofScaled s (x.mant * y.mant) (x.exp2 + y.exp2)

/-- The float64 of a natural number (exact below 2^53). -/
def ofNat (n : Nat) : F64 := ofRatio false n 1

/-- Integer part of the magnitude of a finite value. -/
def truncMag (x : F64) : Nat :=
  if 0 ≤ x.exp2 then x.mant * 2 ^ x.exp2.toNat else x.mant / 2 ^ (-x.exp2).toNat

/-- Go `byte(x)` for a float64 `x`: the fraction is discarded; when the truncated
value is not a byte the Go specification leaves the result to the implementation,
here the parameter `impl`. -/
def toByte (impl : F64 → Nat) (x : F64) : Nat :=
  if x.isFinite && decide (x.truncMag < 256) && (!x.sign || x.truncMag == 0) then x.truncMag
  else impl x % 256

/-- The magnitude of a finite value, as a rational number. -/
def magRat (x : F64) : ℚ :=
  if 0 ≤ x.exp2 then (x.mant : ℚ) * 2 ^ x.exp2.toNat else (x.mant : ℚ) / 2 ^ (-x.exp2).toNat

/-- The rational number a finite value stands for. -/
def toRat (x : F64) : ℚ := if x.sign then -x.magRat else x.magRat

end F64

/-! ## Go maps -/

/-- Go map: the list of its entries. -/
abbrev GoMap (κ ν : Type) := List (κ × ν)

namespace GoMap

/-- Go `v, ok := m[k]`. -/
def get {κ ν : Type} [DecidableEq κ] (m : GoMap κ ν) (k : κ) : Option ν :=
  (m.find? (fun e => decide (e.1 = k))).map (fun e => e.2)

/-- Go `m[k] = v`. -/
def set {κ ν : Type} [DecidableEq κ] (m : GoMap κ ν) (k : κ) (v : ν) : GoMap κ ν :=
  m.filter (fun e => !decide (e.1 = k)) ++ [(k, v)]

/-- The key set. -/
def keys {κ ν : Type} (m : GoMap κ ν) : List κ := m.map (fun e => e.1)

end GoMap

/-! ## JSON values, as `encoding/json` decodes them into `interface{}` -/

inductive JValue where
  | null
  | bool (b : Bool)
  | number (f : F64)
  | string (s : GoString)
  | array (xs : List JValue)
  | object (kvs : List (GoString × JValue))

/-! ## xplane/datarefs.go -/

def DatarefLatitude : GoString := str "sim/flightmodel/position/latitude"

def DatarefLongitude : GoString := str "sim/flightmodel/position/longitude"

def DatarefAltitudeAGL : GoString := str "sim/flightmodel/position/y_agl"

def DatarefGroundspeed : GoString := str "sim/flightmodel/position/groundspeed"

def DatarefHeading : GoString := str "sim/flightmodel/position/mag_psi"

def DatarefTailNum : GoString := str "sim/aircraft/view/acf_tailnum"

/-- AllDatarefs is the list of all datarefs we need -/
def AllDatarefs : List GoString :=
  [DatarefLatitude, DatarefLongitude, DatarefAltitudeAGL, DatarefGroundspeed, DatarefHeading,
   DatarefTailNum]

/-- ReverseMap returns a map from ID to dataref name; the `range` visits the entries of
`m` in list order. -/
def ReverseMap (m : GoMap GoString Int) : GoMap Int GoString :=
  m.foldl (fun reverse e => reverse.set e.2 e.1) []

/-- The loop of `DecodeTailNumber` over an int array: elements that are not numbers are
skipped, the first zero ends the loop, every other number is appended as `byte(num)`. -/
def tailBytes (impl : F64 → Nat) : List JValue → GoString
  | [] => []
  | JValue.number num :: rest =>
    if num.eq F64.zero then [] else num.toByte impl :: tailBytes impl rest
  | _ :: rest => tailBytes impl rest

/-- DecodeTailNumber decodes the tail number from X-Plane's format -/
def DecodeTailNumber (impl : F64 → Nat) : JValue → GoString
  | JValue.string v =>
    match DecodeString v with
    | some decoded => cleanTailNumber decoded
    | none => cleanTailNumber v
  | JValue.array v => cleanTailNumber (tailBytes impl v)
  | _ => UNKNOWN

/-! ## fmt.Sscanf with the format "%d" -/

/-- The method `SkipSpace` of the scan state under Sscanf, where a newline is not space:
`none` when it raises "unexpected newline". -/
def skipSpaceAux : Nat → GoString → Option GoString
  | 0, s => some s
  | n + 1, s =>
    match s with
    | [] => some []
    | r :: rest =>
      if r = 13 ∧ rest.head? = some 10 then skipSpaceAux n rest
      else if r = 10 then none
      else
        match leadingSpace s with
        | none => some s
        | some w => skipSpaceAux n (s.drop w.length)

/-- The digit set of the verb `%d`: "0123456789_". -/
def isDigitChar (c : Nat) : Bool := (decide (48 ≤ c) && decide (c ≤ 57)) || c == 95

/-- Go `strconv.ParseInt(tok, 10, 64)`; `none` for a syntax or range error. -/
def ParseInt (tok : GoString) : Option Int :=
  match tok with
  | [] => none
  | c :: rest =>
    let ds := if c = 43 ∨ c = 45 then rest else tok
    if ds = [] then none
    else if ds.all (fun d => decide (48 ≤ d) && decide (d ≤ 57)) then
      let un : Nat := ds.foldl (fun acc d => acc * 10 + (d - 48)) 0
      if c = 45 then (if un ≤ 2 ^ 63 then some (-(un : Int)) else none)
      else (if un < 2 ^ 63 then some (un : Int) else none)
    else none

/-- The value of `id` after `var id int64; fmt.Sscanf(idStr, "%d", &id)`: leading space is
skipped, an optional sign and a run of digit characters are read and parsed; on any
failure `id` keeps its zero value. -/
def scanID (idStr : GoString) : Int :=
  match skipSpaceAux idStr.length idStr with
  | none => 0
  | some s =>
    let sgn := s.take (if s.head? = some 43 ∨ s.head? = some 45 then 1 else 0)
    let ds := (s.drop sgn.length).takeWhile isDigitChar
    if ds = [] then 0 else (ParseInt (sgn ++ ds)).getD 0

/-- A string without its leading white space, as `strings.TrimSpace` removes it. -/
def withoutLeadingSpace (s : GoString) : GoString := trimLeftAux s.length s

/-- Whether a string begins with a decimal integer: an optional sign, then a decimal
digit. -/
def beginsWithInteger (s : GoString) : Bool :=
  match s with
  | [] => false
  | c :: rest =>
    if c = 43 ∨ c = 45 then
      match rest with
      | [] => false
      | d :: _ => decide (48 ≤ d) && decide (d ≤ 57)
    else decide (48 ≤ c) && decide (c ≤ 57)

/-- The value of a string of decimal digits. -/
def decimalValue (ds : GoString) : Nat := ds.foldl (fun acc d => acc * 10 + (d - 48)) 0

/-! ## xplane/client.go -/

/-- Position holds the current flight position data -/
structure Position where
  Latitude : F64
  Longitude : F64
  AltitudeAGL : F64
  Groundspeed : F64
  Heading : F64
  TailNumber : GoString
  Timestamp : Nat
  deriving DecidableEq, Repr

/-- IsValid returns true if we have received position data -/
def Position.IsValid (p : Position) : Bool :=
  p.Latitude.ne F64.zero || p.Longitude.ne F64.zero

/-- One iteration of the loop of `updatePosition`, for the entry `idStr, value`. -/
def updateEntry (impl : F64 → Nat) (reverseMap : GoMap Int GoString) (position : Position)
    (entry : GoString × JValue) : Position :=
  let id := scanID entry.1
  match reverseMap.get id with
  | none => position
  | some name =>
    if name = DatarefLatitude then
      match entry.2 with
      | JValue.number v => { position with Latitude := v }
      | _ => position
    else if name = DatarefLongitude then
      match entry.2 with
      | JValue.number v => { position with Longitude := v }
      | _ => position
    else if name = DatarefAltitudeAGL then
      match entry.2 with
      | JValue.number v => { position with AltitudeAGL := v }
      | _ => position
    else if name = DatarefGroundspeed then
      match entry.2 with
      | JValue.number v => { position with Groundspeed := v }
      | _ => position
    else if name = DatarefHeading then
      match entry.2 with
      | JValue.number v => { position with Heading := v }
      | _ => position
    else if name = DatarefTailNum then
      { position with TailNumber := DecodeTailNumber impl entry.2 }
    else position

/-- updatePosition updates the current position from WebSocket data; `data` lists the
entries of the frame in the order the `range` visits them, `now` is `time.Now()`. -/
def updatePosition (impl : F64 → Nat) (reverseMap : GoMap Int GoString) (position : Position)
    (data : List (GoString × JValue)) (now : Nat) : Position :=
  { data.foldl (updateEntry impl reverseMap) position with Timestamp := now }

/-- The numeric value an entry of a frame delivers to the instrument `name`: the entry's
key scans to an identifier that the reverse mapping sends to `name`, and its value is a
number. -/
def feeds (reverseMap : GoMap Int GoString) (name : GoString) (entry : GoString × JValue) :
    Option F64 :=
  if reverseMap.get (scanID entry.1) = some name then
    match entry.2 with
    | JValue.number v => some v
    | _ => none
  else none

/-- The five numeric instruments with the field of `Position` each one is stored in. -/
def numericFields : List (GoString × (Position → F64)) :=
  [(DatarefLatitude, Position.Latitude), (DatarefLongitude, Position.Longitude),
   (DatarefAltitudeAGL, Position.AltitudeAGL), (DatarefGroundspeed, Position.Groundspeed),
   (DatarefHeading, Position.Heading)]

/-! ## xplane/datarefs.go: identifier resolution -/

/-- DatarefInfo holds metadata about a dataref -/
structure DatarefInfo where
  ID : Int
  Name : GoString
  ValueType : GoString
  deriving DecidableEq, Repr

/-- DatarefMap maps dataref names to their session-specific IDs -/
abbrev DatarefMap := GoMap GoString Int

/-- Response of the simulator's REST endpoint as `resolveDataref` reads it: the status
code, and the `data` array that `json.Decode` extracts from the body into a
`DatarefResponse` (`none` when the body does not decode). -/
structure RestResponse where
  StatusCode : Int
  Data : Option (List DatarefInfo)
  deriving DecidableEq, Repr

/-- What `resolveDataref` calls outside the package: `url.PathEscape`,
`http.NewRequest` (whether it accepts the URL) and `client.Do` (`none` for a transport
error, timeout included). -/
structure RestEnv where
  PathEscape : GoString → GoString
  NewRequestOk : GoString → Bool
  Do : GoString → Option RestResponse

/-- The errors `resolveDataref` returns. -/
inductive ResolveError where
  | request
  | transport
  | status (code : Int)
  | decode
  | notFound
  deriving DecidableEq, Repr

/-- Go `fmt.Sprintf("%d", n)`. -/
def formatInt (n : Int) : GoString :=
  match n with
  | Int.ofNat m => (Nat.toDigits 10 m).map Char.toNat
  | Int.negSucc m => 45 :: (Nat.toDigits 10 (m + 1)).map Char.toNat

/-- The URL `resolveDataref` requests. -/
def apiURL (env : RestEnv) (port : Int) (name : GoString) : GoString :=
  str "http://localhost:" ++ formatInt port ++ str "/api/v3/datarefs?filter[name]="
    ++ env.PathEscape name

/-- resolveDataref queries X-Plane for a single dataref's ID -/
def resolveDataref (env : RestEnv) (port : Int) (name : GoString) : Except ResolveError Int :=
  if env.NewRequestOk (apiURL env port name) = false then Except.error ResolveError.request
  else
    match env.Do (apiURL env port name) with
    | none => Except.error ResolveError.transport
    | some resp =>
      if resp.StatusCode ≠ 200 then Except.error (ResolveError.status resp.StatusCode)
      else
        match resp.Data with
        | none => Except.error ResolveError.decode
        | some [] => Except.error ResolveError.notFound
        | some (d :: _) => Except.ok d.ID

/-- The error of `ResolveDatarefIDs`: "failed to resolve NAME: CAUSE". -/
structure ResolveFailure where
  name : GoString
  cause : ResolveError
  deriving DecidableEq, Repr

/-- The loop of `ResolveDatarefIDs`, with `result` the map filled so far.  The first
component is the returned map (`none` for Go's nil), the second the returned error. -/
def resolveLoop (env : RestEnv) (port : Int) :
    List GoString → DatarefMap → Option DatarefMap × Option ResolveFailure
  | [], result => (some result, none)
  | name :: rest, result =>
    match resolveDataref env port name with
    | Except.error err => (none, some ⟨name, err⟩)
    | Except.ok id => resolveLoop env port rest (result.set name id)

/-- ResolveDatarefIDs queries the X-Plane REST API to get session-specific IDs for datarefs -/
def ResolveDatarefIDs (env : RestEnv) (port : Int) (datarefs : List GoString) :
    Option DatarefMap × Option ResolveFailure :=
  resolveLoop env port datarefs []

/-! ## bushtalk/client.go -/

/-- TrackPayload represents flight position data sent to the API -/
structure TrackPayload where
  Latitude : F64
  Longitude : F64
  AltitudeAGL : F64
  GroundVelocity : F64
  Heading : F64
  TailNumber : GoString
  OnGround : Bool
  deriving DecidableEq, Repr

/-- An outgoing HTTP request; the body is the record whose JSON encoding it carries. -/
structure Request where
  Method : GoString
  URL : GoString
  Header : GoMap GoString GoString
  Body : TrackPayload
  deriving DecidableEq, Repr

/-- An HTTP response as `SendPosition` reads it. -/
structure Response where
  StatusCode : Int
  deriving DecidableEq, Repr

/-- What the publishing client calls outside the package: `http.NewRequest` (whether it
accepts the URL) and `httpClient.Do` (`none` for a transport error). -/
structure HttpEnv where
  NewRequestOk : GoString → Bool
  Do : Request → Option Response

/-- Client handles communication with the Bushtalk Radio API -/
structure bushtalk.Client where
  baseURL : GoString
  token : GoString
  deriving DecidableEq, Repr

def ClientName : GoString := str "XPLANE-12"

def ClientVersion : GoString := str "1.0.0"

/-- NewClient creates a new Bushtalk API client -/
def bushtalk.NewClient (baseURL : GoString) : bushtalk.Client := { baseURL := baseURL, token := [] }

/-- SetToken sets the authentication token for API requests -/
def bushtalk.Client.SetToken (c : bushtalk.Client) (token : GoString) : bushtalk.Client :=
  { c with token := token }

/-- setHeaders adds common headers to all requests -/
def setHeaders (req : Request) : Request :=
  { req with Header := ((req.Header.set (str "Content-Type") (str "application/json")).set
      (str "X-BTR-CLIENT-NAME") ClientName).set (str "X-BTR-CLIENT-VERSION") ClientVersion }

/-- Go `json.Marshal(payload)`: it fails exactly when a float is NaN or infinite. -/
def Marshal (payload : TrackPayload) : Option TrackPayload :=
  if payload.Latitude.isFinite && payload.Longitude.isFinite && payload.AltitudeAGL.isFinite
      && payload.GroundVelocity.isFinite && payload.Heading.isFinite then some payload
  else none

/-- The errors `SendPosition` returns; `status` carries the status code. -/
inductive SendError where
  | notAuthenticated
  | marshal
  | createRequest
  | transport
  | status (code : Int)
  deriving DecidableEq, Repr

/-- Outcome of `SendPosition`: the returned error (`none` for nil), the requests built
by `http.NewRequest`, the requests handed to `httpClient.Do`, and the response
received. -/
structure SendResult where
  err : Option SendError
  built : List Request
  sent : List Request
  response : Option Response
  deriving DecidableEq, Repr

/-- The request `SendPosition` posts for a marshalled record. -/
def bushtalk.Client.trackRequest (c : bushtalk.Client) (body : TrackPayload) : Request :=
  let req := setHeaders
    { Method := str "POST", URL := c.baseURL ++ str "/api/track", Header := [], Body := body }
  { req with Header := req.Header.set (str "Authorization") (str "Bearer " ++ c.token) }

/-- SendPosition sends flight position data to the tracking API -/
def bushtalk.Client.SendPosition (env : HttpEnv) (c : bushtalk.Client) (payload : TrackPayload) :
    SendResult :=
  if c.token = [] then ⟨some SendError.notAuthenticated, [], [], none⟩
  else
    match Marshal payload with
    | none => ⟨some SendError.marshal, [], [], none⟩
    | some body =>
      if env.NewRequestOk (c.baseURL ++ str "/api/track") = false then
        ⟨some SendError.createRequest, [], [], none⟩
      else
        let req := c.trackRequest body
        match env.Do req with
        | none => ⟨some SendError.transport, [req], [req], none⟩
        | some resp =>
          if resp.StatusCode ≠ 200 ∧ resp.StatusCode ≠ 201 then
            ⟨some (SendError.status resp.StatusCode), [req], [req], some resp⟩
          else ⟨none, [req], [req], some resp⟩

/-- AuthResponse represents the authentication response from the API -/
structure AuthResponse where
  IDToken : GoString
  RefreshToken : GoString
  UserID : GoString
  Username : GoString
  ExpiresIn : Int
  deriving DecidableEq, Repr

/-- The request `Authenticate` posts; the body is the JSON object with the two
members "username" and "password". -/
structure AuthRequest where
  Method : GoString
  URL : GoString
  Header : GoMap GoString GoString
  Username : GoString
  Password : GoString
  deriving DecidableEq, Repr

/-- An HTTP response as `Authenticate` reads it: the status code, and the bundle that
`json.Decode` extracts from the body (`none` when the body does not decode). -/
structure AuthHttpResponse where
  StatusCode : Int
  Body : Option AuthResponse
  deriving DecidableEq, Repr

/-- What `Authenticate` calls outside the package: `http.NewRequest` (whether it
accepts the URL) and `httpClient.Do` (`none` for a transport error). -/
structure AuthEnv where
  NewRequestOk : GoString → Bool
  Do : AuthRequest → Option AuthHttpResponse

/-- The errors `Authenticate` returns; `status` carries the status code.  (Marshalling
a `map[string]string` cannot fail.) -/
inductive AuthError where
  | createRequest
  | transport
  | status (code : Int)
  | decode
  deriving DecidableEq, Repr

/-- Outcome of `Authenticate`: the returned bundle (`none` for nil), the returned error
(`none` for nil), the client afterwards, and the requests handed to `httpClient.Do`. -/
structure AuthResult where
  resp : Option AuthResponse
  err : Option AuthError
  client : bushtalk.Client
  sent : List AuthRequest
  deriving DecidableEq, Repr

/-- The request `Authenticate` posts, with the common headers of `setHeaders`. -/
def bushtalk.Client.authRequest (c : bushtalk.Client) (username password : GoString) :
    AuthRequest :=
  { Method := str "POST", URL := c.baseURL ++ str "/api/authenticate",
    Header := GoMap.set (GoMap.set (GoMap.set [] (str "Content-Type")
      (str "application/json")) (str "X-BTR-CLIENT-NAME") ClientName)
      (str "X-BTR-CLIENT-VERSION") ClientVersion,
    Username := username, Password := password }

/-- Authenticate logs in with username/password and returns auth response -/
def bushtalk.Client.Authenticate (env : AuthEnv) (c : bushtalk.Client)
    (username password : GoString) : AuthResult :=
  if env.NewRequestOk (c.baseURL ++ str "/api/authenticate") = false then
    ⟨none, some AuthError.createRequest, c, []⟩
  else
    let req := c.authRequest username password
    match env.Do req with
    | none => ⟨none, some AuthError.transport, c, [req]⟩
    | some resp =>
      if resp.StatusCode ≠ 200 then ⟨none, some (AuthError.status resp.StatusCode), c, [req]⟩
      else
        match resp.Body with
        | none => ⟨none, some AuthError.decode, c, [req]⟩
        | some authResp => ⟨some authResp, none, { c with token := authResp.IDToken }, [req]⟩

/-! ## xplane/client.go: the session, and main.go: the forwarder -/

/-- A websocket connection: whether `Close` has been called on it. -/
structure Conn where
  closed : Bool
  deriving DecidableEq, Repr

/-- Client handles WebSocket communication with X-Plane.  A nil `conn` or `datarefMap`
is `none`; `onConnect` and `onDisconnect` tell whether a callback is set; `stopClosed`
and `doneClosed` tell whether the channels `stopCh` and `doneCh` are closed. -/
structure xplane.Client where
  connected : Bool
  position : Position
  port : Int := 0
  conn : Option Conn := none
  datarefMap : Option DatarefMap := none
  reverseMap : GoMap Int GoString := []
  onConnect : Bool := false
  onDisconnect : Bool := false
  stopClosed : Bool := false
  doneClosed : Bool := false
  deriving DecidableEq, Repr

/-- A run-time panic. -/
inductive Fault where
  | closeOfClosedChannel
  | nilDereference
  deriving DecidableEq, Repr

/-- Result of a call that may panic. -/
inductive Outcome (α : Type) where
  | ok (a : α)
  | panic (f : Fault)
  deriving DecidableEq, Repr

/-- What a session does that others observe: the two notifications, the start of the
read task, and the closing of the connection and of the two channels. -/
inductive SessionEvent where
  | OnConnect
  | OnDisconnect
  | ReadLoopStarted
  | ConnClosed
  | StopClosed
  | DoneClosed
  deriving DecidableEq, Repr

/-- The zero value of `Position`. -/
def zeroPosition : Position :=
  { Latitude := F64.zero, Longitude := F64.zero, AltitudeAGL := F64.zero,
    Groundspeed := F64.zero, Heading := F64.zero, TailNumber := [], Timestamp := 0 }

/-- NewClient creates a new X-Plane client -/
def xplane.NewClient (port : Int) : xplane.Client :=
  { connected := false, position := zeroPosition, port := port }

/-- SetCallbacks sets connection state callbacks -/
def xplane.Client.SetCallbacks (c : xplane.Client) (onConnect onDisconnect : Bool) :
    xplane.Client :=
  { c with onConnect := onConnect, onDisconnect := onDisconnect }

/-- IsConnected returns true if connected to X-Plane -/
def xplane.Client.IsConnected (c : xplane.Client) : Bool := c.connected

/-- GetPosition returns the current position -/
def xplane.Client.GetPosition (c : xplane.Client) : Position := c.position

/-- The subscription request: `req_id`, `type` (here `MsgType`) and the identifiers
listed in `params`. -/
structure SubscribeMessage where
  ReqID : Int
  MsgType : GoString
  Datarefs : List Int
  deriving DecidableEq, Repr

/-- What `Connect` calls outside the package: the REST endpoint of the resolver,
`websocket.DefaultDialer.Dial` (whether it succeeds for the URL) and `conn.WriteJSON`
(whether it succeeds for the message). -/
structure ConnectEnv where
  rest : RestEnv
  Dial : GoString → Bool
  WriteJSON : SubscribeMessage → Bool

/-- The message `subscribe` sends: one entry for every entry of `datarefMap`, in the
order the `range` visits them. -/
def xplane.Client.subscribeMessage (c : xplane.Client) : SubscribeMessage :=
  { ReqID := 1, MsgType := str "dataref_subscribe_values",
    Datarefs := (c.datarefMap.getD []).map Prod.snd }

/-- The errors `Connect` returns, by stage. -/
inductive ConnectError where
  | resolve (f : ResolveFailure)
  | dial
  | subscribe
  deriving DecidableEq, Repr

/-- Outcome of `Connect`: the session afterwards, the returned error (`none` for nil)
and what happened, in order. -/
structure ConnectResult where
  client : xplane.Client
  err : Option ConnectError
  events : List SessionEvent
  deriving DecidableEq, Repr

/-- The URL `Connect` dials. -/
def wsURL (port : Int) : GoString := str "ws://localhost:" ++ formatInt port ++ str "/api/v3"

/-- The assignments `c.datarefMap = datarefMap` and
`c.reverseMap = datarefMap.ReverseMap()` of `Connect`. -/
def xplane.Client.withDatarefs (c : xplane.Client) (datarefMap : Option DatarefMap) :
    xplane.Client :=
  { c with datarefMap := datarefMap, reverseMap := ReverseMap (datarefMap.getD []) }

/-- The assignment `c.conn = conn` of `Connect`, for a connection just opened. -/
def xplane.Client.withConn (c : xplane.Client) : xplane.Client :=
  { c with conn := some ⟨false⟩ }

/-- Connect resolves dataref IDs and establishes WebSocket connection -/
def xplane.Client.Connect (env : ConnectEnv) (c : xplane.Client) : ConnectResult :=
  match (ResolveDatarefIDs env.rest c.port AllDatarefs).2 with
  | some err => ⟨c, some (ConnectError.resolve err), []⟩
  | none =>
    let c1 := c.withDatarefs (ResolveDatarefIDs env.rest c.port AllDatarefs).1
    if env.Dial (wsURL c.port) = false then ⟨c1, some ConnectError.dial, []⟩
    else
      let c2 := c1.withConn
      if env.WriteJSON c2.subscribeMessage = false then
        ⟨{ c2 with conn := some ⟨true⟩ }, some ConnectError.subscribe, [SessionEvent.ConnClosed]⟩
      else
        ⟨{ c2 with connected := true }, none,
          (if c2.onConnect then [SessionEvent.OnConnect] else [])
            ++ [SessionEvent.ReadLoopStarted]⟩

/-- Disconnect closes the WebSocket connection -/
def xplane.Client.Disconnect (c : xplane.Client) :
    Outcome (xplane.Client × List SessionEvent) :=
  if c.stopClosed then Outcome.panic Fault.closeOfClosedChannel
  else
    match c.conn with
    | none =>
      Outcome.ok ({ c with stopClosed := true, connected := false }, [SessionEvent.StopClosed])
    | some _ =>
      Outcome.ok ({ c with stopClosed := true, conn := some ⟨true⟩, connected := false },
        [SessionEvent.StopClosed, SessionEvent.ConnClosed])

/-- What `conn.ReadMessage` and `json.Unmarshal` deliver to the read task: a read
error, a message that does not unmarshal, or a message with its `data` member (`none`
when absent) and the time at which it is processed. -/
inductive Incoming where
  | readError
  | malformed
  | frame (data : Option (List (GoString × JValue))) (now : Nat)

/-- How a run of the read task stands: ended, waiting for the next message, or
panicked. -/
inductive ReadLoopStatus where
  | exited
  | blocked
  | panicked (f : Fault)
  deriving DecidableEq, Repr

/-- Outcome of a run of the read task. -/
structure ReadLoopResult where
  client : xplane.Client
  events : List SessionEvent
  status : ReadLoopStatus
  deriving DecidableEq, Repr

/-- The deferred function of `readLoop`: mark not connected, close `doneCh`, call
`onDisconnect` if it is set. -/
def xplane.Client.readLoopExit (c : xplane.Client) : ReadLoopResult :=
  if c.doneClosed then
    ⟨{ c with connected := false }, [], ReadLoopStatus.panicked Fault.closeOfClosedChannel⟩
  else
    ⟨{ c with connected := false, doneClosed := true },
      [SessionEvent.DoneClosed] ++ (if c.onDisconnect then [SessionEvent.OnDisconnect] else []),
      ReadLoopStatus.exited⟩

/-- The call `c.updatePosition(resp.Data)` of the read task. -/
def xplane.Client.applyFrame (impl : F64 → Nat) (c : xplane.Client)
    (data : List (GoString × JValue)) (now : Nat) : xplane.Client :=
  { c with position := updatePosition impl c.reverseMap c.position data now }

/-- readLoop continuously reads WebSocket messages and updates position: a run over the
messages that arrive.  Reading from a closed connection is a read error. -/
def xplane.Client.readLoop (impl : F64 → Nat) : List Incoming → xplane.Client → ReadLoopResult
  | [], c =>
    if c.stopClosed then c.readLoopExit
    else
      match c.conn with
      | none => { c.readLoopExit with status := ReadLoopStatus.panicked Fault.nilDereference }
      | some conn => if conn.closed then c.readLoopExit else ⟨c, [], ReadLoopStatus.blocked⟩
  | msg :: rest, c =>
    if c.stopClosed then c.readLoopExit
    else
      match c.conn with
      | none => { c.readLoopExit with status := ReadLoopStatus.panicked Fault.nilDereference }
      | some conn =>
        if conn.closed then c.readLoopExit
        else
          match msg with
          | Incoming.readError => c.readLoopExit
          | Incoming.malformed => xplane.Client.readLoop impl rest c
          | Incoming.frame none _ => xplane.Client.readLoop impl rest c
          | Incoming.frame (some data) now =>
            xplane.Client.readLoop impl rest (c.applyFrame impl data now)

/-- A run of the read task has ended the session: the task has returned, the session is
marked not connected, `doneCh` is closed and was closed exactly once, and the
disconnected-notification, when one is set, has fired (once). -/
def ReadLoopResult.Ended (r : ReadLoopResult) (onDisconnect : Bool) : Prop :=
  r.status = ReadLoopStatus.exited ∧ r.client.connected = false ∧ r.client.doneClosed = true
    ∧ r.events.count SessionEvent.DoneClosed = 1
    ∧ r.events.count SessionEvent.OnDisconnect = (if onDisconnect then 1 else 0)

instance (r : ReadLoopResult) (onDisconnect : Bool) : Decidable (r.Ended onDisconnect) :=
  inferInstanceAs (Decidable (_ ∧ _ ∧ _ ∧ _ ∧ _))

/-! ## config/config.go -/

/-- Config holds application configuration -/
structure Config where
  Username : GoString
  ApiToken : GoString
  ApiURL : GoString
  XPlanePort : Int
  ShowConsole : Bool
  deriving DecidableEq, Repr

/-- DefaultConfig returns configuration with default values -/
def DefaultConfig : Config :=
  { Username := [], ApiToken := [], ApiURL := str "https://bushtalkradio.com",
    XPlanePort := 8086, ShowConsole := false }

/-- HasCredentials returns true if username and token are saved -/
def Config.HasCredentials (c : Config) : Bool := c.Username != [] && c.ApiToken != []

/-! ## ui/login.go -/

/-- What the status label of the login window shows: nothing, "Please enter username
and password", "Invalid X-Plane port", "Connecting...", or "Login failed: " with the
error. -/
inductive LoginStatus where
  | blank
  | enterCredentials
  | invalidPort
  | connecting
  | loginFailed (err : AuthError)
  deriving DecidableEq, Repr

/-- The fields of `LoginWindow` that `handleLogin` reads and writes: the client, the
texts and check marks of the form, whether the button is enabled, the status label,
whether the window is shown.  The field `cfg` is a pointer to the configuration of
`App`: the functions below take that configuration and give it back.  The field
`client` is a pointer too; `handleLogin` replaces it by a new client before it is first
used, so nothing is ever written through it to the client of `App`. -/
structure LoginWindow where
  client : bushtalk.Client
  usernameEntry : GoString
  passwordEntry : GoString
  rememberCheck : Bool
  portEntry : GoString
  apiURLEntry : GoString
  consoleCheck : Bool
  loginButtonEnabled : Bool
  statusLabel : LoginStatus
  shown : Bool
  deriving DecidableEq, Repr

/-- NewLoginWindow creates a new login window; `buildUI` fills the form from the
configuration. -/
def NewLoginWindow (cfg : Config) (client : bushtalk.Client) : LoginWindow :=
  { client := client, usernameEntry := cfg.Username, passwordEntry := [],
    rememberCheck := cfg.HasCredentials, portEntry := formatInt cfg.XPlanePort,
    apiURLEntry := cfg.ApiURL, consoleCheck := cfg.ShowConsole, loginButtonEnabled := true,
    statusLabel := LoginStatus.blank, shown := false }

/-- Show displays the login window -/
def LoginWindow.Show (l : LoginWindow) : LoginWindow := { l with shown := true }

/-- Hide hides the login window -/
def LoginWindow.Hide (l : LoginWindow) : LoginWindow := { l with shown := false }

/-- Outcome of `handleLogin`, its goroutine run to the end: the window and the shared
configuration afterwards, the requests `Authenticate` handed to `httpClient.Do`, the
configuration handed to `Save` (`none`: not saved), and the token `onSuccess` was called
with (`none`: not called). -/
structure LoginResult where
  window : LoginWindow
  cfg : Config
  sent : List AuthRequest
  saved : Option Config
  onSuccess : Option GoString
  deriving DecidableEq, Repr

/-- The state of the login window once the form is accepted: the new client for the
entered URL, the button disabled, "Connecting...". -/
def LoginWindow.connecting (l : LoginWindow) (client : bushtalk.Client) : LoginWindow :=
  { l with client := client, loginButtonEnabled := false, statusLabel := LoginStatus.connecting }

/-- The state of the login window after a failed `Authenticate`. -/
def LoginWindow.failed (l : LoginWindow) (err : AuthError) : LoginWindow :=
  { l with loginButtonEnabled := true, statusLabel := LoginStatus.loginFailed err }

/-- The configuration with the port, the API URL and the console mark of the form. -/
def Config.withForm (c : Config) (port : Int) (apiURL : GoString) (console : Bool) : Config :=
  { c with XPlanePort := port, ApiURL := apiURL, ShowConsole := console }

/-- The configuration with the credentials of a successful login. -/
def Config.withCredentials (c : Config) (username token : GoString) : Config :=
  { c with Username := username, ApiToken := token }

/-- The method `handleLogin` of `LoginWindow`, on the shared configuration `cfg`.  The
port is read with `fmt.Sscanf(text, "%d", &port)` into a zero `port`, which a failed
scan leaves at zero, so the test `err != nil || port <= 0` is `scanID text ≤ 0`.  A nil
bundle together with a nil error, which `Authenticate` never returns, would make
`authResp.IDToken` panic. -/
def LoginWindow.handleLogin (env : AuthEnv) (l : LoginWindow) (cfg : Config) :
    Outcome LoginResult :=
  let username := l.usernameEntry
  let password := l.passwordEntry
  if username = [] ∨ password = [] then
    Outcome.ok ⟨{ l with statusLabel := LoginStatus.enterCredentials }, cfg, [], none, none⟩
  else
    let port := scanID l.portEntry
    if port ≤ 0 then
      Outcome.ok ⟨{ l with statusLabel := LoginStatus.invalidPort }, cfg, [], none, none⟩
    else
      let cfg1 := cfg.withForm port l.apiURLEntry l.consoleCheck
      let r := (bushtalk.NewClient cfg1.ApiURL).Authenticate env username password
      let l1 := l.connecting r.client
      match r.err, r.resp with
      | some err, _ => Outcome.ok ⟨l1.failed err, cfg1, r.sent, none, none⟩
      | none, none => Outcome.panic Fault.nilDereference
      | none, some authResp =>
        if l.rememberCheck then
          Outcome.ok ⟨l1, cfg1.withCredentials username authResp.IDToken, r.sent,
            some (cfg1.withCredentials username authResp.IDToken), some authResp.IDToken⟩
        else Outcome.ok ⟨l1, cfg1, r.sent, none, some authResp.IDToken⟩

/-! ## main.go: the application -/

/-- The fields of `App` that the forwarder, the stop handlers and the login use; a nil
`xplaneClient` is `none`, `statusWindow` tells whether the status window exists,
`stopCh` is `none` for a nil channel and otherwise tells whether the channel is closed,
`cfg` is the configuration `a.cfg` points to, `loginWindow` is `none` for nil. -/
structure App where
  bushtalkClient : bushtalk.Client
  xplaneClient : Option xplane.Client
  statusWindow : Bool
  stopCh : Option Bool := none
  cfg : Config := DefaultConfig
  loginWindow : Option LoginWindow := none
  deriving DecidableEq, Repr

/-- The method `stopTracking` of `App`: close `stopCh` unless it is nil. -/
def App.stopTracking (a : App) : Outcome App :=
  match a.stopCh with
  | none => Outcome.ok a
  | some true => Outcome.panic Fault.closeOfClosedChannel
  | some false => Outcome.ok { a with stopCh := some true }

/-- The statement `if a.xplaneClient != nil { a.xplaneClient.Disconnect() }` of the
handlers of the status window. -/
def App.disconnectSession (a : App) : Outcome App :=
  match a.xplaneClient with
  | none => Outcome.ok a
  | some x =>
    match x.Disconnect with
    | Outcome.panic f => Outcome.panic f
    | Outcome.ok r => Outcome.ok { a with xplaneClient := some r.1 }

/-- The handlers of the status window (disconnect, sign out, window closed) up to their
call of `Disconnect`: `a.stopTracking()` and then the guarded `Disconnect()`. -/
def App.statusWindowStop (a : App) : Outcome App :=
  match a.stopTracking with
  | Outcome.panic f => Outcome.panic f
  | Outcome.ok a1 => a1.disconnectSession

/-- The stop case of the supervisor's wait on an active session:
`a.xplaneClient.Disconnect(); return`. -/
def App.supervisorStop (a : App) : Outcome App :=
  match a.xplaneClient with
  | none => Outcome.panic Fault.nilDereference
  | some x =>
    match x.Disconnect with
    | Outcome.panic f => Outcome.panic f
    | Outcome.ok r => Outcome.ok { a with xplaneClient := some r.1 }

/-- The method `showStatusWindow` of `App`: the status window is created and shown. -/
def App.showStatusWindow (a : App) : App := { a with statusWindow := true }

/-- The method `startTracking` of `App`: a new stop channel is made, the supervisor and
the forwarder are started. -/
def App.startTracking (a : App) : App := { a with stopCh := some false }

/-- The method `showLoginWindow` of `App`: the login window is created with the
configuration and the client of the application, and shown. -/
def App.showLoginWindow (a : App) : App :=
  { a with loginWindow := some (NewLoginWindow a.cfg a.bushtalkClient).Show }

/-- The function `showLoginWindow` passes as `onSuccess`: the token is set on the client
of the application, the login window is hidden, the status window is shown and
tracking starts. -/
def App.loginSucceeded (a : App) (token : GoString) : App :=
  let a1 : App := { a with bushtalkClient := a.bushtalkClient.SetToken token }
  let a2 : App := { a1 with loginWindow := a1.loginWindow.map LoginWindow.Hide }
  a2.showStatusWindow.startTracking

/-- The application once `handleLogin` has run: the shared configuration and the login
window are as `handleLogin` left them. -/
def App.afterLogin (a : App) (r : LoginResult) : App :=
  { a with cfg := r.cfg, loginWindow := some r.window }

/-- The login button is pressed (or the password submitted): `handleLogin` runs on the
login window and the shared configuration, and calls `onSuccess` when the login
succeeds. -/
def App.handleLogin (env : AuthEnv) (a : App) : Outcome App :=
  match a.loginWindow with
  | none => Outcome.ok a
  | some l =>
    match l.handleLogin env a.cfg with
    | Outcome.panic f => Outcome.panic f
    | Outcome.ok r =>
      match r.onSuccess with
      | none => Outcome.ok (a.afterLogin r)
      | some token => Outcome.ok ((a.afterLogin r).loginSucceeded token)

/-- The function `main` from the point where `config.Load` has returned `cfg`, up to
`fyneApp.Run()`. -/
def main (cfg : Config) : App :=
  let a : App :=
    { bushtalkClient := bushtalk.NewClient cfg.ApiURL, xplaneClient := none,
      statusWindow := false, cfg := cfg }
  if cfg.HasCredentials then
    (App.showStatusWindow { a with bushtalkClient := a.bushtalkClient.SetToken cfg.ApiToken }).startTracking
  else a.showLoginWindow

/-- What one run of `sendPosition` does, in order: the update of the status window,
the call of `SendPosition` with its outcome, the update of the last-sent time, the log
line "Failed to send position". -/
inductive ForwardEvent where
  | UpdatePosition (pos : Position)
  | SendPosition (payload : TrackPayload) (result : SendResult)
  | SetLastSent (t : Nat)
  | LogFailure (err : SendError)
  deriving DecidableEq, Repr

/-- The record of a publish call. -/
def ForwardEvent.record : ForwardEvent → Option TrackPayload
  | ForwardEvent.SendPosition payload _ => some payload
  | _ => none

/-- Whether an event is a call of `SendPosition`. -/
def ForwardEvent.isPublish : ForwardEvent → Bool
  | ForwardEvent.SendPosition _ _ => true
  | _ => false

/-- The float64 constant 3.28084 (meters to feet). -/
def feetPerMeter : F64 := F64.ofRatio false 328084 100000

/-- The float64 constant 1.94384 (m/s to knots). -/
def knotsPerMps : F64 := F64.ofRatio false 194384 100000

/-- The float64 constant 1.0. -/
def oneMeter : F64 := F64.ofNat 1

/-- The record `sendPosition` builds from a snapshot. -/
def toPayload (pos : Position) : TrackPayload :=
  { Latitude := pos.Latitude,
    Longitude := pos.Longitude,
    AltitudeAGL := pos.AltitudeAGL.mul feetPerMeter,
    GroundVelocity := pos.Groundspeed.mul knotsPerMps,
    Heading := pos.Heading,
    TailNumber := pos.TailNumber,
    OnGround := pos.AltitudeAGL.lt oneMeter }

/-- The method `sendPosition` of `App`, one forward tick; `now` is `time.Now()`. -/
def App.sendPosition (env : HttpEnv) (a : App) (now : Nat) : List ForwardEvent :=
  match a.xplaneClient with
  | none => []
  | some x =>
    if x.connected = false then []
    else
      let pos := x.position
      if pos.IsValid = false then []
      else
        let ui := if a.statusWindow then [ForwardEvent.UpdatePosition pos] else []
        let payload := toPayload pos
        let r := a.bushtalkClient.SendPosition env payload
        match r.err with
        | some err => ui ++ [ForwardEvent.SendPosition payload r, ForwardEvent.LogFailure err]
        | none =>
          ui ++ [ForwardEvent.SendPosition payload r]
            ++ (if a.statusWindow then [ForwardEvent.SetLastSent now] else [])

/-! ## main.go: the reconnection supervisor

Time is counted in nanoseconds.  `Connect`, the life of a session, the scheduler and the
other tasks of the program (the handlers of the status window, which close and replace
`a.stopCh` and call `Disconnect`) are outside the loop: every turn of the loop is given
how they go. -/

/-- The constant `reconnectDelay`, `5 * time.Second`. -/
def reconnectDelay : Nat := 5 * 1000000000

/-- Whether the stop channel, closed at the time `stopAt` (`none`: never), is closed at
the time `t`. -/
def stopFired (stopAt : Option Nat) (t : Nat) : Bool :=
  match stopAt with
  | some s => decide (s ≤ t)
  | none => false

/-- Which case of a `select` over the stop channel and one other channel runs; `never`
when neither channel ever becomes ready. -/
inductive Woke where
  | stop
  | other
  | never
  deriving DecidableEq, Repr

/-- A `select` over the stop channel and one other channel, entered at the time `t`.  The
stop channel is the one `a.stopCh` holds at `t`, closed at the time `stopAt` (`none`:
never); the other channel is ready from the time `ready` on (`none`: never).  A channel
that is ready at `t` is ready at once.  The case of the channel that is ready first
runs: a blocked `select` is woken by the first communication that can proceed, for the
case of that communication.  When both are ready at the same time, `pickOther` tells
which case runs.  The case runs `latency` after its channel is ready; the result is
the case and that time. -/
def selectStop (stopAt : Option Nat) (t : Nat) (ready : Option Nat) (latency : Nat)
    (pickOther : Bool) : Woke × Nat :=
  match stopAt, ready with
  | none, none => (Woke.never, t)
  | some s, none => (Woke.stop, max s t + latency)
  | none, some r => (Woke.other, max r t + latency)
  | some s, some r =>
    if max s t < max r t then (Woke.stop, max s t + latency)
    else if max r t < max s t then (Woke.other, max r t + latency)
    else ((if pickOther then Woke.other else Woke.stop), max s t + latency)

/-- How one turn of the supervisor loop goes: how long `Connect` takes and whether it
succeeds, how long the session lives after that (`none`: it never ends), how late the
timers of `time.After` fire, for each `select` the latency and the choice between two
cases ready at the same time, and `atStop`: the session `a.xplaneClient` points to, in
the state it has when the stop case of the wait on the active session calls
`Disconnect()` on it (a handler of the status window may have called `Disconnect()` on
it before). -/
structure Turn where
  connectTakes : Nat
  connectOk : Bool
  sessionLasts : Option Nat
  timerLate : Nat
  latency1 : Nat
  pick1 : Bool
  latency2 : Nat
  pick2 : Bool
  atStop : xplane.Client
  deriving DecidableEq, Repr

/-- What the supervisor does, with the time: it creates a session, calls `Connect`,
sees it fail or succeed, sees the session end, calls `Disconnect`, returns, or panics;
`Blocked` when a `select` never wakes, `Pending` when the loop goes on beyond the turns
given. -/
inductive SupervisorEvent where
  | NewSession (t : Nat)
  | Connect (t : Nat)
  | ConnectFailed (t : Nat)
  | Connected (t : Nat)
  | SessionEnded (t : Nat)
  | Disconnect (t : Nat)
  | Returned (t : Nat)
  | Panicked (t : Nat) (f : Fault)
  | Blocked (t : Nat)
  | Pending (t : Nat)
  deriving DecidableEq, Repr

/-- The time of an event. -/
def SupervisorEvent.time : SupervisorEvent → Nat
  | NewSession t => t
  | Connect t => t
  | ConnectFailed t => t
  | Connected t => t
  | SessionEnded t => t
  | Disconnect t => t
  | Returned t => t
  | Panicked t _ => t
  | Blocked t => t
  | Pending t => t

/-- Whether an event is the creation of a session or a call of `Connect`. -/
def SupervisorEvent.isAttempt : SupervisorEvent → Bool
  | NewSession _ => true
  | Connect _ => true
  | _ => false

/-- After a failed `Connect` at `t1`, a later attempt is at `t1 + reconnectDelay` or
later. -/
def DelayKept (e1 e2 : SupervisorEvent) : Prop :=
  ∀ t1, e1 = SupervisorEvent.ConnectFailed t1 → e2.isAttempt = true →
    t1 + reconnectDelay ≤ e2.time

/-- The wait for the reconnect delay: the `select` over the stop channel and
`time.After(reconnectDelay)`, entered at the time `t`. -/
def waitReconnect (stopAt : Option Nat) (t : Nat) (timerLate latency : Nat) (pick : Bool) :
    Woke × Nat :=
  selectStop stopAt t (some (t + reconnectDelay + timerLate)) latency pick

/-- The stop case of the wait on the active session, at the time `w`:
`a.xplaneClient.Disconnect(); return`, on the session `a.xplaneClient` points to then.
The call panics when the stop channel of that session is already closed. -/
def stopActive (atStop : xplane.Client) (w : Nat) : List SupervisorEvent :=
  match atStop.Disconnect with
  | Outcome.ok _ => [SupervisorEvent.Disconnect w, SupervisorEvent.Returned w]
  | Outcome.panic f => [SupervisorEvent.Disconnect w, SupervisorEvent.Panicked w f]

/-- The method `connectXPlane` of `App`, started at the time `t`, one turn of the loop
for each element of the list.  Every `select` reads `a.stopCh` anew: `stopCh u` stands
for the channel `a.stopCh` holds at the time `u` and is the time at which that channel
is closed (`none`: never); `startTracking` replaces the channel, so `stopCh` need not
be constant.  Creating the session and setting its callbacks take no time. -/
def connectXPlane (stopCh : Nat → Option Nat) : List Turn → Nat → List SupervisorEvent
  | [], t =>
    if stopFired (stopCh t) t then [SupervisorEvent.Returned t]
    else [SupervisorEvent.Pending t]
  | turn :: rest, t =>
    if stopFired (stopCh t) t then [SupervisorEvent.Returned t]
    else
      SupervisorEvent.NewSession t :: SupervisorEvent.Connect t ::
        (if turn.connectOk = false then
          SupervisorEvent.ConnectFailed (t + turn.connectTakes) ::
            (match waitReconnect (stopCh (t + turn.connectTakes)) (t + turn.connectTakes)
                turn.timerLate turn.latency1 turn.pick1 with
             | (Woke.stop, w) => [SupervisorEvent.Returned w]
             | (Woke.other, w) => connectXPlane stopCh rest w
             | (Woke.never, w) => [SupervisorEvent.Blocked w])
        else
          SupervisorEvent.Connected (t + turn.connectTakes) ::
            (match selectStop (stopCh (t + turn.connectTakes)) (t + turn.connectTakes)
                (turn.sessionLasts.map (fun d => t + turn.connectTakes + d)) turn.latency1
                turn.pick1 with
             | (Woke.stop, w) => stopActive turn.atStop w
             | (Woke.never, w) => [SupervisorEvent.Blocked w]
             | (Woke.other, w) =>
               SupervisorEvent.SessionEnded w ::
                 (match waitReconnect (stopCh w) w turn.timerLate turn.latency2
                    turn.pick2 with
                  | (Woke.stop, w2) => [SupervisorEvent.Returned w2]
                  | (Woke.other, w2) => connectXPlane stopCh rest w2
                  | (Woke.never, w2) => [SupervisorEvent.Blocked w2])))

/-- The ways a turn of the loop can go after `Connect` is called at the time `t`, as the
events that follow the call: `Connect` fails and the wait is ended by the stop, or by
the timer (the loop goes on at `w`); `Connect` succeeds and the wait on the session is
ended by the stop, or never, or by the end of the session, after which the wait for
the delay is ended by the stop, or by the timer. -/
def TurnBody (stopCh : Nat → Option Nat) (turn : Turn) (rest : List Turn) (t : Nat)
    (body : List SupervisorEvent) : Prop :=
  (∃ w, body = [SupervisorEvent.ConnectFailed (t + turn.connectTakes),
        SupervisorEvent.Returned w] ∧ t + turn.connectTakes ≤ w)
  ∨ (∃ w, body = SupervisorEvent.ConnectFailed (t + turn.connectTakes) ::
        connectXPlane stopCh rest w
      ∧ t + turn.connectTakes + reconnectDelay ≤ w
      ∧ ∀ s, stopCh (t + turn.connectTakes) = some s →
          t + turn.connectTakes + reconnectDelay ≤ s)
  ∨ (∃ w, body = SupervisorEvent.Connected (t + turn.connectTakes) ::
        stopActive turn.atStop w ∧ t + turn.connectTakes ≤ w)
  ∨ (∃ w, body = [SupervisorEvent.Connected (t + turn.connectTakes),
        SupervisorEvent.Blocked w] ∧ t + turn.connectTakes ≤ w
      ∧ stopCh (t + turn.connectTakes) = none)
  ∨ (∃ w w2, body = [SupervisorEvent.Connected (t + turn.connectTakes),
        SupervisorEvent.SessionEnded w, SupervisorEvent.Returned w2]
      ∧ t + turn.connectTakes ≤ w ∧ w ≤ w2)
  ∨ (∃ w w2, body = SupervisorEvent.Connected (t + turn.connectTakes) ::
        SupervisorEvent.SessionEnded w :: connectXPlane stopCh rest w2
      ∧ t + turn.connectTakes ≤ w ∧ w + reconnectDelay ≤ w2
      ∧ ∀ s, stopCh w = some s → w + reconnectDelay ≤ s)

/-- The stop fired during a wait for the reconnect delay: the event `x` starts such a
wait (a failed `Connect` or the end of a session, at the time `t1`), the channel
`a.stopCh` holds then is closed before the delay has elapsed, and so the loop returns
from the wait: the events after `x` are a single `Returned`. -/
def StopEndsWait (stopCh : Nat → Option Nat) (x : SupervisorEvent)
    (post : List SupervisorEvent) : Prop :=
  ∀ t1, x = SupervisorEvent.ConnectFailed t1 ∨ x = SupervisorEvent.SessionEnded t1 →
    ∀ s, stopCh t1 = some s → s < t1 + reconnectDelay →
      ∃ w, post = [SupervisorEvent.Returned w]

/-- What follows the start of the wait on an active session: the session ends, or the
wait never ends, or the stop case runs `Disconnect()` and the loop returns, or that
call panics. -/
def ActiveWaitEnds (x : SupervisorEvent) (post : List SupervisorEvent) : Prop :=
  ∀ t1, x = SupervisorEvent.Connected t1 →
    (∃ w post2, post = SupervisorEvent.SessionEnded w :: post2)
    ∨ (∃ w, post = [SupervisorEvent.Blocked w])
    ∨ (∃ w, post = [SupervisorEvent.Disconnect w, SupervisorEvent.Returned w])
    ∨ (∃ w, post = [SupervisorEvent.Disconnect w,
          SupervisorEvent.Panicked w Fault.closeOfClosedChannel])

/-! ## Concrete inputs used by the closed statements -/

/-- A conversion result for out-of-range floats, needed to run `DecodeTailNumber`. -/
def impl0 : F64 → Nat := fun _ => 0

/-- Identifiers of the scenario: latitude 10, longitude 11. -/
def scenarioReverseMap : GoMap Int GoString := [(10, DatarefLatitude), (11, DatarefLongitude)]

/-- State before the scenario's first frame: nothing received for latitude and
longitude, the other fields hold earlier values. -/
def scenarioPrior : Position :=
  { Latitude := F64.zero, Longitude := F64.zero, AltitudeAGL := F64.ofRatio false 1205 10,
    Groundspeed := F64.ofNat 55, Heading := F64.ofNat 270, TailNumber := str "N123AB",
    Timestamp := 7 }

/-- The frame `{"10": 37.5, "11": -122.1}`. -/
def scenarioFrame1 : List (GoString × JValue) :=
  [(str "10", JValue.number (F64.ofRatio false 375 10)),
   (str "11", JValue.number (F64.ofRatio true 1221 10))]

/-- The frame `{"10": 37.6}`. -/
def scenarioFrame2 : List (GoString × JValue) :=
  [(str "10", JValue.number (F64.ofRatio false 376 10))]

/-- The frame `{"10": 1, "010": 2}`, visited in this order: two keys that scan to the
identifier 10. -/
def duplicateFrame : List (GoString × JValue) :=
  [(str "10", JValue.number (F64.ofNat 1)), (str "010", JValue.number (F64.ofNat 2))]

/-- A simulator that knows latitude (10, first of two records) and longitude (11) and
answers 404 for every other name. -/
def scenarioRest : RestEnv :=
  { PathEscape := fun s => s,
    NewRequestOk := fun _ => true,
    Do := fun url =>
      if url = str "http://localhost:8086/api/v3/datarefs?filter[name]=" ++ DatarefLatitude then
        some ⟨200, some [⟨10, DatarefLatitude, str "double"⟩, ⟨77, DatarefLatitude, str "float"⟩]⟩
      else if url = str "http://localhost:8086/api/v3/datarefs?filter[name]=" ++ DatarefLongitude
      then some ⟨200, some [⟨11, DatarefLongitude, str "double"⟩]⟩
      else some ⟨404, none⟩ }

/-- A tracking service that answers every request with the given status. -/
def statusEnv (code : Int) : HttpEnv :=
  { NewRequestOk := fun _ => true, Do := fun _ => some ⟨code⟩ }

/-- A client with a token. -/
def scenarioClient : bushtalk.Client :=
  { baseURL := str "https://example.invalid", token := str "tok" }

/-- A connected session whose state is the scenario's after its first frame, with an
altitude of 100 m and a groundspeed of 10 m/s. -/
def scenarioSession : xplane.Client :=
  { connected := true,
    position := { updatePosition impl0 scenarioReverseMap scenarioPrior scenarioFrame1 8 with
                    AltitudeAGL := F64.ofNat 100, Groundspeed := F64.ofNat 10 } }

/-- An application with that session and client. -/
def scenarioApp : App :=
  { bushtalkClient := scenarioClient, xplaneClient := some scenarioSession, statusWindow := true }

/-- An authentication service that answers every request with the given status and
the given decoded body. -/
def authEnv (code : Int) (body : Option AuthResponse) : AuthEnv :=
  { NewRequestOk := fun _ => true, Do := fun _ => some ⟨code, body⟩ }

/-- A token bundle. -/
def scenarioBundle : AuthResponse :=
  { IDToken := str "id-1", RefreshToken := str "refresh-1", UserID := str "42",
    Username := str "pilot", ExpiresIn := 3600 }

/-- A forward mapping in which the simulator gave latitude and longitude the same
identifier. -/
def sharedIdMap : GoMap GoString Int := [(DatarefLatitude, 5), (DatarefLongitude, 5)]

/-- The forward mapping of the scenario. -/
def scenarioForwardMap : GoMap GoString Int := [(DatarefLatitude, 10), (DatarefLongitude, 11)]

/-- A simulator that knows all six instruments, with the identifiers 10 to 15. -/
def fullRest : RestEnv :=
  { PathEscape := fun s => s,
    NewRequestOk := fun _ => true,
    Do := fun url =>
      match (AllDatarefs.zip [10, 11, 12, 13, 14, 15]).find?
          (fun e => url == str "http://localhost:8086/api/v3/datarefs?filter[name]=" ++ e.1) with
      | some e => some ⟨200, some [⟨e.2, e.1, str "double"⟩]⟩
      | none => some ⟨404, none⟩ }

/-- An environment in which every stage of `Connect` succeeds. -/
def goodConnectEnv : ConnectEnv :=
  { rest := fullRest, Dial := fun _ => true, WriteJSON := fun _ => true }

/-- A fresh session with both callbacks set, as the supervisor creates it. -/
def freshSession : xplane.Client := (xplane.NewClient 8086).SetCallbacks true true

/-- An application that is tracking, with the given session. -/
def trackingApp (x : xplane.Client) : App :=
  { bushtalkClient := scenarioClient, xplaneClient := some x, statusWindow := true,
    stopCh := some false }

/-- The session after a successful `Connect`: Active. -/
def activeSession : xplane.Client := (freshSession.Connect goodConnectEnv).client

/-- A turn in which `Connect` fails after one second, with punctual timers and no
latency. -/
def failingTurn : Turn :=
  { connectTakes := 1000000000, connectOk := false, sessionLasts := none, timerLate := 0,
    latency1 := 0, pick1 := true, latency2 := 0, pick2 := true, atStop := freshSession }

/-- The active session after the handler of the status window has called `Disconnect()`
on it. -/
def disconnectedSession : xplane.Client :=
  match activeSession.Disconnect with
  | Outcome.ok r => r.1
  | Outcome.panic _ => activeSession

/-- A turn in which `Connect` succeeds after one second and the session does not end;
when the supervisor sees the stop, `a.xplaneClient` is the session `atStop`. -/
def activeTurn (atStop : xplane.Client) : Turn :=
  { connectTakes := 1000000000, connectOk := true, sessionLasts := none, timerLate := 0,
    latency1 := 0, pick1 := true, latency2 := 0, pick2 := true, atStop := atStop }

/-- The login form of an application started with the default configuration, after the
user has typed a name, a password and another API URL. -/
def typedLogin : LoginWindow :=
  let l0 := (NewLoginWindow DefaultConfig (bushtalk.NewClient DefaultConfig.ApiURL)).Show
  let l1 := { l0 with usernameEntry := str "pilot", passwordEntry := str "secret" }
  { l1 with apiURLEntry := str "https://staging.example" }

/-- The application started with the default configuration, showing that form. -/
def loginApp : App := { main DefaultConfig with loginWindow := some typedLogin }

/-! ## Theorems -/

/-! ### The float64 model on known products

The values on the right are the bit fields an IEEE-754 machine computes. -/

/-- 0.1 * 3 is 0.30000000000000004, the neighbour of 0.3: a product that is rounded. -/
theorem F64.mul_rounds :
    F64.mul ⟨false, 1019, 2702159776422298⟩ (F64.ofNat 3) = ⟨false, 1021, 900719925474100⟩
    ∧ F64.ofRatio false 1 10 = ⟨false, 1019, 2702159776422298⟩
    ∧ F64.ofRatio false 3 10 = ⟨false, 1021, 900719925474099⟩ := by decide

/-- Products in the subnormal range: ties go to the even neighbour, and the sign of a
zero is kept. -/
theorem F64.mul_subnormal :
    F64.mul ⟨false, 0, 1⟩ ⟨false, 1022, 0⟩ = ⟨false, 0, 0⟩
    ∧ F64.mul ⟨false, 0, 1⟩ ⟨false, 1023, 2251799813685248⟩ = ⟨false, 0, 2⟩
    ∧ F64.mul ⟨false, 1, 556456705312269⟩ ⟨false, 1022, 0⟩ = ⟨false, 0, 2530028166341382⟩
    ∧ F64.mul ⟨true, 0, 0⟩ (F64.ofNat 5) = ⟨true, 0, 0⟩ := by
  set_option exponentiation.threshold 4096 in decide

/-- A product beyond the largest finite value is an infinity. -/
theorem F64.mul_overflows :
    F64.mul ⟨false, 1687, 1379993793290842⟩ ⟨false, 1687, 1379993793290842⟩ = F64.inf false
    ∧ F64.mul ⟨true, 1687, 1379993793290842⟩ ⟨false, 1687, 1379993793290842⟩ = F64.inf true := by
  set_option exponentiation.threshold 4096 in decide

/-- The conversion of 123456.789 m to feet. -/
theorem F64.mul_feet :
    F64.mul ⟨false, 1039, 3980286312216265⟩ (F64.ofRatio false 328084 100000)
      = ⟨false, 1041, 2454968459137961⟩ := by decide

/-! ### Frame decoding (`updatePosition`) -/

theorem dataref_names_distinct : AllDatarefs.Nodup := by decide

theorem getLast?_cons_getD {α : Type} (v d : α) (l : List α) :
    ((v :: l).getLast?).getD d = (l.getLast?).getD v := by
  cases l with
  | nil => rfl
  | cons a t =>
    rw [List.getLast?_cons_cons]
    cases h : (a :: t).getLast? with
    | none => simp at h
    | some x => rfl

/-- One entry changes a numeric field exactly when it feeds that field's instrument. -/
theorem updateEntry_numeric (impl : F64 → Nat) (rm : GoMap Int GoString) (p : Position)
    (e : GoString × JValue) (nf : GoString × (Position → F64)) (h : nf ∈ numericFields) :
    nf.2 (updateEntry impl rm p e) = (feeds rm nf.1 e).getD (nf.2 p) := by
  have hd := dataref_names_distinct
  simp only [AllDatarefs, List.nodup_cons, List.mem_cons, List.mem_singleton, not_or,
    List.not_mem_nil, not_false_eq_true, List.nodup_nil, and_true] at hd
  obtain ⟨⟨h12, h13, h14, h15, h16⟩, ⟨h23, h24, h25, h26⟩, ⟨h34, h35, h36⟩, ⟨h45, h46⟩, h56⟩ := hd
  simp only [numericFields, List.mem_cons, List.mem_singleton, List.not_mem_nil, or_false] at h
  simp only [updateEntry, feeds]
  generalize DatarefLatitude = n1 at *
  generalize DatarefLongitude = n2 at *
  generalize DatarefAltitudeAGL = n3 at *
  generalize DatarefGroundspeed = n4 at *
  generalize DatarefHeading = n5 at *
  generalize DatarefTailNum = n6 at *
  cases hg : GoMap.get rm (scanID e.1) with
  | none => simp
  | some name =>
    simp only [Option.some.injEq]
    have h21 : ¬ n2 = n1 := fun hh => h12 hh.symm
    have h31 : ¬ n3 = n1 := fun hh => h13 hh.symm
    have h41 : ¬ n4 = n1 := fun hh => h14 hh.symm
    have h51 : ¬ n5 = n1 := fun hh => h15 hh.symm
    have h61 : ¬ n6 = n1 := fun hh => h16 hh.symm
    have h32 : ¬ n3 = n2 := fun hh => h23 hh.symm
    have h42 : ¬ n4 = n2 := fun hh => h24 hh.symm
    have h52 : ¬ n5 = n2 := fun hh => h25 hh.symm
    have h62 : ¬ n6 = n2 := fun hh => h26 hh.symm
    have h43 : ¬ n4 = n3 := fun hh => h34 hh.symm
    have h53 : ¬ n5 = n3 := fun hh => h35 hh.symm
    have h63 : ¬ n6 = n3 := fun hh => h36 hh.symm
    have h54 : ¬ n5 = n4 := fun hh => h45 hh.symm
    have h64 : ¬ n6 = n4 := fun hh => h46 hh.symm
    have h65 : ¬ n6 = n5 := fun hh => h56 hh.symm
    by_cases c : name = nf.1
    · rcases h with h | h | h | h | h <;> subst h <;> dsimp only at c ⊢ <;> subst c <;>
        simp only [h12, h13, h14, h15, h16, h23, h24, h25, h26, h34, h35, h36, h45, h46, h56, h21, h31, h41, h51, h61, h32, h42, h52, h62, h43, h53, h63, h54, h64, h65, if_true, if_false] <;>
        cases e.2 <;> rfl
    · rcases h with h | h | h | h | h <;> subst h <;> dsimp only at c ⊢ <;>
        simp only [c, if_false] <;> split_ifs <;> cases e.2 <;> rfl

theorem foldl_updateEntry_numeric (impl : F64 → Nat) (rm : GoMap Int GoString)
    (data : List (GoString × JValue)) (p : Position) (nf : GoString × (Position → F64))
    (h : nf ∈ numericFields) :
    nf.2 (data.foldl (updateEntry impl rm) p)
      = ((data.filterMap (feeds rm nf.1)).getLast?).getD (nf.2 p) := by
  induction data generalizing p with
  | nil => rfl
  | cons e es ih =>
    rw [List.foldl_cons, ih, updateEntry_numeric impl rm p e nf h, List.filterMap_cons]
    cases hf : feeds rm nf.1 e with
    | none => simp
    | some v => simp [getLast?_cons_getD]

theorem updateEntry_absent (impl : F64 → Nat) (rm : GoMap Int GoString) (p : Position)
    (e : GoString × JValue) (h : (GoMap.get rm (scanID e.1)).isSome = false) :
    updateEntry impl rm p e = p := by
  cases hg : GoMap.get rm (scanID e.1) with
  | none => simp only [updateEntry, hg]
  | some name => rw [hg] at h; cases h

theorem foldl_updateEntry_filter (impl : F64 → Nat) (rm : GoMap Int GoString)
    (data : List (GoString × JValue)) (p : Position) :
    (data.filter (fun e => (GoMap.get rm (scanID e.1)).isSome)).foldl (updateEntry impl rm) p
      = data.foldl (updateEntry impl rm) p := by
  induction data generalizing p with
  | nil => rfl
  | cons e es ih =>
    cases hg : (GoMap.get rm (scanID e.1)).isSome with
    | true => simp only [List.filter_cons, hg, if_true, List.foldl_cons, ih]
    | false =>
      simp only [List.filter_cons, hg, Bool.false_eq_true, if_false, List.foldl_cons,
        updateEntry_absent impl rm p e hg, ih]

/-- C1 (as amended): for every reverse mapping, prior state and frame, each of latitude,
longitude, altitude, groundspeed and heading ends up equal to the numeric value of the
last entry visited whose key scans to an identifier that the reverse mapping sends to
that instrument, and to its prior value when the frame has no such entry; in particular
it equals the frame's value when exactly one entry feeds the instrument.  Entries whose
identifier is absent from the reverse mapping can be removed from the frame without
changing the result, and the timestamp is refreshed. -/
theorem updatePosition_frame_effect (impl : F64 → Nat) (rm : GoMap Int GoString)
    (p : Position) (data : List (GoString × JValue)) (now : Nat) :
    (∀ nf ∈ numericFields, nf.2 (updatePosition impl rm p data now)
        = ((data.filterMap (feeds rm nf.1)).getLast?).getD (nf.2 p))
    ∧ (∀ nf ∈ numericFields, ∀ v, data.filterMap (feeds rm nf.1) = [v] →
        nf.2 (updatePosition impl rm p data now) = v)
    ∧ (∀ nf ∈ numericFields, data.filterMap (feeds rm nf.1) = [] →
        nf.2 (updatePosition impl rm p data now) = nf.2 p)
    ∧ updatePosition impl rm p
        (data.filter (fun e => (GoMap.get rm (scanID e.1)).isSome)) now
        = updatePosition impl rm p data now
    ∧ (updatePosition impl rm p data now).Timestamp = now := by
  have key : ∀ nf ∈ numericFields, nf.2 (updatePosition impl rm p data now)
      = ((data.filterMap (feeds rm nf.1)).getLast?).getD (nf.2 p) := by
    intro nf hnf
    rw [← foldl_updateEntry_numeric impl rm data p nf hnf]
    simp only [numericFields, List.mem_cons, List.mem_singleton, List.not_mem_nil,
      or_false] at hnf
    rcases hnf with h | h | h | h | h <;> subst h <;> rfl
  refine ⟨key, ?_, ?_, ?_, rfl⟩
  · intro nf hnf v hv
    rw [key nf hnf, hv]; rfl
  · intro nf hnf hv
    rw [key nf hnf, hv]; rfl
  · simp only [updatePosition, foldl_updateEntry_filter]

/-- C1, the scenario: with identifiers latitude 10 and longitude 11 the frame
`{"10": 37.5, "11": -122.1}` gives latitude 37.5, longitude -122.1 and a valid state
with every other field unchanged; the frame `{"10": 37.6}` after it changes the
latitude only (and the timestamp). -/
theorem updatePosition_frame_effect_witness :
    (updatePosition impl0 scenarioReverseMap scenarioPrior scenarioFrame1 8).Latitude
        = F64.ofRatio false 375 10
    ∧ updatePosition impl0 scenarioReverseMap scenarioPrior scenarioFrame1 8
        = { scenarioPrior with Latitude := F64.ofRatio false 375 10,
                               Longitude := F64.ofRatio true 1221 10, Timestamp := 8 }
    ∧ (updatePosition impl0 scenarioReverseMap scenarioPrior scenarioFrame1 8).IsValid = true
    ∧ updatePosition impl0 scenarioReverseMap
          (updatePosition impl0 scenarioReverseMap scenarioPrior scenarioFrame1 8)
          scenarioFrame2 9
        = { updatePosition impl0 scenarioReverseMap scenarioPrior scenarioFrame1 8 with
              Latitude := F64.ofRatio false 376 10, Timestamp := 9 } :=
  ⟨(updatePosition_frame_effect impl0 scenarioReverseMap scenarioPrior scenarioFrame1 8).2.1
      (DatarefLatitude, Position.Latitude) (List.mem_cons_self _ _)
      (F64.ofRatio false 375 10) (by decide),
   by decide, by decide, by decide⟩

/-- C1 as stated fails: the frame `{"10": 1, "010": 2}` carries the numeric value 1
keyed by latitude's identifier 10, yet the resulting latitude is 2, the value of the
entry visited last; visited in the opposite order the frame carries the value 2 for the
identifier 10 and the resulting latitude is 1. -/
theorem updatePosition_duplicate_key_counterexample :
    feeds [(10, DatarefLatitude)] DatarefLatitude (str "10", JValue.number (F64.ofNat 1))
        = some (F64.ofNat 1)
    ∧ feeds [(10, DatarefLatitude)] DatarefLatitude (str "010", JValue.number (F64.ofNat 2))
        = some (F64.ofNat 2)
    ∧ duplicateFrame
        = [(str "10", JValue.number (F64.ofNat 1)), (str "010", JValue.number (F64.ofNat 2))]
    ∧ (updatePosition impl0 [(10, DatarefLatitude)] scenarioPrior duplicateFrame 8).Latitude
        = F64.ofNat 2
    ∧ (updatePosition impl0 [(10, DatarefLatitude)] scenarioPrior duplicateFrame.reverse
        8).Latitude = F64.ofNat 1
    ∧ F64.ofNat 2 ≠ F64.ofNat 1 :=
  ⟨by decide, by decide, rfl, by decide, by decide, by decide⟩

/-! ### Validity of a state -/

theorem F64.eq_zero_iff (x : F64) : x.eq F64.zero = true ↔ x.isZero = true := by
  obtain ⟨s, e, f⟩ := x
  simp only [F64.eq, F64.isNaN, F64.key, F64.zero, F64.isZero, Bool.and_eq_true,
    Bool.not_eq_true', beq_iff_eq, Bool.and_eq_false_iff, bne_iff_ne, ne_eq]
  constructor
  · rintro ⟨-, hk⟩
    have h0 : (e : Int) * 2 ^ 52 + (f : Int) = 0 := by
      cases s <;> simp at hk <;> omega
    constructor <;> omega
  · rintro ⟨rfl, rfl⟩
    cases s <;> simp

/-- A finite value is a zero exactly when the rational it stands for is 0. -/
theorem F64.isZero_iff_toRat (x : F64) : x.isZero = true ↔ x.toRat = 0 := by
  obtain ⟨s, e, f⟩ := x
  have hmag : (⟨s, e, f⟩ : F64).magRat = 0 ↔ (e = 0 ∧ f = 0) := by
    unfold F64.magRat
    by_cases he : e = 0
    · subst he
      simp [F64.mant, F64.exp2]
    · have hm : (⟨s, e, f⟩ : F64).mant = 4503599627370496 + f := by simp [F64.mant, he]
      have hpos : (0 : ℚ) < ((4503599627370496 + f : Nat) : ℚ) := by
        exact_mod_cast (by omega : 0 < 4503599627370496 + f)
      rw [hm]
      constructor
      · intro h
        exfalso
        split_ifs at h
        · have := mul_pos hpos (pow_pos (by norm_num : (0 : ℚ) < 2)
            ((⟨s, e, f⟩ : F64).exp2).toNat)
          linarith
        · have := div_pos hpos (pow_pos (by norm_num : (0 : ℚ) < 2)
            (-(⟨s, e, f⟩ : F64).exp2).toNat)
          linarith
      · rintro ⟨h, -⟩
        exact absurd h he
  have hz : (⟨s, e, f⟩ : F64).isZero = true ↔ (e = 0 ∧ f = 0) := by
    simp [F64.isZero]
  rw [hz, ← hmag]
  unfold F64.toRat
  cases s <;> simp

/-- C6: a state is invalid exactly when latitude and longitude are both zero (of either
sign; for finite coordinates: both stand for the number 0); every other pair of
coordinates is valid: negative ones, out-of-range ones, and pairs of which only one is
zero. -/
theorem IsValid_false_iff (p : Position) :
    (p.IsValid = false ↔ (p.Latitude.isZero = true ∧ p.Longitude.isZero = true))
    ∧ (p.IsValid = false ↔ (p.Latitude.toRat = 0 ∧ p.Longitude.toRat = 0))
    ∧ (p.IsValid = true ↔ ¬ (p.Latitude.isZero = true ∧ p.Longitude.isZero = true))
    ∧ ({ p with Latitude := F64.ofRatio true 339 10, Longitude := F64.ofRatio true 1512 10 }
        : Position).IsValid = true
    ∧ ({ p with Latitude := F64.ofNat 95, Longitude := F64.ofNat 999 } : Position).IsValid = true
    ∧ ({ p with Latitude := F64.zero, Longitude := F64.ofRatio false 5 10 } : Position).IsValid
        = true
    ∧ ({ p with Latitude := F64.ofRatio false 5 10, Longitude := F64.zero } : Position).IsValid
        = true
    ∧ ({ p with Latitude := F64.zero, Longitude := ⟨true, 0, 0⟩ } : Position).IsValid = false := by
  have h1 : p.IsValid = false ↔ (p.Latitude.isZero = true ∧ p.Longitude.isZero = true) := by
    simp only [Position.IsValid, F64.ne, Bool.or_eq_false_iff, Bool.not_eq_false',
      F64.eq_zero_iff]
  refine ⟨h1, ?_, ?_, ?_, ?_, ?_, ?_, ?_⟩
  · rw [h1, F64.isZero_iff_toRat, F64.isZero_iff_toRat]
  · rw [← h1]; cases p.IsValid <;> simp
  all_goals (simp only [Position.IsValid]; decide)

/-! ### Go maps -/

theorem GoMap.get_append_singleton {κ ν : Type} [DecidableEq κ] (m : GoMap κ ν) (k k2 : κ)
    (v : ν) :
    GoMap.get (m ++ [(k, v)]) k2
      = match GoMap.get m k2 with
        | some x => some x
        | none => if k = k2 then some v else none := by
  induction m with
  | nil =>
    by_cases h : k = k2 <;> simp [GoMap.get, List.find?, h]
  | cons e es ih =>
    by_cases h : e.1 = k2
    · simp [GoMap.get, List.find?, h]
    · simp only [GoMap.get, List.cons_append, List.find?, h, decide_False] at ih ⊢
      exact ih

theorem GoMap.get_filter_ne {κ ν : Type} [DecidableEq κ] (m : GoMap κ ν) (k k2 : κ) :
    GoMap.get (m.filter (fun e => !decide (e.1 = k))) k2
      = if k2 = k then none else GoMap.get m k2 := by
  induction m with
  | nil => simp [GoMap.get]
  | cons e es ih =>
    by_cases h : e.1 = k
    · have hf : (e :: es).filter (fun e => !decide (e.1 = k))
          = es.filter (fun e => !decide (e.1 = k)) := by simp [List.filter_cons, h]
      rw [hf, ih]
      by_cases h2 : k2 = k
      · simp [h2]
      · have : ¬ e.1 = k2 := fun hh => h2 (hh ▸ h)
        simp [GoMap.get, List.find?, h2, this]
    · have hf : (e :: es).filter (fun e => !decide (e.1 = k))
          = e :: es.filter (fun e => !decide (e.1 = k)) := by simp [List.filter_cons, h]
      rw [hf]
      by_cases h3 : e.1 = k2
      · have : ¬ k2 = k := fun hh => h (h3 ▸ hh)
        simp [GoMap.get, List.find?, h3, this]
      · simp only [GoMap.get, List.find?, h3, decide_False] at ih ⊢
        exact ih

/-- Reading a map after `m[k] = v`. -/
theorem GoMap.get_set {κ ν : Type} [DecidableEq κ] (m : GoMap κ ν) (k k2 : κ) (v : ν) :
    GoMap.get (GoMap.set m k v) k2 = if k2 = k then some v else GoMap.get m k2 := by
  rw [GoMap.set, GoMap.get_append_singleton, GoMap.get_filter_ne]
  by_cases h : k2 = k
  · simp [h]
  · have h2 : ¬ k = k2 := fun hh => h hh.symm
    simp only [h, h2, if_false]
    cases GoMap.get m k2 <;> rfl

theorem GoMap.mem_keys_iff {κ ν : Type} [DecidableEq κ] (m : GoMap κ ν) (k : κ) :
    k ∈ GoMap.keys m ↔ (GoMap.get m k).isSome = true := by
  induction m with
  | nil => simp [GoMap.keys, GoMap.get]
  | cons e es ih =>
    by_cases h : e.1 = k
    · simp [GoMap.keys, GoMap.get, List.find?, h]
    · have h2 : ¬ k = e.1 := fun hh => h hh.symm
      simp only [GoMap.keys, GoMap.get, List.map_cons, List.mem_cons, h2, false_or,
        List.find?, h, decide_False] at ih ⊢
      exact ih

theorem GoMap.keys_set_nodup {κ ν : Type} [DecidableEq κ] (m : GoMap κ ν) (k : κ) (v : ν)
    (h : (GoMap.keys m).Nodup) : (GoMap.keys (GoMap.set m k v)).Nodup := by
  simp only [GoMap.keys, GoMap.set, List.map_append, List.map_cons, List.map_nil]
  rw [List.nodup_append]
  refine ⟨?_, List.nodup_singleton _, ?_⟩
  · exact (List.Nodup.sublist ((List.filter_sublist m).map _) h)
  · intro a ha hb
    rw [List.mem_singleton] at hb
    subst hb
    rw [List.mem_map] at ha
    obtain ⟨e, he, rfl⟩ := ha
    simpa using (List.mem_filter.mp he).2

/-! ### Identifier resolution (`ResolveDatarefIDs`) -/

/-- When a single query succeeds. -/
theorem resolveDataref_ok_iff (env : RestEnv) (port : Int) (name : GoString) (id : Int) :
    resolveDataref env port name = Except.ok id
      ↔ env.NewRequestOk (apiURL env port name) = true
        ∧ ∃ resp, env.Do (apiURL env port name) = some resp ∧ resp.StatusCode = 200
          ∧ ∃ d ds, resp.Data = some (d :: ds) ∧ d.ID = id := by
  unfold resolveDataref
  cases hreq : env.NewRequestOk (apiURL env port name) with
  | false => simp
  | true =>
    cases hdo : env.Do (apiURL env port name) with
    | none => simp
    | some resp =>
      by_cases hs : resp.StatusCode = 200
      · cases hd : resp.Data with
        | none => simp [hs, hd]
        | some l =>
          cases l with
          | nil => simp [hs, hd]
          | cons d ds => simp [hs, hd]
      · simp [hs]

/-- When a single query fails, and with which error. -/
theorem resolveDataref_error_iff (env : RestEnv) (port : Int) (name : GoString) :
    (∃ e, resolveDataref env port name = Except.error e)
      ↔ env.NewRequestOk (apiURL env port name) = false
        ∨ env.Do (apiURL env port name) = none
        ∨ ∃ resp, env.Do (apiURL env port name) = some resp
            ∧ (resp.StatusCode ≠ 200 ∨ resp.Data = none ∨ resp.Data = some []) := by
  unfold resolveDataref
  cases hreq : env.NewRequestOk (apiURL env port name) with
  | false => simp
  | true =>
    cases hdo : env.Do (apiURL env port name) with
    | none => simp
    | some resp =>
      by_cases hs : resp.StatusCode = 200
      · cases hd : resp.Data with
        | none => simp [hs, hd]
        | some l =>
          cases l with
          | nil => simp [hs, hd]
          | cons d ds => simp [hs, hd]
      · simp [hs]

theorem resolveLoop_ok (env : RestEnv) (port : Int) (names : List GoString)
    (result : DatarefMap)
    (h : ∀ n ∈ names, ∃ id, resolveDataref env port n = Except.ok id) :
    ∃ m, resolveLoop env port names result = (some m, none)
      ∧ (∀ n, GoMap.get m n
          = if n ∈ names then (resolveDataref env port n).toOption else GoMap.get result n)
      ∧ ((GoMap.keys result).Nodup → (GoMap.keys m).Nodup) := by
  induction names generalizing result with
  | nil => exact ⟨result, rfl, by simp, id⟩
  | cons name rest ih =>
    obtain ⟨id, hid⟩ := h name (List.mem_cons_self _ _)
    obtain ⟨m, hm, hget, hnd⟩ :=
      ih (GoMap.set result name id) (fun n hn => h n (List.mem_cons_of_mem _ hn))
    refine ⟨m, ?_, ?_, fun hr => hnd (GoMap.keys_set_nodup result name id hr)⟩
    · simp only [resolveLoop, hid, hm]
    · intro n
      rw [hget n, GoMap.get_set]
      by_cases h1 : n ∈ rest
      · simp [h1]
      · by_cases h2 : n = name
        · subst h2; simp [h1, hid, Except.toOption]
        · simp [h1, h2]

theorem resolveLoop_error (env : RestEnv) (port : Int) (names : List GoString)
    (result : DatarefMap)
    (h : ∃ n ∈ names, ∃ e, resolveDataref env port n = Except.error e) :
    ∃ f, resolveLoop env port names result = (none, some f) ∧ f.name ∈ names
      ∧ resolveDataref env port f.name = Except.error f.cause := by
  induction names generalizing result with
  | nil => obtain ⟨n, hn, -⟩ := h; cases hn
  | cons name rest ih =>
    cases hr : resolveDataref env port name with
    | error err =>
      exact ⟨⟨name, err⟩, by simp only [resolveLoop, hr], List.mem_cons_self _ _, hr⟩
    | ok id =>
      have h2 : ∃ n ∈ rest, ∃ e, resolveDataref env port n = Except.error e := by
        obtain ⟨n, hn, e, he⟩ := h
        rcases List.mem_cons.mp hn with rfl | hn
        · rw [hr] at he; cases he
        · exact ⟨n, hn, e, he⟩
      obtain ⟨f, hf, hmem, hcause⟩ := ih (GoMap.set result name id) h2
      exact ⟨f, by simp only [resolveLoop, hr, hf], List.mem_cons_of_mem _ hmem, hcause⟩

/-- C2: `ResolveDatarefIDs` is all-or-nothing.  It returns an error exactly when the
query for at least one listed name fails (request not built, transport error, status
other than 200, undecodable body, or empty result set), and then the returned map is
nil and the error names a failing instrument; otherwise it returns a map whose key set
is exactly the listed names, each key once, each mapped to the id of the first record
returned for that name. -/
theorem ResolveDatarefIDs_all_or_nothing (env : RestEnv) (port : Int)
    (datarefs : List GoString) :
    ((ResolveDatarefIDs env port datarefs).2.isSome = true
        ↔ ∃ n ∈ datarefs, ∃ e, resolveDataref env port n = Except.error e)
    ∧ ((ResolveDatarefIDs env port datarefs).2.isSome = true
        ↔ ∃ n ∈ datarefs, (env.NewRequestOk (apiURL env port n) = false
            ∨ env.Do (apiURL env port n) = none
            ∨ ∃ resp, env.Do (apiURL env port n) = some resp
                ∧ (resp.StatusCode ≠ 200 ∨ resp.Data = none ∨ resp.Data = some [])))
    ∧ (∀ f, (ResolveDatarefIDs env port datarefs).2 = some f →
        (ResolveDatarefIDs env port datarefs).1 = none ∧ f.name ∈ datarefs
          ∧ resolveDataref env port f.name = Except.error f.cause)
    ∧ ((ResolveDatarefIDs env port datarefs).2 = none →
        ∃ m, (ResolveDatarefIDs env port datarefs).1 = some m
          ∧ (∀ n, n ∈ GoMap.keys m ↔ n ∈ datarefs)
          ∧ (GoMap.keys m).Nodup
          ∧ ∀ n ∈ datarefs, ∃ resp d ds, env.Do (apiURL env port n) = some resp
              ∧ resp.Data = some (d :: ds) ∧ GoMap.get m n = some d.ID) := by
  have hsplit : (∀ n ∈ datarefs, ∃ id, resolveDataref env port n = Except.ok id)
      ∨ ∃ n ∈ datarefs, ∃ e, resolveDataref env port n = Except.error e := by
    by_cases hall : ∀ n ∈ datarefs, ∃ id, resolveDataref env port n = Except.ok id
    · exact Or.inl hall
    · right
      push_neg at hall
      obtain ⟨n, hn, hne⟩ := hall
      refine ⟨n, hn, ?_⟩
      cases hr : resolveDataref env port n with
      | error e => exact ⟨e, rfl⟩
      | ok id => exact absurd hr (hne id)
  have hfirst : (ResolveDatarefIDs env port datarefs).2.isSome = true
      ↔ ∃ n ∈ datarefs, ∃ e, resolveDataref env port n = Except.error e := by
    constructor
    · intro hsome
      rcases hsplit with hall | hex
      · obtain ⟨m, hm, -⟩ := resolveLoop_ok env port datarefs [] hall
        rw [ResolveDatarefIDs, hm] at hsome
        cases hsome
      · exact hex
    · intro hex
      obtain ⟨f, hf, -⟩ := resolveLoop_error env port datarefs [] hex
      rw [ResolveDatarefIDs, hf]; rfl
  refine ⟨hfirst, ?_, ?_, ?_⟩
  · rw [hfirst]
    constructor
    · rintro ⟨n, hn, he⟩
      exact ⟨n, hn, (resolveDataref_error_iff env port n).mp he⟩
    · rintro ⟨n, hn, he⟩
      exact ⟨n, hn, (resolveDataref_error_iff env port n).mpr he⟩
  · intro f hf
    have hex := hfirst.mp (by rw [hf]; rfl)
    obtain ⟨g, hg, hmem, hcause⟩ := resolveLoop_error env port datarefs [] hex
    rw [ResolveDatarefIDs, hg] at hf
    simp only [Option.some.injEq] at hf
    subst hf
    exact ⟨by rw [ResolveDatarefIDs, hg], hmem, hcause⟩
  · intro hnone
    rcases hsplit with hall | hex
    · obtain ⟨m, hm, hget, hnd⟩ := resolveLoop_ok env port datarefs [] hall
      refine ⟨m, by rw [ResolveDatarefIDs, hm], ?_, hnd (by simp [GoMap.keys]), ?_⟩
      · intro n
        rw [GoMap.mem_keys_iff, hget n]
        by_cases hn : n ∈ datarefs
        · obtain ⟨id, hid⟩ := hall n hn
          simp [hn, hid, Except.toOption]
        · simp [hn, GoMap.get]
      · intro n hn
        obtain ⟨id, hid⟩ := hall n hn
        obtain ⟨-, resp, hdo, -, d, ds, hd, hdid⟩ :=
          (resolveDataref_ok_iff env port n id).mp hid
        refine ⟨resp, d, ds, hdo, hd, ?_⟩
        rw [hget n, hid, hdid]
        simp [hn, Except.toOption]
    · have := hfirst.mpr hex
      rw [hnone] at this
      cases this

/-- C2, an example: when latitude and longitude resolve to 10 and 11 the map holds exactly
these two; when the list also asks for the heading, which the simulator answers with
404, the result is nil with an error naming the heading. -/
theorem ResolveDatarefIDs_all_or_nothing_witness :
    ResolveDatarefIDs scenarioRest 8086 [DatarefLatitude, DatarefLongitude]
      = (some [(DatarefLatitude, 10), (DatarefLongitude, 11)], none)
    ∧ (ResolveDatarefIDs scenarioRest 8086
        [DatarefLatitude, DatarefHeading, DatarefLongitude]).1 = none :=
  ⟨by decide,
   ((ResolveDatarefIDs_all_or_nothing scenarioRest 8086
      [DatarefLatitude, DatarefHeading, DatarefLongitude]).2.2.1
      ⟨DatarefHeading, ResolveError.status 404⟩ (by decide)).1⟩

/-! ### Tail-number decoding: base64 -/

theorem decodeMap_encodeChar : ∀ i < 64, decodeMap (encodeChar i) = i := by decide

theorem decodeMap_padChar : decodeMap 61 = 255 := by decide

theorem or_shift_eq (x y k : Nat) (h : y < 2 ^ k) : x <<< k ||| y = x * 2 ^ k + y := by
  rw [Nat.shiftLeft_eq, Nat.mul_comm, Nat.mul_add_lt_is_or h]

theorem and_63 (x : Nat) : x &&& 0x3F = x % 64 := Nat.and_pow_two_sub_one_eq_mod x 6

theorem val3 (a b c : Nat) (hb : b < 256) (hc : c < 256) :
    a <<< 16 ||| b <<< 8 ||| c = a * 65536 + b * 256 + c := by
  have h1 : b <<< 8 = b * 256 := by rw [Nat.shiftLeft_eq]
  rw [h1, or_shift_eq a (b * 256) 16 (by omega)]
  have h2 : a * 2 ^ 16 + b * 256 = (a * 256 + b) <<< 8 := by rw [Nat.shiftLeft_eq]; omega
  rw [h2, or_shift_eq _ c 8 (by omega)]
  omega

theorem val4 (s0 s1 s2 s3 : Nat) (h1 : s1 < 64) (h2 : s2 < 64) (h3 : s3 < 64) :
    s0 <<< 18 ||| s1 <<< 12 ||| s2 <<< 6 ||| s3 = s0 * 262144 + s1 * 4096 + s2 * 64 + s3 := by
  have e1 : s1 <<< 12 = s1 * 4096 := by rw [Nat.shiftLeft_eq]
  have e2 : s2 <<< 6 = s2 * 64 := by rw [Nat.shiftLeft_eq]
  rw [e1, e2, or_shift_eq s0 (s1 * 4096) 18 (by omega)]
  have e3 : s0 * 2 ^ 18 + s1 * 4096 = (s0 * 64 + s1) <<< 12 := by rw [Nat.shiftLeft_eq]; omega
  rw [e3, or_shift_eq _ (s2 * 64) 12 (by omega)]
  have e4 : (s0 * 64 + s1) * 2 ^ 12 + s2 * 64 = ((s0 * 64 + s1) * 64 + s2) <<< 6 := by
    rw [Nat.shiftLeft_eq]; omega
  rw [e4, or_shift_eq _ s3 6 (by omega)]
  omega

theorem decodeFrom_sextet (i : Nat) (hi : i < 64) (rest : GoString) (dbuf : List Nat)
    (h : dbuf.length ≠ 3) :
    decodeFrom (encodeChar i :: rest) dbuf = decodeFrom rest (dbuf ++ [i]) := by
  have h1 := decodeMap_encodeChar i hi
  have h2 : decodeMap (encodeChar i) ≠ 0xff := by omega
  rw [decodeFrom, if_pos h2, if_neg h, h1]

theorem decodeFrom_sextet_full (i : Nat) (hi : i < 64) (rest : GoString) (dbuf : List Nat)
    (h : dbuf.length = 3) :
    decodeFrom (encodeChar i :: rest) dbuf
      = (decodeFrom rest []).map (fun out => quantumBytes (dbuf ++ [i]) 4 ++ out) := by
  have h1 := decodeMap_encodeChar i hi
  have h2 : decodeMap (encodeChar i) ≠ 0xff := by omega
  rw [decodeFrom, if_pos h2, if_pos h, h1]

theorem decodeFrom_pad1 (dbuf : List Nat) (h : dbuf.length = 3) :
    decodeFrom [padChar] dbuf = some (quantumBytes dbuf 3) := by
  rw [decodeFrom]
  simp [decodeMap_padChar, padChar, h, skipNewlines, decodeFrom]

theorem decodeFrom_pad2 (dbuf : List Nat) (h : dbuf.length = 2) :
    decodeFrom [padChar, padChar] dbuf = some (quantumBytes dbuf 2) := by
  rw [decodeFrom]
  simp [decodeMap_padChar, padChar, h, skipNewlines, decodeFrom]

theorem quantum3 (a b c : Nat) (ha : a < 256) (hb : b < 256) (hc : c < 256) :
    quantumBytes
      [(a <<< 16 ||| b <<< 8 ||| c) >>> 18 &&& 0x3F, (a <<< 16 ||| b <<< 8 ||| c) >>> 12 &&& 0x3F,
       (a <<< 16 ||| b <<< 8 ||| c) >>> 6 &&& 0x3F, (a <<< 16 ||| b <<< 8 ||| c) &&& 0x3F] 4
      = [a, b, c] := by
  simp only [quantumBytes, List.getD_cons_zero, List.getD_cons_succ, and_63, val3 a b c hb hc,
    Nat.shiftRight_eq_div_pow]
  rw [val4 _ _ _ _ (Nat.mod_lt _ (by norm_num)) (Nat.mod_lt _ (by norm_num))
    (Nat.mod_lt _ (by norm_num))]
  simp only [Nat.add_one_sub_one, List.take_succ_cons, List.take_zero, List.cons.injEq,
    and_true]
  refine ⟨?_, ?_, ?_⟩ <;> omega

theorem quantum2 (a b : Nat) (ha : a < 256) (hb : b < 256) :
    quantumBytes
      [(a <<< 16 ||| b <<< 8) >>> 18 &&& 0x3F, (a <<< 16 ||| b <<< 8) >>> 12 &&& 0x3F,
       (a <<< 16 ||| b <<< 8) >>> 6 &&& 0x3F] 3
      = [a, b] := by
  have hv : a <<< 16 ||| b <<< 8 = a * 65536 + b * 256 := by
    have := val3 a b 0 hb (by norm_num)
    simpa using this
  simp only [quantumBytes, List.getD_cons_zero, List.getD_cons_succ, and_63, hv,
    Nat.shiftRight_eq_div_pow, List.getD_nil]
  rw [val4 _ _ _ _ (Nat.mod_lt _ (by norm_num)) (Nat.mod_lt _ (by norm_num)) (by norm_num)]
  simp only [Nat.add_one_sub_one, List.take_succ_cons, List.take_zero, List.cons.injEq,
    and_true]
  refine ⟨?_, ?_⟩ <;> omega

theorem quantum1 (a : Nat) (ha : a < 256) :
    quantumBytes [(a <<< 16) >>> 18 &&& 0x3F, (a <<< 16) >>> 12 &&& 0x3F] 2 = [a] := by
  have hv : a <<< 16 = a * 65536 := by rw [Nat.shiftLeft_eq]
  simp only [quantumBytes, List.getD_cons_zero, List.getD_cons_succ, and_63, hv,
    Nat.shiftRight_eq_div_pow, List.getD_nil]
  rw [val4 _ _ _ _ (Nat.mod_lt _ (by norm_num)) (by norm_num) (by norm_num)]
  simp only [Nat.add_one_sub_one, List.take_succ_cons, List.take_zero, List.cons.injEq,
    and_true]
  omega

/-- Decoding undoes encoding, for every byte sequence. -/
theorem DecodeString_EncodeToString (t : GoString) (ht : IsBytes t) :
    DecodeString (EncodeToString t) = some t := by
  unfold DecodeString
  induction t using EncodeToString.induct with
  | case1 a b c rest ih =>
    have ha : a < 256 := ht a (by simp)
    have hb : b < 256 := ht b (by simp)
    have hc : c < 256 := ht c (by simp)
    have hrest : IsBytes rest := fun x hx => ht x (by simp [hx])
    simp only [EncodeToString]
    rw [decodeFrom_sextet _ (by rw [and_63]; omega) _ _ (by simp),
      decodeFrom_sextet _ (by rw [and_63]; omega) _ _ (by simp),
      decodeFrom_sextet _ (by rw [and_63]; omega) _ _ (by simp),
      decodeFrom_sextet_full _ (by rw [and_63]; omega) _ _ (by simp), ih hrest]
    simp only [List.nil_append, List.cons_append, Option.map_some', quantum3 a b c ha hb hc]
  | case2 a b =>
    have ha : a < 256 := ht a (by simp)
    have hb : b < 256 := ht b (by simp)
    simp only [EncodeToString]
    rw [decodeFrom_sextet _ (by rw [and_63]; omega) _ _ (by simp),
      decodeFrom_sextet _ (by rw [and_63]; omega) _ _ (by simp),
      decodeFrom_sextet _ (by rw [and_63]; omega) _ _ (by simp),
      decodeFrom_pad1 _ (by simp)]
    simp only [List.nil_append, List.cons_append, quantum2 a b ha hb]
  | case3 a =>
    have ha : a < 256 := ht a (by simp)
    simp only [EncodeToString]
    rw [decodeFrom_sextet _ (by rw [and_63]; omega) _ _ (by simp),
      decodeFrom_sextet _ (by rw [and_63]; omega) _ _ (by simp),
      decodeFrom_pad2 _ (by simp)]
    simp only [List.nil_append, List.cons_append, quantum1 a ha]
  | case4 => rfl

/-! ### Cleaning -/

theorem leadingSpace_eq_none (s : GoString) (h : NoLeadingSpace s) : leadingSpace s = none := by
  rw [leadingSpace, List.find?_eq_none]
  intro w hw
  simpa using h w hw

theorem trailingSpace_eq_none (s : GoString) (h : NoTrailingSpace s) :
    trailingSpace s = none := by
  rw [trailingSpace, List.find?_eq_none]
  intro w hw
  simpa using h w hw

theorem TrimSpace_eq_self (s : GoString) (hl : NoLeadingSpace s) (hr : NoTrailingSpace s) :
    TrimSpace s = s := by
  have h1 : ∀ n, trimLeftAux n s = s := by
    intro n
    cases n with
    | zero => rfl
    | succ n => simp only [trimLeftAux, leadingSpace_eq_none s hl]
  have h2 : ∀ n, trimRightAux n s = s := by
    intro n
    cases n with
    | zero => rfl
    | succ n => simp only [trimRightAux, trailingSpace_eq_none s hr]
  simp only [TrimSpace, h1, h2]

theorem removeNul_eq_self (s : GoString) (h : 0 ∉ s) : removeNul s = s := by
  rw [removeNul, List.filter_eq_self]
  intro b hb
  have : b ≠ 0 := fun h0 => h (h0 ▸ hb)
  simpa using this

theorem cleanTailNumber_eq_self (s : GoString) (hne : s ≠ []) (hnul : 0 ∉ s)
    (hl : NoLeadingSpace s) (hr : NoTrailingSpace s) : cleanTailNumber s = s := by
  simp only [cleanTailNumber, removeNul_eq_self s hnul, TrimSpace_eq_self s hl hr, if_neg hne]

/-- C3: decoding undoes the binary-safe encoding.  For every non-empty text without a
NUL byte and without leading or trailing white space, `DecodeTailNumber` applied to its
standard base64 encoding returns the text. -/
theorem DecodeTailNumber_base64_roundtrip (impl : F64 → Nat) (t : GoString) (hb : IsBytes t)
    (hne : t ≠ []) (hnul : 0 ∉ t) (hl : NoLeadingSpace t) (hr : NoTrailingSpace t) :
    DecodeTailNumber impl (JValue.string (EncodeToString t)) = t := by
  simp only [DecodeTailNumber, DecodeString_EncodeToString t hb]
  exact cleanTailNumber_eq_self t hne hnul hl hr

/-- C3, the example: "ABC123" is encoded as "QUJDMTIz", which decodes to "ABC123". -/
theorem DecodeTailNumber_base64_roundtrip_witness :
    EncodeToString (str "ABC123") = str "QUJDMTIz"
    ∧ DecodeTailNumber impl0 (JValue.string (str "QUJDMTIz")) = str "ABC123" :=
  ⟨by decide,
   (show EncodeToString (str "ABC123") = str "QUJDMTIz" by decide) ▸
    DecodeTailNumber_base64_roundtrip impl0 (str "ABC123") (by decide) (by decide) (by decide)
      (by decide) (by decide)⟩

/-! ### Tail-number decoding: numeric sequences -/

/-- The JSON array of a sequence of integers. -/
theorem ofNat_byte_facts :
    ∀ n < 256, (F64.ofNat n).eq F64.zero = decide (n = 0)
      ∧ ((F64.ofNat n).isFinite && decide ((F64.ofNat n).truncMag < 256)
          && (!(F64.ofNat n).sign || (F64.ofNat n).truncMag == 0)) = true
      ∧ (F64.ofNat n).truncMag = n := by
  set_option exponentiation.threshold 4096 in set_option maxRecDepth 100000 in decide

theorem tailBytes_ints (impl : F64 → Nat) (xs : List Nat) (h : IsBytes xs)
    (rest : List JValue) :
    tailBytes impl (xs.map (fun n => JValue.number (F64.ofNat n))
        ++ JValue.number (F64.ofNat 0) :: rest)
      = xs.takeWhile (fun x => x != 0)
    ∧ tailBytes impl (xs.map (fun n => JValue.number (F64.ofNat n)))
      = xs.takeWhile (fun x => x != 0) := by
  induction xs with
  | nil =>
    constructor
    · have h0 := (ofNat_byte_facts 0 (by norm_num)).1
      simp [tailBytes, h0]
    · rfl
  | cons x xs ih =>
    have hx : x < 256 := h x (List.mem_cons_self _ _)
    obtain ⟨h0, h1, h2⟩ := ofNat_byte_facts x hx
    obtain ⟨ih1, ih2⟩ := ih (fun b hb => h b (List.mem_cons_of_mem _ hb))
    by_cases hz : x = 0
    · subst hz
      simp [tailBytes, h0]
    · have h0f : (F64.ofNat x).eq F64.zero = false := by simp [h0, hz]
      have hb : (F64.ofNat x).toByte impl = x := by
        unfold F64.toByte
        rw [if_pos h1, h2]
      simp [tailBytes, h0f, hb, ih1, ih2, hz]

theorem cleanTailNumber_no_nul (s : GoString) (h : 0 ∉ s) :
    cleanTailNumber s = if TrimSpace s = [] then UNKNOWN else TrimSpace s := by
  simp only [cleanTailNumber, removeNul_eq_self s h]

theorem takeWhile_no_zero (xs : List Nat) : 0 ∉ xs.takeWhile (fun x => x != 0) := by
  intro h
  have := List.mem_takeWhile_imp h
  simp at this

/-- The result for a sequence of byte codes: the cleaned codes before the first zero. -/
theorem decodeTail_ints (impl : F64 → Nat) (xs : List Nat) (h : IsBytes xs) :
    DecodeTailNumber impl (JValue.array (xs.map (fun n => JValue.number (F64.ofNat n))))
      = (if TrimSpace (xs.takeWhile (fun x => x != 0)) = [] then UNKNOWN
         else TrimSpace (xs.takeWhile (fun x => x != 0))) := by
  simp only [DecodeTailNumber, (tailBytes_ints impl xs h []).2]
  exact cleanTailNumber_no_nul _ (takeWhile_no_zero xs)

/-- C4: for every sequence of integers in 0..255, `DecodeTailNumber` returns the text made
of the codes before the first zero (all of them when there is none), with surrounding
white space stripped, and "UNKNOWN" when nothing remains; whatever follows a zero,
numbers or not, never affects the result. -/
theorem DecodeTailNumber_int_array (impl : F64 → Nat) (xs : List Nat) (h : IsBytes xs) :
    DecodeTailNumber impl (JValue.array (xs.map (fun n => JValue.number (F64.ofNat n))))
      = (if TrimSpace (xs.takeWhile (fun x => x != 0)) = [] then UNKNOWN
         else TrimSpace (xs.takeWhile (fun x => x != 0)))
    ∧ ∀ rest : List JValue,
        DecodeTailNumber impl (JValue.array (xs.map (fun n => JValue.number (F64.ofNat n))
          ++ JValue.number (F64.ofNat 0) :: rest))
        = DecodeTailNumber impl (JValue.array (xs.map (fun n => JValue.number (F64.ofNat n)))) := by
  constructor
  · exact decodeTail_ints impl xs h
  · intro rest
    simp only [DecodeTailNumber, (tailBytes_ints impl xs h rest).1, (tailBytes_ints impl xs h []).2]

/-- C4, the example: `[65, 66, 67, 0, 0]` decodes to "ABC". -/
theorem DecodeTailNumber_int_array_witness :
    DecodeTailNumber impl0
      (JValue.array ([65, 66, 67, 0, 0].map (fun n => JValue.number (F64.ofNat n))))
      = str "ABC" :=
  (DecodeTailNumber_int_array impl0 [65, 66, 67, 0, 0] (by decide)).1.trans (by decide)

/-! ### Tail-number decoding: the sentinel -/

theorem cleanTailNumber_empty (s : GoString) (h : TrimSpace (removeNul s) = []) :
    cleanTailNumber s = UNKNOWN := by
  simp only [cleanTailNumber, h, if_true]

/-- C5: `DecodeTailNumber` returns "UNKNOWN" for every value that is neither a text nor a
sequence, and whenever the decoded text (the base64 decoding of a text, the text itself
when that fails, the bytes of a sequence) is empty once its NUL bytes are removed and
its surrounding white space is trimmed; so for "", "   ", [], [0] and [32, 32]. -/
theorem DecodeTailNumber_unknown (impl : F64 → Nat) :
    (∀ v, (∀ s, v ≠ JValue.string s) → (∀ xs, v ≠ JValue.array xs) →
        DecodeTailNumber impl v = UNKNOWN)
    ∧ (∀ s d, DecodeString s = some d → TrimSpace (removeNul d) = [] →
        DecodeTailNumber impl (JValue.string s) = UNKNOWN)
    ∧ (∀ s, DecodeString s = none → TrimSpace (removeNul s) = [] →
        DecodeTailNumber impl (JValue.string s) = UNKNOWN)
    ∧ (∀ xs, TrimSpace (removeNul (tailBytes impl xs)) = [] →
        DecodeTailNumber impl (JValue.array xs) = UNKNOWN)
    ∧ (∀ f, DecodeTailNumber impl (JValue.number f) = UNKNOWN)
    ∧ (∀ b, DecodeTailNumber impl (JValue.bool b) = UNKNOWN)
    ∧ DecodeTailNumber impl JValue.null = UNKNOWN
    ∧ (∀ kvs, DecodeTailNumber impl (JValue.object kvs) = UNKNOWN)
    ∧ DecodeTailNumber impl (JValue.string (str "")) = UNKNOWN
    ∧ DecodeTailNumber impl (JValue.string (str "   ")) = UNKNOWN
    ∧ DecodeTailNumber impl (JValue.array []) = UNKNOWN
    ∧ DecodeTailNumber impl (JValue.array ([0].map (fun n => JValue.number (F64.ofNat n))))
        = UNKNOWN
    ∧ DecodeTailNumber impl (JValue.array ([32, 32].map (fun n => JValue.number (F64.ofNat n))))
        = UNKNOWN := by
  refine ⟨?_, ?_, ?_, ?_, fun _ => rfl, fun _ => rfl, rfl, fun _ => rfl, ?_, ?_, ?_, ?_, ?_⟩
  · intro v hs ha
    cases v with
    | string s => exact absurd rfl (hs s)
    | array xs => exact absurd rfl (ha xs)
    | null => rfl
    | bool b => rfl
    | number f => rfl
    | object kvs => rfl
  · intro s d hd ht
    simp only [DecodeTailNumber, hd]
    exact cleanTailNumber_empty d ht
  · intro s hd ht
    simp only [DecodeTailNumber, hd]
    exact cleanTailNumber_empty s ht
  · intro xs ht
    simp only [DecodeTailNumber]
    exact cleanTailNumber_empty _ ht
  · simp only [DecodeTailNumber]; decide
  · simp only [DecodeTailNumber]; decide
  · simp only [DecodeTailNumber, tailBytes]; decide
  · exact (decodeTail_ints impl [0] (by decide)).trans (by decide)
  · exact (decodeTail_ints impl [32, 32] (by decide)).trans (by decide)

/-- C5, an example: the text "AAAA" is valid base64 for three NUL bytes, nothing remains
after cleaning, and the result is "UNKNOWN". -/
theorem DecodeTailNumber_unknown_witness :
    DecodeString (str "AAAA") = some [0, 0, 0]
    ∧ DecodeTailNumber impl0 (JValue.string (str "AAAA")) = UNKNOWN :=
  ⟨by decide,
   (DecodeTailNumber_unknown impl0).2.1 (str "AAAA") [0, 0, 0] (by decide) (by decide)⟩

/-! ### The publishing client (`SendPosition`) -/

/-- C9: with an empty bearer token `SendPosition` returns the error "not authenticated"
and neither builds nor sends an HTTP request, whatever the record; so for a freshly
created client and after `SetToken("")`. -/
theorem SendPosition_without_token (env : HttpEnv) (c : bushtalk.Client)
    (payload : TrackPayload) (baseURL : GoString) :
    (c.token = [] →
        c.SendPosition env payload = ⟨some SendError.notAuthenticated, [], [], none⟩)
    ∧ (bushtalk.NewClient baseURL).SendPosition env payload
        = ⟨some SendError.notAuthenticated, [], [], none⟩
    ∧ (c.SetToken (str "")).SendPosition env payload
        = ⟨some SendError.notAuthenticated, [], [], none⟩ := by
  have h : ∀ c : bushtalk.Client, c.token = [] →
      c.SendPosition env payload = ⟨some SendError.notAuthenticated, [], [], none⟩ := by
    intro c hc
    simp only [bushtalk.Client.SendPosition, hc, if_true]
  exact ⟨h c, h _ rfl, h _ rfl⟩

/-- C9, an example: a client whose token was cleared publishes nothing even when the
service would accept the record. -/
theorem SendPosition_without_token_witness :
    ((scenarioClient.SetToken (str "")).SendPosition (statusEnv 200)
        (toPayload scenarioSession.position)).sent = []
    ∧ ((scenarioClient.SetToken (str "")).SendPosition (statusEnv 200)
        (toPayload scenarioSession.position)).err = some SendError.notAuthenticated := by
  have h := (SendPosition_without_token (statusEnv 200) (scenarioClient.SetToken (str ""))
    (toPayload scenarioSession.position) []).1 rfl
  rw [h]
  exact ⟨rfl, rfl⟩

theorem trackRequest_authorization (c : bushtalk.Client) (body : TrackPayload) :
    GoMap.get (c.trackRequest body).Header (str "Authorization")
      = some (str "Bearer " ++ c.token) := by
  simp only [bushtalk.Client.trackRequest, GoMap.get_set, if_true]

/-- C10: with a non-empty token, every request `SendPosition` hands to the transport is
a POST to `baseURL + "/api/track"` carrying the record and the header
`Authorization: Bearer <token>`; for every response received the call succeeds if and
only if the status is 200 or 201, and for every other status it returns an error
carrying that status; a response is received whenever the record marshals, the request
is built and the transport answers. -/
theorem SendPosition_status (env : HttpEnv) (c : bushtalk.Client) (payload : TrackPayload)
    (h : c.token ≠ []) :
    (∀ req ∈ (c.SendPosition env payload).sent,
        req.Method = str "POST" ∧ req.URL = c.baseURL ++ str "/api/track"
          ∧ req.Body = payload
          ∧ GoMap.get req.Header (str "Authorization") = some (str "Bearer " ++ c.token))
    ∧ (∀ resp, (c.SendPosition env payload).response = some resp →
        (c.SendPosition env payload).sent = [c.trackRequest payload]
          ∧ env.Do (c.trackRequest payload) = some resp
          ∧ ((c.SendPosition env payload).err = none
              ↔ resp.StatusCode = 200 ∨ resp.StatusCode = 201)
          ∧ (resp.StatusCode ≠ 200 → resp.StatusCode ≠ 201 →
              (c.SendPosition env payload).err = some (SendError.status resp.StatusCode)))
    ∧ (∀ resp, Marshal payload = some payload →
        env.NewRequestOk (c.baseURL ++ str "/api/track") = true →
        env.Do (c.trackRequest payload) = some resp →
        (c.SendPosition env payload).response = some resp) := by
  have hm : ∀ body, Marshal payload = some body → body = payload := by
    intro body hb
    unfold Marshal at hb
    split at hb
    · exact (Option.some.inj hb).symm
    · cases hb
  have hreq : ∀ req, req = c.trackRequest payload →
      req.Method = str "POST" ∧ req.URL = c.baseURL ++ str "/api/track" ∧ req.Body = payload
        ∧ GoMap.get req.Header (str "Authorization") = some (str "Bearer " ++ c.token) := by
    rintro req rfl
    exact ⟨rfl, rfl, rfl, trackRequest_authorization c payload⟩
  cases hmar : Marshal payload with
  | none =>
    have hr : c.SendPosition env payload = ⟨some SendError.marshal, [], [], none⟩ := by
      simp only [bushtalk.Client.SendPosition, if_neg h, hmar]
    rw [hr]
    simp
  | some body =>
    have hbody := hm body hmar
    subst hbody
    cases hnr : env.NewRequestOk (c.baseURL ++ str "/api/track") with
    | false =>
      have hr : c.SendPosition env body = ⟨some SendError.createRequest, [], [], none⟩ := by
        simp only [bushtalk.Client.SendPosition, if_neg h, hmar, hnr, if_true]
      rw [hr]
      simp
    | true =>
      cases hdo : env.Do (c.trackRequest body) with
      | none =>
        have hr : c.SendPosition env body
            = ⟨some SendError.transport, [c.trackRequest body], [c.trackRequest body], none⟩ := by
          simp only [bushtalk.Client.SendPosition, if_neg h, hmar, hnr, hdo, Bool.true_eq_false,
            if_false]
        rw [hr]
        refine ⟨fun req hreq2 => hreq req (List.mem_singleton.mp hreq2), ?_, ?_⟩
        · intro resp hresp; cases hresp
        · intro resp _ _ hresp; cases hresp
      | some resp =>
        by_cases hs : resp.StatusCode ≠ 200 ∧ resp.StatusCode ≠ 201
        · have hr : c.SendPosition env body
              = ⟨some (SendError.status resp.StatusCode), [c.trackRequest body],
                  [c.trackRequest body], some resp⟩ := by
            simp only [bushtalk.Client.SendPosition, if_neg h, hmar, hnr, hdo,
              Bool.true_eq_false, if_false, if_pos hs]
          rw [hr]
          refine ⟨fun req hreq2 => hreq req (List.mem_singleton.mp hreq2), ?_, ?_⟩
          · intro resp2 hresp
            have h2 : resp = resp2 := Option.some.inj hresp
            subst h2
            refine ⟨rfl, rfl, ?_, fun _ _ => rfl⟩
            constructor
            · intro h3; cases h3
            · rintro (h3 | h3)
              · exact absurd h3 hs.1
              · exact absurd h3 hs.2
          · intro resp2 _ _ hresp
            exact hresp
        · have h1 : resp.StatusCode = 200 ∨ resp.StatusCode = 201 := by
            by_contra hc
            exact hs ⟨fun h2 => hc (Or.inl h2), fun h2 => hc (Or.inr h2)⟩
          have hr : c.SendPosition env body
              = ⟨none, [c.trackRequest body], [c.trackRequest body], some resp⟩ := by
            simp only [bushtalk.Client.SendPosition, if_neg h, hmar, hnr, hdo,
              Bool.true_eq_false, if_false, if_neg hs]
          rw [hr]
          refine ⟨fun req hreq2 => hreq req (List.mem_singleton.mp hreq2), ?_, ?_⟩
          · intro resp2 hresp
            have h2 : resp = resp2 := Option.some.inj hresp
            subst h2
            refine ⟨rfl, rfl, ⟨fun _ => h1, fun _ => rfl⟩, ?_⟩
            intro h3 h4
            rcases h1 with h5 | h5
            · exact absurd h5 h3
            · exact absurd h5 h4
          · intro resp2 _ _ hresp
            exact hresp

/-- C10, examples: the service answering 201 makes the call succeed, answering 500
makes it fail with an error carrying 500; the request carries the bearer token. -/
theorem SendPosition_status_witness :
    (scenarioClient.SendPosition (statusEnv 201) (toPayload scenarioSession.position)).err
        = none
    ∧ (scenarioClient.SendPosition (statusEnv 500) (toPayload scenarioSession.position)).err
        = some (SendError.status 500)
    ∧ ∀ req ∈ (scenarioClient.SendPosition (statusEnv 201)
          (toPayload scenarioSession.position)).sent,
        GoMap.get req.Header (str "Authorization") = some (str "Bearer tok") :=
  ⟨by decide, by decide,
   fun req hreq =>
    ((SendPosition_status (statusEnv 201) scenarioClient (toPayload scenarioSession.position)
      (by decide)).1 req hreq).2.2.2⟩

/-! ### The forwarder (`sendPosition`) -/

theorem oneMeter_eq : oneMeter = ⟨false, 1023, 0⟩ := by decide

theorem F64.magRat_nonneg (x : F64) : 0 ≤ x.magRat := by
  unfold F64.magRat
  split_ifs <;> positivity

theorem F64.magRat_lt_one_iff (s : Bool) (e f : Nat) (hfrac : f < 4503599627370496) :
    (⟨s, e, f⟩ : F64).magRat < 1 ↔ e ≤ 1022 := by
  have hp52 : (2 : ℚ) ^ 52 = 4503599627370496 := by norm_num
  by_cases he0 : e = 0
  · subst he0
    have hm : (⟨s, 0, f⟩ : F64).magRat = (f : ℚ) / 2 ^ 1074 := by
      simp [F64.magRat, F64.exp2, F64.mant]
    rw [hm, div_lt_one (by positivity)]
    constructor
    · intro _; omega
    · intro _
      calc (f : ℚ) < 4503599627370496 := by exact_mod_cast hfrac
        _ = 2 ^ 52 := hp52.symm
        _ ≤ 2 ^ 1074 := pow_le_pow_right₀ (by norm_num) (by norm_num)
  · have hmant : (⟨s, e, f⟩ : F64).mant = 4503599627370496 + f := by
      simp [F64.mant, he0]
    have hexp : (⟨s, e, f⟩ : F64).exp2 = (e : Int) - 1075 := by
      simp [F64.exp2, he0]
    have hmq : (((4503599627370496 + f : Nat)) : ℚ) = 2 ^ 52 + (f : ℚ) := by
      rw [hp52]; push_cast; ring
    have hfq : (f : ℚ) < 2 ^ 52 := by rw [hp52]; exact_mod_cast hfrac
    have hf0 : (0 : ℚ) ≤ (f : ℚ) := by positivity
    by_cases hge : (0 : Int) ≤ (e : Int) - 1075
    · have hm : (⟨s, e, f⟩ : F64).magRat
          = ((4503599627370496 + f : Nat) : ℚ) * 2 ^ ((e : Int) - 1075).toNat := by
        simp only [F64.magRat, hexp, hmant, if_pos hge]
      rw [hm, hmq]
      constructor
      · intro hlt
        exfalso
        have h2 : (1 : ℚ) ≤ 2 ^ ((e : Int) - 1075).toNat := one_le_pow₀ (by norm_num)
        have h1 : (1 : ℚ) ≤ 2 ^ 52 + (f : ℚ) := by rw [hp52]; linarith
        have := one_le_mul_of_one_le_of_one_le h1 h2
        linarith
      · intro hle; omega
    · have hk : (-((e : Int) - 1075)).toNat = 1075 - e := by omega
      have hm : (⟨s, e, f⟩ : F64).magRat
          = ((4503599627370496 + f : Nat) : ℚ) / 2 ^ (1075 - e) := by
        simp only [F64.magRat, hexp, hmant, if_neg hge, hk]
      rw [hm, hmq, div_lt_one (by positivity)]
      constructor
      · intro hlt
        by_contra hgt
        have h3 : (2 : ℚ) ^ (1075 - e) ≤ 2 ^ 52 :=
          pow_le_pow_right₀ (by norm_num) (by omega)
        linarith
      · intro hle
        have h3 : (2 : ℚ) ^ 53 ≤ 2 ^ (1075 - e) :=
          pow_le_pow_right₀ (by norm_num) (by omega)
        have h4 : (2 : ℚ) ^ 53 = 2 ^ 52 + 2 ^ 52 := by norm_num
        linarith

/-- On finite values `x < 1.0` is the order of the rationals. -/
theorem F64.lt_one_iff (x : F64) (hw : x.WF) (hf : x.isFinite = true) :
    x.lt oneMeter = true ↔ x.toRat < 1 := by
  obtain ⟨s, e, f⟩ := x
  simp only [F64.WF] at hw
  simp only [F64.isFinite, decide_eq_true_eq] at hf
  obtain ⟨-, hfrac⟩ := hw
  have hp : (2 : Nat) ^ 52 = 4503599627370496 := by norm_num
  rw [hp] at hfrac
  have hnan : (⟨s, e, f⟩ : F64).isNaN = false := by
    simp only [F64.isNaN, Bool.and_eq_false_iff, beq_eq_false_iff_ne]
    left; omega
  have hnan1 : (⟨false, 1023, 0⟩ : F64).isNaN = false := by decide
  have hkey1 : (⟨false, 1023, 0⟩ : F64).key = 4607182418800017408 := by decide
  have hmag := F64.magRat_lt_one_iff s e f hfrac
  have hnn := F64.magRat_nonneg ⟨s, e, f⟩
  rw [oneMeter_eq]
  simp only [F64.lt, hnan, hnan1, hkey1, Bool.not_false, Bool.true_and, decide_eq_true_eq,
    F64.toRat]
  cases s with
  | true =>
    have hk : (⟨true, e, f⟩ : F64).key = -((e : Int) * 4503599627370496 + (f : Int)) := by
      simp [F64.key]
    rw [hk]
    simp only [if_true]
    constructor
    · intro _; linarith
    · intro _
      omega
  | false =>
    have hk : (⟨false, e, f⟩ : F64).key = (e : Int) * 4503599627370496 + (f : Int) := by
      simp [F64.key]
    rw [hk]
    simp only [Bool.false_eq_true, if_false]
    rw [hmag]
    constructor
    · intro _; omega
    · intro _; omega

/-- Every negative value, zero and infinity included, is below 1.0. -/
theorem F64.negative_lt_one (y : F64) (hs : y.sign = true) (hn : y.isNaN = false) :
    y.lt oneMeter = true := by
  obtain ⟨s, e, f⟩ := y
  simp only at hs
  subst hs
  have hk : (⟨true, e, f⟩ : F64).key = -((e : Int) * 4503599627370496 + (f : Int)) := by
    simp [F64.key]
  have hk1 : (⟨false, 1023, 0⟩ : F64).key = 4607182418800017408 := by decide
  have hnan1 : (⟨false, 1023, 0⟩ : F64).isNaN = false := by decide
  simp only [oneMeter_eq, F64.lt, hn, hnan1, hk, hk1, Bool.not_false, Bool.true_and,
    decide_eq_true_eq]
  omega

/-- On a tick with a connected session and a valid snapshot exactly one record is
handed to `SendPosition`: the conversion of the snapshot. -/
theorem sendPosition_records (env : HttpEnv) (a : App) (x : xplane.Client) (now : Nat)
    (hx : a.xplaneClient = some x) (hc : x.connected = true)
    (hv : x.position.IsValid = true) :
    (a.sendPosition env now).filterMap ForwardEvent.record = [toPayload x.position] := by
  simp only [App.sendPosition, hx, hc, hv, Bool.true_eq_false, if_false]
  cases a.statusWindow <;>
    cases (a.bushtalkClient.SendPosition env (toPayload x.position)).err <;>
    simp [ForwardEvent.record]

theorem feetPerMeter_eq : feetPerMeter = ⟨false, 1024, 2884195273360613⟩ := by decide

theorem knotsPerMps_eq : knotsPerMps = ⟨false, 1023, 4250677472297369⟩ := by decide

/-- C7: for every valid snapshot read on a forward tick of a connected session, the one
record handed to `SendPosition` has altitude-above-ground `AltitudeAGL * 3.28084` and
ground velocity `Groundspeed * 1.94384` (float64 products with the float64 constants
nearest to 3.28084 and 1.94384), and the snapshot's latitude, longitude, heading and
tail number unchanged.  100.0 m gives 328.084 ft and 10.0 m/s gives 19.4384 kt. -/
theorem sendPosition_conversion (env : HttpEnv) (a : App) (x : xplane.Client) (now : Nat)
    (hx : a.xplaneClient = some x) (hc : x.connected = true)
    (hv : x.position.IsValid = true) :
    (∃ payload, (a.sendPosition env now).filterMap ForwardEvent.record = [payload]
      ∧ payload.AltitudeAGL = x.position.AltitudeAGL.mul (F64.ofRatio false 328084 100000)
      ∧ payload.GroundVelocity = x.position.Groundspeed.mul (F64.ofRatio false 194384 100000)
      ∧ payload.Latitude = x.position.Latitude
      ∧ payload.Longitude = x.position.Longitude
      ∧ payload.Heading = x.position.Heading
      ∧ payload.TailNumber = x.position.TailNumber)
    ∧ (F64.ofNat 100).mul (F64.ofRatio false 328084 100000) = F64.ofRatio false 328084 1000
    ∧ (F64.ofNat 10).mul (F64.ofRatio false 194384 100000) = F64.ofRatio false 194384 10000
    ∧ |(F64.ofRatio false 328084 100000).toRat - 328084 / 100000| ≤ 1 / 2 ^ 52
    ∧ |(F64.ofRatio false 194384 100000).toRat - 194384 / 100000| ≤ 1 / 2 ^ 53 := by
  refine ⟨⟨toPayload x.position, sendPosition_records env a x now hx hc hv,
    rfl, rfl, rfl, rfl, rfl, rfl⟩, by decide, by decide, ?_, ?_⟩
  · have h := feetPerMeter_eq
    rw [feetPerMeter] at h
    have hn : Int.toNat 51 = 51 := rfl
    rw [h]
    norm_num [F64.toRat, F64.magRat, F64.exp2, F64.mant, abs_le, hn]
  · have h := knotsPerMps_eq
    rw [knotsPerMps] at h
    have hn : Int.toNat 52 = 52 := rfl
    rw [h]
    norm_num [F64.toRat, F64.magRat, F64.exp2, F64.mant, abs_le, hn]

/-- C7, the example: the scenario's session at 100.0 m and 10.0 m/s publishes 328.084 ft
and 19.4384 kt with latitude 37.5 and longitude -122.1. -/
theorem sendPosition_conversion_witness :
    ∃ payload, (scenarioApp.sendPosition (statusEnv 200) 9).filterMap ForwardEvent.record
        = [payload]
      ∧ payload.AltitudeAGL = F64.ofRatio false 328084 1000
      ∧ payload.GroundVelocity = F64.ofRatio false 194384 10000
      ∧ payload.Latitude = F64.ofRatio false 375 10
      ∧ payload.Longitude = F64.ofRatio true 1221 10 := by
  obtain ⟨payload, h1, h2, h3, h4, h5, -⟩ :=
    (sendPosition_conversion (statusEnv 200) scenarioApp scenarioSession 9 rfl rfl
      (by decide)).1
  refine ⟨payload, h1, ?_, ?_, ?_, ?_⟩
  · rw [h2]; decide
  · rw [h3]; decide
  · rw [h4]; decide
  · rw [h5]; decide

/-- C8: for every valid snapshot read on a forward tick of a connected session, the
on-ground flag of the published record is true if and only if the altitude in meters,
before conversion, is less than 1.0 (for a finite altitude: its value is below 1); an
altitude of exactly 1.0 is not on-ground and every negative altitude is on-ground. -/
theorem sendPosition_on_ground (env : HttpEnv) (a : App) (x : xplane.Client) (now : Nat)
    (hx : a.xplaneClient = some x) (hc : x.connected = true)
    (hv : x.position.IsValid = true) :
    ∃ payload, (a.sendPosition env now).filterMap ForwardEvent.record = [payload]
      ∧ (payload.OnGround = true ↔ x.position.AltitudeAGL.lt (F64.ofNat 1) = true)
      ∧ (x.position.AltitudeAGL.WF → x.position.AltitudeAGL.isFinite = true →
          (payload.OnGround = true ↔ x.position.AltitudeAGL.toRat < 1))
      ∧ (x.position.AltitudeAGL = F64.ofNat 1 → payload.OnGround = false)
      ∧ (x.position.AltitudeAGL.sign = true → x.position.AltitudeAGL.isNaN = false →
          payload.OnGround = true)
      ∧ (F64.ofNat 1).toRat = 1 := by
  refine ⟨toPayload x.position, sendPosition_records env a x now hx hc hv, Iff.rfl, ?_, ?_,
    ?_, ?_⟩
  · intro hw hf
    exact F64.lt_one_iff _ hw hf
  · intro h1
    simp only [toPayload, h1]
    decide
  · intro hs hn
    exact F64.negative_lt_one _ hs hn
  · have h := oneMeter_eq
    rw [oneMeter] at h
    have hn : Int.toNat 52 = 52 := rfl
    rw [h]
    norm_num [F64.toRat, F64.magRat, F64.exp2, F64.mant, hn]

/-- C8, examples: the scenario's session at 100 m publishes on-ground false; at 0.5 m it
publishes on-ground true. -/
theorem sendPosition_on_ground_witness :
    (∃ payload, (scenarioApp.sendPosition (statusEnv 200) 9).filterMap ForwardEvent.record
        = [payload] ∧ payload.OnGround = false)
    ∧ (toPayload { scenarioSession.position with AltitudeAGL := F64.ofRatio false 5 10 }).OnGround
        = true := by
  obtain ⟨payload, h1, h2, -⟩ :=
    sendPosition_on_ground (statusEnv 200) scenarioApp scenarioSession 9 rfl rfl (by decide)
  refine ⟨⟨payload, h1, ?_⟩, by decide⟩
  cases hp : payload.OnGround with
  | false => rfl
  | true => exact absurd (h2.mp hp) (by decide)

/-! ### The publishing client (`Authenticate`) -/

/-- C11: for every username, password and HTTP response, `Authenticate` fails with an
error carrying the status code when the status is not 200, and then (as on every
failure) returns no bundle and leaves the client, its bearer token included, unchanged;
when the status is 200 and the body decodes, it returns the whole decoded bundle with
no error and the client afterwards holds the bundle's `id_token` as bearer token. -/
theorem Authenticate_status (env : AuthEnv) (c : bushtalk.Client)
    (username password : GoString) (resp : AuthHttpResponse)
    (hreq : env.NewRequestOk (c.baseURL ++ str "/api/authenticate") = true)
    (hdo : env.Do (c.authRequest username password) = some resp) :
    (resp.StatusCode ≠ 200 →
        (c.Authenticate env username password).err
            = some (AuthError.status resp.StatusCode)
          ∧ (c.Authenticate env username password).resp = none
          ∧ (c.Authenticate env username password).client = c)
    ∧ (∀ bundle, resp.StatusCode = 200 → resp.Body = some bundle →
        (c.Authenticate env username password).err = none
          ∧ (c.Authenticate env username password).resp = some bundle
          ∧ (c.Authenticate env username password).client.token = bundle.IDToken
          ∧ (c.Authenticate env username password).client.baseURL = c.baseURL)
    ∧ (resp.StatusCode = 200 → resp.Body = none →
        (c.Authenticate env username password).err = some AuthError.decode
          ∧ (c.Authenticate env username password).client = c)
    ∧ ((c.Authenticate env username password).err ≠ none →
        (c.Authenticate env username password).client = c
          ∧ (c.Authenticate env username password).resp = none) := by
  by_cases hs : resp.StatusCode = 200
  · cases hb : resp.Body with
    | none =>
      have hr : c.Authenticate env username password
          = ⟨none, some AuthError.decode, c, [c.authRequest username password]⟩ := by
        simp only [bushtalk.Client.Authenticate, hreq, hdo, hs, hb, Bool.true_eq_false,
          if_false, ne_eq, not_true_eq_false]
      rw [hr]
      refine ⟨fun h => absurd hs h, ?_, fun _ _ => ⟨rfl, rfl⟩, fun _ => ⟨rfl, rfl⟩⟩
      intro bundle _ h2
      cases h2
    | some b =>
      have hr : c.Authenticate env username password
          = ⟨some b, none, { c with token := b.IDToken },
              [c.authRequest username password]⟩ := by
        simp only [bushtalk.Client.Authenticate, hreq, hdo, hs, hb, Bool.true_eq_false,
          if_false, ne_eq, not_true_eq_false]
      rw [hr]
      refine ⟨fun h => absurd hs h, ?_, ?_, fun h => absurd rfl h⟩
      · intro bundle _ h2
        have h3 : b = bundle := Option.some.inj h2
        subst h3
        exact ⟨rfl, rfl, rfl, rfl⟩
      · intro _ h2
        cases h2
  · have hr : c.Authenticate env username password
        = ⟨none, some (AuthError.status resp.StatusCode), c,
            [c.authRequest username password]⟩ := by
      simp only [bushtalk.Client.Authenticate, hreq, hdo, Bool.true_eq_false, if_false,
        ne_eq, hs, not_false_eq_true, if_true]
    rw [hr]
    exact ⟨fun _ => ⟨rfl, rfl, rfl⟩, fun _ h => absurd h hs, fun h => absurd h hs,
      fun _ => ⟨rfl, rfl⟩⟩

/-- C11, examples: a 401 answer fails with an error carrying 401 and keeps the token
"tok"; a 200 answer with a bundle returns the bundle and stores its id_token. -/
theorem Authenticate_status_witness :
    ((scenarioClient.Authenticate (authEnv 401 none) (str "pilot") (str "pw")).err
        = some (AuthError.status 401)
      ∧ (scenarioClient.Authenticate (authEnv 401 none) (str "pilot") (str "pw")).resp = none
      ∧ (scenarioClient.Authenticate (authEnv 401 none) (str "pilot") (str "pw")).client
          = scenarioClient)
    ∧ ((scenarioClient.Authenticate (authEnv 200 (some scenarioBundle)) (str "pilot")
          (str "pw")).err = none
      ∧ (scenarioClient.Authenticate (authEnv 200 (some scenarioBundle)) (str "pilot")
          (str "pw")).resp = some scenarioBundle
      ∧ (scenarioClient.Authenticate (authEnv 200 (some scenarioBundle)) (str "pilot")
          (str "pw")).client.token = str "id-1"
      ∧ (scenarioClient.Authenticate (authEnv 200 (some scenarioBundle)) (str "pilot")
          (str "pw")).client.baseURL = scenarioClient.baseURL) :=
  ⟨(Authenticate_status (authEnv 401 none) scenarioClient (str "pilot") (str "pw")
      ⟨401, none⟩ rfl rfl).1 (by decide),
   (Authenticate_status (authEnv 200 (some scenarioBundle)) scenarioClient (str "pilot")
      (str "pw") ⟨200, some scenarioBundle⟩ rfl rfl).2.1 scenarioBundle rfl rfl⟩

/-! ### The forwarder: one tick -/

/-- C12: a forward tick publishes nothing and reports no error (it does nothing at all)
when there is no current session, when the session is not connected, or when its
snapshot is invalid; in every other case it calls `SendPosition` exactly once, with the
converted snapshot, logs a failure exactly when that call returns an error, and updates
the last-sent time only when the call succeeded (and then, if the status window exists,
to the current time). -/
theorem sendPosition_tick (env : HttpEnv) (a : App) (now : Nat) :
    (a.xplaneClient = none → a.sendPosition env now = [])
    ∧ (∀ x, a.xplaneClient = some x → x.connected = false → a.sendPosition env now = [])
    ∧ (∀ x, a.xplaneClient = some x → x.position.IsValid = false →
        a.sendPosition env now = [])
    ∧ (∀ x, a.xplaneClient = some x → x.connected = true → x.position.IsValid = true →
        (a.sendPosition env now).filter ForwardEvent.isPublish
            = [ForwardEvent.SendPosition (toPayload x.position)
                (a.bushtalkClient.SendPosition env (toPayload x.position))]
          ∧ (∀ t, ForwardEvent.SetLastSent t ∈ a.sendPosition env now →
              (a.bushtalkClient.SendPosition env (toPayload x.position)).err = none ∧ t = now)
          ∧ ((a.bushtalkClient.SendPosition env (toPayload x.position)).err = none →
              a.statusWindow = true → ForwardEvent.SetLastSent now ∈ a.sendPosition env now)
          ∧ (∀ e, ForwardEvent.LogFailure e ∈ a.sendPosition env now ↔
              (a.bushtalkClient.SendPosition env (toPayload x.position)).err = some e)) := by
  refine ⟨?_, ?_, ?_, ?_⟩
  · intro h
    simp only [App.sendPosition, h]
  · intro x hx hc
    simp only [App.sendPosition, hx, hc, if_true]
  · intro x hx hv
    simp only [App.sendPosition, hx, hv, if_true, ite_self]
  · intro x hx hc hv
    simp only [App.sendPosition, hx, hc, hv, Bool.true_eq_false, if_false]
    cases a.statusWindow <;>
      cases (a.bushtalkClient.SendPosition env (toPayload x.position)).err <;>
      simp [ForwardEvent.isPublish, eq_comm]

/-- C12, examples: the scenario's application publishes once and sets the last-sent
time when the service answers 200, publishes once and does not set it when the service
answers 500, and does nothing when the session is not connected. -/
theorem sendPosition_tick_witness :
    (scenarioApp.sendPosition (statusEnv 200) 9).filter ForwardEvent.isPublish
        = [ForwardEvent.SendPosition (toPayload scenarioSession.position)
            (scenarioClient.SendPosition (statusEnv 200) (toPayload scenarioSession.position))]
    ∧ ForwardEvent.SetLastSent 9 ∈ scenarioApp.sendPosition (statusEnv 200) 9
    ∧ ForwardEvent.SetLastSent 9 ∉ scenarioApp.sendPosition (statusEnv 500) 9
    ∧ ({ scenarioApp with
          xplaneClient := some { scenarioSession with connected := false } } : App).sendPosition
        (statusEnv 200) 9 = [] :=
  ⟨((sendPosition_tick (statusEnv 200) scenarioApp 9).2.2.2 scenarioSession rfl rfl
      (by decide)).1,
   ((sendPosition_tick (statusEnv 200) scenarioApp 9).2.2.2 scenarioSession rfl rfl
      (by decide)).2.2.1 (by decide) rfl,
   by decide,
   by decide⟩

/-! ### The reverse mapping (`ReverseMap`) -/

theorem foldl_set_get (m : GoMap GoString Int) (rev : GoMap Int GoString) (id : Int) :
    GoMap.get (m.foldl (fun reverse e => GoMap.set reverse e.2 e.1) rev) id
      = (((m.filter (fun e => decide (e.2 = id))).getLast?).map Prod.fst).or
          (GoMap.get rev id) := by
  induction m generalizing rev with
  | nil => simp
  | cons e es ih =>
    rw [List.foldl_cons, ih, GoMap.get_set]
    by_cases h : e.2 = id
    · have hf : (e :: es).filter (fun e => decide (e.2 = id))
          = e :: es.filter (fun e => decide (e.2 = id)) := by simp [List.filter_cons, h]
      rw [hf]
      cases hl : (es.filter (fun e => decide (e.2 = id))).getLast? with
      | none =>
        have : es.filter (fun e => decide (e.2 = id)) = [] := by
          simpa using hl
        simp [this, h]
      | some x =>
        have hne : es.filter (fun e => decide (e.2 = id)) ≠ [] := by
          intro h0; rw [h0] at hl; cases hl
        obtain ⟨y, ys, hys⟩ := List.exists_cons_of_ne_nil hne
        rw [hys] at hl ⊢
        rw [List.getLast?_cons_cons, hl]
        simp
    · have hf : (e :: es).filter (fun e => decide (e.2 = id))
          = es.filter (fun e => decide (e.2 = id)) := by simp [List.filter_cons, h]
      have h2 : ¬ id = e.2 := fun hh => h hh.symm
      rw [hf, if_neg h2]

theorem GoMap.get_eq_some_iff_mem {κ ν : Type} [DecidableEq κ] (m : GoMap κ ν)
    (h : (GoMap.keys m).Nodup) (k : κ) (v : ν) :
    GoMap.get m k = some v ↔ (k, v) ∈ m := by
  induction m with
  | nil => simp [GoMap.get]
  | cons e es ih =>
    simp only [GoMap.keys, List.map_cons, List.nodup_cons] at h
    obtain ⟨hnot, hnd⟩ := h
    by_cases hk : e.1 = k
    · have hg : GoMap.get (e :: es) k = some e.2 := by
        simp [GoMap.get, List.find?, hk]
      rw [hg]
      constructor
      · intro hv
        have : e.2 = v := Option.some.inj hv
        rw [← this, ← hk]
        exact List.mem_cons_self _ _
      · intro hmem
        rcases List.mem_cons.mp hmem with h1 | h1
        · rw [← h1]
        · exfalso
          apply hnot
          rw [hk]
          exact List.mem_map.mpr ⟨(k, v), h1, rfl⟩
    · have hg : GoMap.get (e :: es) k = GoMap.get es k := by
        simp [GoMap.get, List.find?, hk]
      rw [hg, ih hnd]
      constructor
      · intro hmem; exact List.mem_cons_of_mem _ hmem
      · intro hmem
        rcases List.mem_cons.mp hmem with h1 | h1
        · exfalso; apply hk; rw [← h1]
        · exact h1

theorem filter_snd_singleton (m : GoMap GoString Int) (hid : (m.map Prod.snd).Nodup)
    (n : GoString) (id : Int) (hmem : (n, id) ∈ m) :
    m.filter (fun e => decide (e.2 = id)) = [(n, id)] := by
  induction m with
  | nil => cases hmem
  | cons e es ih =>
    simp only [List.map_cons, List.nodup_cons] at hid
    obtain ⟨hnot, hnd⟩ := hid
    have hnone : ∀ x, x ∉ es.map Prod.snd → es.filter (fun e => decide (e.2 = x)) = [] := by
      intro x hx
      rw [List.filter_eq_nil_iff]
      intro a ha
      simp only [decide_eq_true_eq]
      intro h2
      exact hx (List.mem_map.mpr ⟨a, ha, h2⟩)
    rcases List.mem_cons.mp hmem with h1 | h1
    · subst h1
      simp only [List.filter_cons, decide_True, if_true]
      rw [hnone id hnot]
    · have hne : ¬ e.2 = id := by
        intro h2
        apply hnot
        rw [h2]
        exact List.mem_map.mpr ⟨(n, id), h1, rfl⟩
      simp only [List.filter_cons, hne, decide_False, Bool.false_eq_true, if_false]
      exact ih hnd h1

theorem ReverseMap_get_iff (m : GoMap GoString Int) (hid : (m.map Prod.snd).Nodup)
    (n : GoString) (id : Int) :
    GoMap.get (ReverseMap m) id = some n ↔ (n, id) ∈ m := by
  rw [ReverseMap, foldl_set_get]
  constructor
  · intro h
    cases hl : (m.filter (fun e => decide (e.2 = id))).getLast? with
    | none => rw [hl] at h; simp [GoMap.get] at h
    | some e =>
      rw [hl] at h
      simp only [Option.map_some', Option.or_some] at h
      have hmem := List.mem_of_getLast?_eq_some hl
      rw [List.mem_filter] at hmem
      have h1 : e.1 = n := Option.some.inj h
      have h2 : e.2 = id := by simpa using hmem.2
      rw [← h1, ← h2]
      exact hmem.1
  · intro hmem
    rw [filter_snd_singleton m hid n id hmem]
    rfl

/-- C17 (as amended): the reverse mapping sends every identifier to the name visited
last among the names that carry it.  For a forward mapping whose identifiers are
pairwise distinct it therefore does not depend on the order in which the map is
visited, it maps the identifier of every name back to that name,
`ReverseMap(m)[m[n]] = n`, and it has no other entries. -/
theorem ReverseMap_inverse (m : GoMap GoString Int) :
    (∀ id, GoMap.get (ReverseMap m) id
        = ((m.filter (fun e => decide (e.2 = id))).getLast?).map Prod.fst)
    ∧ ((GoMap.keys m).Nodup → (m.map Prod.snd).Nodup →
        (∀ n id, GoMap.get m n = some id → GoMap.get (ReverseMap m) id = some n)
        ∧ (∀ id n, GoMap.get (ReverseMap m) id = some n → GoMap.get m n = some id)
        ∧ (∀ m2 : GoMap GoString Int, m2.Perm m →
            ∀ id, GoMap.get (ReverseMap m2) id = GoMap.get (ReverseMap m) id)) := by
  constructor
  · intro id
    rw [ReverseMap, foldl_set_get]
    cases (m.filter (fun e => decide (e.2 = id))).getLast? <;> simp [GoMap.get]
  · intro hk hid
    refine ⟨?_, ?_, ?_⟩
    · intro n id h
      exact (ReverseMap_get_iff m hid n id).mpr ((GoMap.get_eq_some_iff_mem m hk n id).mp h)
    · intro id n h
      exact (GoMap.get_eq_some_iff_mem m hk n id).mpr ((ReverseMap_get_iff m hid n id).mp h)
    · intro m2 hp id
      have hid2 : (m2.map Prod.snd).Nodup := (hp.map Prod.snd).nodup_iff.mpr hid
      apply Option.ext
      intro n
      simp only [Option.mem_def]
      rw [ReverseMap_get_iff m2 hid2, ReverseMap_get_iff m hid]
      exact hp.mem_iff

/-- C17, the example: the scenario's identifiers 10 and 11 are mapped back to latitude
and longitude, in either visiting order. -/
theorem ReverseMap_inverse_witness :
    GoMap.get (ReverseMap scenarioForwardMap) 10 = some DatarefLatitude
    ∧ GoMap.get (ReverseMap scenarioForwardMap.reverse) 11
        = GoMap.get (ReverseMap scenarioForwardMap) 11 :=
  ⟨((ReverseMap_inverse scenarioForwardMap).2 (by decide) (by decide)).1 DatarefLatitude 10
      (by decide),
   ((ReverseMap_inverse scenarioForwardMap).2 (by decide) (by decide)).2.2
      scenarioForwardMap.reverse (List.reverse_perm _) 11⟩

/-- C17 as stated fails when two names share an identifier: latitude and longitude both
have identifier 5, the reverse mapping sends 5 to longitude, not back to latitude, and
visiting the map in the other order sends 5 to latitude: the result differs between
runs. -/
theorem ReverseMap_shared_identifier_counterexample :
    GoMap.get sharedIdMap DatarefLatitude = some 5
    ∧ GoMap.get (ReverseMap sharedIdMap) 5 = some DatarefLongitude
    ∧ DatarefLongitude ≠ DatarefLatitude
    ∧ GoMap.get (ReverseMap sharedIdMap.reverse) 5 = some DatarefLatitude := by
  refine ⟨by decide, by decide, by decide, by decide⟩

/-! ### Tail-number decoding: which texts the base64 decoder accepts -/

theorem decodeMap_newline : decodeMap 10 = 255 ∧ decodeMap 13 = 255 := by decide

theorem isAlphabet_ne (c : Nat) (h : isAlphabet c = true) : c ≠ 10 ∧ c ≠ 13 ∧ c ≠ 61 := by
  simp only [isAlphabet, bne_iff_ne, ne_eq] at h
  refine ⟨?_, ?_, ?_⟩ <;> intro hc <;> subst hc <;> exact h (by decide)

theorem decodeFrom_alphabet (c : Nat) (rest : GoString) (dbuf : List Nat)
    (h : isAlphabet c = true) :
    decodeFrom (c :: rest) dbuf
      = if dbuf.length = 3 then
          (decodeFrom rest []).map (fun out => quantumBytes (dbuf ++ [decodeMap c]) 4 ++ out)
        else decodeFrom rest (dbuf ++ [decodeMap c]) := by
  simp only [isAlphabet, bne_iff_ne, ne_eq] at h
  rw [decodeFrom, if_pos h]

theorem decodeFrom_newline (c : Nat) (rest : GoString) (dbuf : List Nat)
    (h : c = 10 ∨ c = 13) : decodeFrom (c :: rest) dbuf = decodeFrom rest dbuf := by
  have h2 : ¬ decodeMap c ≠ 0xff := by
    rcases h with h | h <;> subst h <;> simp [decodeMap_newline]
  rw [decodeFrom, if_neg h2, if_pos h]

theorem decodeFrom_other (c : Nat) (rest : GoString) (dbuf : List Nat)
    (h : isAlphabet c = false) (h1 : c ≠ 10) (h2 : c ≠ 13) (h3 : c ≠ padChar) :
    decodeFrom (c :: rest) dbuf = none := by
  have h0 : ¬ decodeMap c ≠ 0xff := by
    simpa [isAlphabet] using h
  have h4 : ¬ (c = 10 ∨ c = 13) := by
    rintro (h | h)
    · exact h1 h
    · exact h2 h
  rw [decodeFrom, if_neg h0, if_neg h4, if_pos h3]

theorem decodeFrom_pad (rest : GoString) (dbuf : List Nat) :
    decodeFrom (padChar :: rest) dbuf
      = if dbuf.length = 2 then
          (match skipNewlines rest with
           | [] => none
           | c2 :: rest2 =>
             if c2 ≠ padChar then none
             else if skipNewlines rest2 = [] then some (quantumBytes dbuf 2) else none)
        else if dbuf.length = 3 then
          (if skipNewlines rest = [] then some (quantumBytes dbuf 3) else none)
        else none := by
  have h0 : ¬ decodeMap padChar ≠ 0xff := by simp [padChar, decodeMap_padChar]
  have h4 : ¬ (padChar = 10 ∨ padChar = 13) := by simp [padChar]
  rw [decodeFrom, if_neg h0, if_neg h4, if_neg (by simp)]

theorem skipNewlines_free (s : GoString) (h : ∀ c ∈ s, c ≠ 10 ∧ c ≠ 13) :
    skipNewlines s = s := by
  cases s with
  | nil => rfl
  | cons c rest =>
    have hc := h c (List.mem_cons_self _ _)
    rw [skipNewlines, List.dropWhile_cons_of_neg]
    simp [hc.1, hc.2]

theorem decodeFrom_isSome_free (v : GoString) (dbuf : List Nat)
    (h : ∀ c ∈ v, c ≠ 10 ∧ c ≠ 13) :
    (decodeFrom v dbuf).isSome = validFrom dbuf.length v := by
  induction v generalizing dbuf with
  | nil =>
    simp only [decodeFrom, validFrom]
    by_cases h0 : dbuf.length = 0 <;> simp [h0]
  | cons c rest ih =>
    have hrest : ∀ x ∈ rest, x ≠ 10 ∧ x ≠ 13 := fun x hx => h x (List.mem_cons_of_mem _ hx)
    have hc := h c (List.mem_cons_self _ _)
    cases ha : isAlphabet c with
    | true =>
      rw [decodeFrom_alphabet c rest dbuf ha]
      simp only [validFrom, ha, if_true]
      by_cases h3 : dbuf.length = 3
      · simp only [h3, if_true, Option.isSome_map']
        exact ih [] hrest
      · simp only [h3, if_false]
        rw [ih (dbuf ++ [decodeMap c]) hrest]
        simp
    | false =>
      by_cases hp : c = padChar
      · subst hp
        rw [decodeFrom_pad]
        simp only [validFrom, ha, Bool.false_eq_true, if_false, if_true]
        rw [skipNewlines_free rest hrest]
        by_cases h2 : dbuf.length = 2
        · simp only [h2, if_true]
          cases rest with
          | nil => simp
          | cons c2 rest2 =>
            have hrest2 : ∀ x ∈ rest2, x ≠ 10 ∧ x ≠ 13 :=
              fun x hx => hrest x (List.mem_cons_of_mem _ hx)
            dsimp only
            rw [skipNewlines_free rest2 hrest2]
            by_cases hc2 : c2 = padChar
            · by_cases hr2 : rest2 = [] <;> simp [hc2, hr2]
            · simp [hc2]
        · simp only [h2, if_false]
          by_cases h3 : dbuf.length = 3
          · by_cases hr : rest = [] <;> simp [h3, hr]
          · simp [h3]
      · rw [decodeFrom_other c rest dbuf ha hc.1 hc.2 hp]
        simp [validFrom, ha, hp]

theorem validFrom_zero_eq (v : GoString) : validFrom 0 v = isStdBase64 v := by
  induction v using isStdBase64.induct with
  | case1 => rfl
  | case2 a b c d =>
    simp only [validFrom, isStdBase64]
    cases isAlphabet a <;> cases isAlphabet b <;> cases hc : isAlphabet c <;>
      cases hd : isAlphabet d <;> by_cases h1 : a = padChar <;> by_cases h2 : b = padChar <;>
      by_cases h3 : c = padChar <;> by_cases h4 : d = padChar <;>
      simp_all
  | case3 a b c d rest hne ih =>
    have hr1 : ¬ (d :: rest = [padChar]) := by
      intro h; exact hne (List.cons.inj h).2
    have hr2 : ¬ rest = [] := fun h => hne h
    have hpad : isAlphabet padChar = false := by decide
    rw [isStdBase64]
    · rw [← ih]
      cases ha : isAlphabet a <;> cases hb : isAlphabet b <;> cases hc : isAlphabet c <;>
        cases hd : isAlphabet d <;>
        simp [validFrom, ha, hb, hc, hd, hr1, hr2]
    · intro h; exact hne h
  | case4 v h1 h2 h3 =>
    rcases v with _ | ⟨a, _ | ⟨b, _ | ⟨c, _ | ⟨d, rest⟩⟩⟩⟩
    · exact absurd rfl h1
    · cases ha : isAlphabet a <;> simp [validFrom, isStdBase64, ha]
    · cases ha : isAlphabet a <;> cases hb : isAlphabet b <;>
        simp [validFrom, isStdBase64, ha, hb]
    · cases ha : isAlphabet a <;> cases hb : isAlphabet b <;> cases hc : isAlphabet c <;>
        simp [validFrom, isStdBase64, ha, hb, hc]
    · exact absurd rfl (h3 a b c d rest)

theorem stripNewlines_free (s : GoString) : ∀ c ∈ stripNewlines s, c ≠ 10 ∧ c ≠ 13 := by
  intro c hc
  have := (List.mem_filter.mp hc).2
  simpa using this

theorem stripNewlines_cons_newline (c : Nat) (rest : GoString) (h : c = 10 ∨ c = 13) :
    stripNewlines (c :: rest) = stripNewlines rest := by
  rcases h with h | h <;> subst h <;> simp [stripNewlines]

theorem stripNewlines_cons_other (c : Nat) (rest : GoString) (h1 : c ≠ 10) (h2 : c ≠ 13) :
    stripNewlines (c :: rest) = c :: stripNewlines rest := by
  simp [stripNewlines, h1, h2]

theorem skipNewlines_cons_newline (c : Nat) (rest : GoString) (h : c = 10 ∨ c = 13) :
    skipNewlines (c :: rest) = skipNewlines rest := by
  rcases h with h | h <;> subst h <;> simp [skipNewlines]

theorem skipNewlines_cons_other (c : Nat) (rest : GoString) (h1 : c ≠ 10) (h2 : c ≠ 13) :
    skipNewlines (c :: rest) = c :: rest := by
  rw [skipNewlines, List.dropWhile_cons_of_neg]
  simp [h1, h2]

theorem skipNewlines_eq_nil_iff (s : GoString) :
    skipNewlines s = [] ↔ stripNewlines s = [] := by
  induction s with
  | nil => simp [skipNewlines, stripNewlines]
  | cons c rest ih =>
    by_cases h : c = 10 ∨ c = 13
    · rw [skipNewlines_cons_newline c rest h, stripNewlines_cons_newline c rest h, ih]
    · have h1 : c ≠ 10 := fun hh => h (Or.inl hh)
      have h2 : c ≠ 13 := fun hh => h (Or.inr hh)
      rw [skipNewlines_cons_other c rest h1 h2, stripNewlines_cons_other c rest h1 h2]
      simp

theorem skipNewlines_eq_cons (s : GoString) (c2 : Nat) (rest2 : GoString)
    (h : skipNewlines s = c2 :: rest2) :
    stripNewlines s = c2 :: stripNewlines rest2 := by
  induction s with
  | nil => simp [skipNewlines] at h
  | cons c rest ih =>
    by_cases hn : c = 10 ∨ c = 13
    · rw [skipNewlines_cons_newline c rest hn] at h
      rw [stripNewlines_cons_newline c rest hn]
      exact ih h
    · have h1 : c ≠ 10 := fun hh => hn (Or.inl hh)
      have h2 : c ≠ 13 := fun hh => hn (Or.inr hh)
      rw [skipNewlines_cons_other c rest h1 h2] at h
      rw [stripNewlines_cons_other c rest h1 h2]
      obtain ⟨hc, hr⟩ := List.cons.inj h
      rw [hc, hr]

/-- The decoder ignores CR and LF wherever they stand. -/
theorem decodeFrom_stripNewlines (v : GoString) (dbuf : List Nat) :
    decodeFrom v dbuf = decodeFrom (stripNewlines v) dbuf := by
  induction v generalizing dbuf with
  | nil => rfl
  | cons c rest ih =>
    by_cases hn : c = 10 ∨ c = 13
    · rw [decodeFrom_newline c rest dbuf hn, stripNewlines_cons_newline c rest hn]
      exact ih dbuf
    · have h1 : c ≠ 10 := fun hh => hn (Or.inl hh)
      have h2 : c ≠ 13 := fun hh => hn (Or.inr hh)
      rw [stripNewlines_cons_other c rest h1 h2]
      cases ha : isAlphabet c with
      | true =>
        rw [decodeFrom_alphabet c rest dbuf ha, decodeFrom_alphabet c _ dbuf ha,
          ih [], ih (dbuf ++ [decodeMap c])]
      | false =>
        by_cases hp : c = padChar
        · subst hp
          rw [decodeFrom_pad, decodeFrom_pad,
            skipNewlines_free (stripNewlines rest) (stripNewlines_free rest)]
          by_cases hd2 : dbuf.length = 2
          · simp only [hd2, if_true]
            cases hs : skipNewlines rest with
            | nil =>
              rw [(skipNewlines_eq_nil_iff rest).mp hs]
            | cons c2 rest2 =>
              rw [skipNewlines_eq_cons rest c2 rest2 hs]
              dsimp only
              rw [skipNewlines_free (stripNewlines rest2) (stripNewlines_free rest2)]
              by_cases hc2 : c2 = padChar
              · by_cases hr : skipNewlines rest2 = []
                · simp [hc2, hr, (skipNewlines_eq_nil_iff rest2).mp hr]
                · have hr2 : ¬ stripNewlines rest2 = [] :=
                    fun hh => hr ((skipNewlines_eq_nil_iff rest2).mpr hh)
                  simp [hc2, hr, hr2]
              · simp [hc2]
          · simp only [hd2, if_false]
            by_cases hr : skipNewlines rest = []
            · simp [hr, (skipNewlines_eq_nil_iff rest).mp hr]
            · have hr2 : ¬ stripNewlines rest = [] :=
                fun hh => hr ((skipNewlines_eq_nil_iff rest).mpr hh)
              simp [hr, hr2]
        · rw [decodeFrom_other c rest dbuf ha h1 h2 hp,
            decodeFrom_other c _ dbuf ha h1 h2 hp]

/-- `DecodeString` accepts a text exactly when the text without its CR and LF bytes is
standard padded base64. -/
theorem DecodeString_isSome (v : GoString) :
    (DecodeString v).isSome = isStdBase64 (stripNewlines v) := by
  rw [DecodeString, decodeFrom_stripNewlines,
    decodeFrom_isSome_free _ _ (stripNewlines_free v), ← validFrom_zero_eq]
  rfl

theorem decodeFrom_length (s : GoString) (dbuf : List Nat) (out : GoString)
    (h : decodeFrom s dbuf = some out) :
    4 * out.length ≤ 3 * (dbuf.length + s.length) := by
  induction s generalizing dbuf out with
  | nil =>
    simp only [decodeFrom] at h
    split at h
    · have : out = [] := (Option.some.inj h).symm
      subst this
      simp
    · cases h
  | cons c rest ih =>
    by_cases hn : c = 10 ∨ c = 13
    · rw [decodeFrom_newline c rest dbuf hn] at h
      have := ih dbuf out h
      simp only [List.length_cons]
      omega
    · have h1 : c ≠ 10 := fun hh => hn (Or.inl hh)
      have h2 : c ≠ 13 := fun hh => hn (Or.inr hh)
      cases ha : isAlphabet c with
      | true =>
        rw [decodeFrom_alphabet c rest dbuf ha] at h
        by_cases h3 : dbuf.length = 3
        · rw [if_pos h3] at h
          cases hr : decodeFrom rest [] with
          | none => rw [hr] at h; cases h
          | some out2 =>
            rw [hr] at h
            have ho : out = quantumBytes (dbuf ++ [decodeMap c]) 4 ++ out2 :=
              (Option.some.inj h).symm
            have := ih [] out2 hr
            subst ho
            simp only [quantumBytes, List.length_append, List.length_take, List.length_cons,
              List.length_nil] at this ⊢
            omega
        · rw [if_neg h3] at h
          have := ih (dbuf ++ [decodeMap c]) out h
          simp only [List.length_append, List.length_cons, List.length_nil] at this ⊢
          omega
      | false =>
        by_cases hp : c = padChar
        · subst hp
          rw [decodeFrom_pad] at h
          by_cases hd2 : dbuf.length = 2
          · rw [if_pos hd2] at h
            split at h
            · cases h
            · split at h
              · cases h
              · split at h
                · have ho : out = quantumBytes dbuf 2 := (Option.some.inj h).symm
                  subst ho
                  simp only [quantumBytes, List.length_take, List.length_cons,
                    List.length_nil]
                  omega
                · cases h
          · rw [if_neg hd2] at h
            by_cases hd3 : dbuf.length = 3
            · rw [if_pos hd3] at h
              split at h
              · have ho : out = quantumBytes dbuf 3 := (Option.some.inj h).symm
                subst ho
                simp only [quantumBytes, List.length_take, List.length_cons,
                  List.length_nil]
                omega
              · cases h
            · rw [if_neg hd3] at h
              cases h
        · rw [decodeFrom_other c rest dbuf ha h1 h2 hp] at h
          cases h

theorem trimLeftAux_length (n : Nat) (s : GoString) : (trimLeftAux n s).length ≤ s.length := by
  induction n generalizing s with
  | zero => exact Nat.le_refl _
  | succ n ih =>
    simp only [trimLeftAux]
    split
    · exact Nat.le_refl _
    · exact Nat.le_trans (ih _) (by simp)

theorem trimRightAux_length (n : Nat) (s : GoString) :
    (trimRightAux n s).length ≤ s.length := by
  induction n generalizing s with
  | zero => exact Nat.le_refl _
  | succ n ih =>
    simp only [trimRightAux]
    split
    · exact Nat.le_refl _
    · exact Nat.le_trans (ih _) (by simp)

theorem cleanTailNumber_length (s : GoString) :
    cleanTailNumber s = UNKNOWN ∨ (cleanTailNumber s).length ≤ s.length := by
  unfold cleanTailNumber
  dsimp only
  split
  · exact Or.inl rfl
  · right
    calc (TrimSpace (removeNul s)).length ≤ (removeNul s).length := by
          unfold TrimSpace
          exact Nat.le_trans (trimRightAux_length _ _) (trimLeftAux_length _ _)
      _ ≤ s.length := List.length_filter_le _ _

/-- A text that the base64 decoder accepts is never returned itself. -/
theorem decoded_ne_self (impl : F64 → Nat) (v d : GoString) (h : DecodeString v = some d) :
    DecodeTailNumber impl (JValue.string v) = cleanTailNumber d
      ∧ DecodeTailNumber impl (JValue.string v) ≠ v := by
  have hd : DecodeTailNumber impl (JValue.string v) = cleanTailNumber d := by
    simp only [DecodeTailNumber, h]
  refine ⟨hd, ?_⟩
  rw [hd]
  intro heq
  have hlen := decodeFrom_length v [] d h
  simp only [List.length_nil, Nat.zero_add] at hlen
  rcases cleanTailNumber_length d with hu | hl
  · rw [hu] at heq
    rw [← heq] at h
    have : DecodeString UNKNOWN = none := by decide
    rw [this] at h
    cases h
  · rw [heq] at hl
    have hv : v.length = 0 := by omega
    have hv2 : v = [] := List.length_eq_zero.mp hv
    subst hv2
    have hd0 : d.length = 0 := by omega
    have hd2 : d = [] := List.length_eq_zero.mp hd0
    subst hd2
    revert heq
    decide

theorem isStdBase64_free (v : GoString) (h : isStdBase64 v = true) :
    stripNewlines v = v := by
  have hc : ∀ c, (isAlphabet c = true ∨ c = padChar) → (!(c == 10 || c == 13)) = true := by
    intro c hc
    rcases hc with hc | hc
    · have := isAlphabet_ne c hc
      simp [this.1, this.2.1]
    · subst hc; decide
  induction v using isStdBase64.induct with
  | case1 => rfl
  | case2 a b c d =>
    simp only [isStdBase64, Bool.and_eq_true, Bool.or_eq_true, beq_iff_eq] at h
    obtain ⟨⟨ha, hb⟩, hcd⟩ := h
    have h1 := hc a (Or.inl ha)
    have h2 := hc b (Or.inl hb)
    have h3 : (!(c == 10 || c == 13)) = true := by
      rcases hcd with ⟨h, -⟩ | ⟨h, -⟩
      · exact hc c (Or.inr h)
      · exact hc c (Or.inl h)
    have h4 : (!(d == 10 || d == 13)) = true := by
      rcases hcd with ⟨-, h⟩ | ⟨-, h | h⟩
      · exact hc d (Or.inr h)
      · exact hc d (Or.inr h)
      · exact hc d (Or.inl h)
    simp only [stripNewlines, List.filter_cons, h1, h2, h3, h4, if_true, List.filter_nil]
  | case3 a b c d rest hne ih =>
    rw [isStdBase64] at h
    · simp only [Bool.and_eq_true] at h
      obtain ⟨⟨⟨⟨ha, hb⟩, hc3⟩, hd⟩, hrest⟩ := h
      have h1 := hc a (Or.inl ha)
      have h2 := hc b (Or.inl hb)
      have h3 := hc c (Or.inl hc3)
      have h4 := hc d (Or.inl hd)
      have := ih hrest
      simp only [stripNewlines] at this
      simp only [stripNewlines, List.filter_cons, h1, h2, h3, h4, if_true, this]
    · intro hh; exact hne hh
  | case4 v h1 h2 h3 =>
    rcases v with _ | ⟨a, _ | ⟨b, _ | ⟨c, _ | ⟨d, rest⟩⟩⟩⟩
    · rfl
    · simp [isStdBase64] at h
    · simp [isStdBase64] at h
    · simp [isStdBase64] at h
    · exact absurd rfl (h3 a b c d rest)

/-- C18 (as amended): for every text value that, once its CR and LF bytes are removed, is
not a standard padded base64 string, the base64 decoder fails and `DecodeTailNumber`
falls back to the text itself: it returns the text with NUL bytes removed and
surrounding white space trimmed, or "UNKNOWN" if that is empty. -/
theorem DecodeTailNumber_fallback (impl : F64 → Nat) (v : GoString)
    (h : isStdBase64 (stripNewlines v) = false) :
    DecodeString v = none
    ∧ DecodeTailNumber impl (JValue.string v)
        = (if TrimSpace (removeNul v) = [] then UNKNOWN else TrimSpace (removeNul v)) := by
  have hnone : DecodeString v = none := by
    have := DecodeString_isSome v
    rw [h] at this
    cases hd : DecodeString v with
    | none => rfl
    | some d => rw [hd] at this; cases this
  refine ⟨hnone, ?_⟩
  simp only [DecodeTailNumber, hnone]
  rfl

/-- C18, the example: "N123AB", whose length is not a multiple of 4, is returned as
"N123AB". -/
theorem DecodeTailNumber_fallback_witness :
    isStdBase64 (stripNewlines (str "N123AB")) = false
    ∧ DecodeTailNumber impl0 (JValue.string (str "N123AB")) = str "N123AB" :=
  ⟨by decide,
   (DecodeTailNumber_fallback impl0 (str "N123AB") (by decide)).2.trans (by decide)⟩

/-- C18 as stated fails: the text "N123" followed by a line feed is not a standard
padded base64 string, yet the decoder, which ignores CR and LF, accepts it, and the
result is the three decoded bytes instead of the text "N123". -/
theorem DecodeTailNumber_newline_counterexample :
    isStdBase64 (str "N123\n") = false
    ∧ DecodeTailNumber impl0 (JValue.string (str "N123\n")) = [0x37, 0x5D, 0xB7]
    ∧ (if TrimSpace (removeNul (str "N123\n")) = [] then UNKNOWN
        else TrimSpace (removeNul (str "N123\n"))) = str "N123"
    ∧ ([0x37, 0x5D, 0xB7] : GoString) ≠ str "N123" := by
  refine ⟨by decide, by decide, by decide, by decide⟩

/-- C20: a plain-text registration that happens to be a standard padded base64 string
is never returned: for every such text the decoder succeeds, the result is the cleaned
decoded bytes, not the cleaned text, and it differs from the text; so
`DecodeTailNumber("ABCD")` is the two bytes 0x10 0x83 and `DecodeTailNumber("N123")` is
the three bytes 0x37 0x5D 0xB7. -/
theorem DecodeTailNumber_base64_text (impl : F64 → Nat) :
    (∀ v, isStdBase64 v = true →
        ∃ d, DecodeString v = some d
          ∧ DecodeTailNumber impl (JValue.string v) = cleanTailNumber d
          ∧ DecodeTailNumber impl (JValue.string v) ≠ v)
    ∧ isStdBase64 (str "ABCD") = true
    ∧ DecodeTailNumber impl (JValue.string (str "ABCD")) = [0x10, 0x83]
    ∧ DecodeTailNumber impl (JValue.string (str "ABCD")) ≠ str "ABCD"
    ∧ isStdBase64 (str "N123") = true
    ∧ DecodeTailNumber impl (JValue.string (str "N123")) = [0x37, 0x5D, 0xB7]
    ∧ DecodeTailNumber impl (JValue.string (str "N123")) ≠ str "N123" := by
  have hall : ∀ v, isStdBase64 v = true →
      ∃ d, DecodeString v = some d
        ∧ DecodeTailNumber impl (JValue.string v) = cleanTailNumber d
        ∧ DecodeTailNumber impl (JValue.string v) ≠ v := by
    intro v hv
    have hs := DecodeString_isSome v
    rw [isStdBase64_free v hv, hv] at hs
    cases hd : DecodeString v with
    | none => rw [hd] at hs; cases hs
    | some d =>
      obtain ⟨h1, h2⟩ := decoded_ne_self impl v d hd
      exact ⟨d, rfl, h1, h2⟩
  have h1 : DecodeString (str "ABCD") = some [0, 0x10, 0x83] := by decide
  have h2 : DecodeString (str "N123") = some [0x37, 0x5D, 0xB7] := by decide
  have e1 : DecodeTailNumber impl (JValue.string (str "ABCD")) = [0x10, 0x83] := by
    rw [(decoded_ne_self impl _ _ h1).1]; decide
  have e2 : DecodeTailNumber impl (JValue.string (str "N123")) = [0x37, 0x5D, 0xB7] := by
    rw [(decoded_ne_self impl _ _ h2).1]; decide
  refine ⟨hall, by decide, e1, ?_, by decide, e2, ?_⟩
  · rw [e1]; decide
  · rw [e2]; decide

/-- C20, an example: "QUJD" is standard base64 (of "ABC"), so the registration "QUJD"
is reported as something else. -/
theorem DecodeTailNumber_base64_text_witness :
    DecodeTailNumber impl0 (JValue.string (str "QUJD")) ≠ str "QUJD" := by
  obtain ⟨d, -, -, h⟩ := (DecodeTailNumber_base64_text impl0).1 (str "QUJD") (by decide)
  exact h

/-! ### The session (`Connect`, `Disconnect`, `readLoop`) -/

/-- C14: for every outcome of the three stages of `Connect`.  If identifier resolution,
dialing or subscribing fails, `Connect` returns the error of that stage, the connected
flag keeps its value (false for a new session), no connected-notification is fired and
no read task is started; on a subscribing failure the opened connection has been
closed.  If all three succeed, `Connect` returns no error, the connected flag is true,
the read task is started once and the connected-notification, when one is set, has
fired exactly once. -/
theorem Connect_stages (env : ConnectEnv) (c : xplane.Client) :
    (∀ f, (ResolveDatarefIDs env.rest c.port AllDatarefs).2 = some f →
        (c.Connect env).err = some (ConnectError.resolve f) ∧ (c.Connect env).client = c
          ∧ (c.Connect env).events = [])
    ∧ ((ResolveDatarefIDs env.rest c.port AllDatarefs).2 = none →
        env.Dial (wsURL c.port) = false →
        (c.Connect env).err = some ConnectError.dial
          ∧ (c.Connect env).client.connected = c.connected
          ∧ (c.Connect env).client.conn = c.conn
          ∧ (c.Connect env).events = [])
    ∧ ((ResolveDatarefIDs env.rest c.port AllDatarefs).2 = none →
        env.Dial (wsURL c.port) = true →
        env.WriteJSON (c.Connect env).client.subscribeMessage = false →
        (c.Connect env).err = some ConnectError.subscribe
          ∧ (c.Connect env).client.connected = c.connected
          ∧ (c.Connect env).client.conn = some ⟨true⟩
          ∧ (c.Connect env).events = [SessionEvent.ConnClosed])
    ∧ ((ResolveDatarefIDs env.rest c.port AllDatarefs).2 = none →
        env.Dial (wsURL c.port) = true →
        env.WriteJSON (c.Connect env).client.subscribeMessage = true →
        (c.Connect env).err = none
          ∧ (c.Connect env).client.connected = true
          ∧ (c.Connect env).client.conn = some ⟨false⟩
          ∧ (c.Connect env).events.count SessionEvent.ReadLoopStarted = 1
          ∧ (c.Connect env).events.count SessionEvent.OnConnect
              = (if c.onConnect then 1 else 0))
    ∧ ((c.Connect env).err ≠ none →
        (c.Connect env).client.connected = c.connected
          ∧ SessionEvent.OnConnect ∉ (c.Connect env).events
          ∧ SessionEvent.ReadLoopStarted ∉ (c.Connect env).events
          ∧ (c.Connect env).client.stopClosed = c.stopClosed
          ∧ (c.Connect env).client.doneClosed = c.doneClosed) := by
  cases hres : (ResolveDatarefIDs env.rest c.port AllDatarefs).2 with
  | some f =>
    have hr : c.Connect env = ⟨c, some (ConnectError.resolve f), []⟩ := by
      simp only [xplane.Client.Connect, hres]
    rw [hr]
    refine ⟨?_, ?_, ?_, ?_, ?_⟩
    · intro f2 hf2
      have : f = f2 := Option.some.inj hf2
      subst this
      exact ⟨rfl, rfl, rfl⟩
    · intro h; cases h
    · intro h; cases h
    · intro h; cases h
    · intro _; simp
  | none =>
    cases hdial : env.Dial (wsURL c.port) with
    | false =>
      have hr : c.Connect env
          = ⟨c.withDatarefs (ResolveDatarefIDs env.rest c.port AllDatarefs).1,
              some ConnectError.dial, []⟩ := by
        simp only [xplane.Client.Connect, hres, hdial, if_true]
      rw [hr]
      refine ⟨?_, ?_, ?_, ?_, ?_⟩
      · intro f h; cases h
      · intro _ _; exact ⟨rfl, rfl, rfl, rfl⟩
      · intro _ h; cases h
      · intro _ h; cases h
      · intro _; simp [xplane.Client.withDatarefs]
    | true =>
      have hsub : ∀ x : xplane.Client,
          x.withConn.subscribeMessage = x.subscribeMessage := fun _ => rfl
      cases hw : env.WriteJSON
          (c.withDatarefs
            (ResolveDatarefIDs env.rest c.port AllDatarefs).1).withConn.subscribeMessage with
      | false =>
        have hr : c.Connect env
            = ⟨{ (c.withDatarefs
                    (ResolveDatarefIDs env.rest c.port AllDatarefs).1).withConn with
                  conn := some ⟨true⟩ },
                some ConnectError.subscribe, [SessionEvent.ConnClosed]⟩ := by
          simp only [xplane.Client.Connect, hres, hdial, hw, Bool.true_eq_false, if_false,
            if_true]
        rw [hr]
        refine ⟨?_, ?_, ?_, ?_, ?_⟩
        · intro f h; cases h
        · intro _ h; cases h
        · intro _ _ _; exact ⟨rfl, rfl, rfl, rfl⟩
        · intro _ _ h
          have h2 : env.WriteJSON (c.withDatarefs
              (ResolveDatarefIDs env.rest c.port AllDatarefs).1).withConn.subscribeMessage
              = true := h
          rw [hw] at h2
          cases h2
        · intro _; simp [xplane.Client.withDatarefs, xplane.Client.withConn]
      | true =>
        have hr : c.Connect env
            = ⟨{ (c.withDatarefs
                    (ResolveDatarefIDs env.rest c.port AllDatarefs).1).withConn with
                  connected := true },
                none,
                (if c.onConnect then [SessionEvent.OnConnect] else [])
                  ++ [SessionEvent.ReadLoopStarted]⟩ := by
          simp only [xplane.Client.Connect, hres, hdial, hw, Bool.true_eq_false, if_false]
          rfl
        rw [hr]
        refine ⟨?_, ?_, ?_, ?_, ?_⟩
        · intro f h; cases h
        · intro _ h; cases h
        · intro _ _ h
          have h2 : env.WriteJSON (c.withDatarefs
              (ResolveDatarefIDs env.rest c.port AllDatarefs).1).withConn.subscribeMessage
              = false := h
          rw [hw] at h2
          cases h2
        · intro _ _ _
          refine ⟨rfl, rfl, rfl, ?_, ?_⟩ <;> cases c.onConnect <;> simp
        · intro h; exact absurd rfl h

/-- C14, examples: a new session against a simulator that answers everything connects,
is marked connected and fires the connected-notification once; when dialing fails it
returns the dialing error and stays not connected. -/
theorem Connect_stages_witness :
    ((freshSession.Connect goodConnectEnv).err = none
      ∧ (freshSession.Connect goodConnectEnv).client.connected = true
      ∧ (freshSession.Connect goodConnectEnv).client.conn = some ⟨false⟩
      ∧ (freshSession.Connect goodConnectEnv).events.count SessionEvent.ReadLoopStarted = 1
      ∧ (freshSession.Connect goodConnectEnv).events.count SessionEvent.OnConnect
          = (if freshSession.onConnect then 1 else 0))
    ∧ ((freshSession.Connect { goodConnectEnv with Dial := fun _ => false }).err
          = some ConnectError.dial
      ∧ (freshSession.Connect { goodConnectEnv with Dial := fun _ => false }).client.connected
          = freshSession.connected
      ∧ (freshSession.Connect { goodConnectEnv with Dial := fun _ => false }).client.conn
          = freshSession.conn
      ∧ (freshSession.Connect { goodConnectEnv with Dial := fun _ => false }).events = []) :=
  ⟨(Connect_stages goodConnectEnv freshSession).2.2.2.1 (by decide) rfl rfl,
   (Connect_stages { goodConnectEnv with Dial := fun _ => false } freshSession).2.1
      (by decide) rfl⟩

theorem readLoopExit_spec (c : xplane.Client) (hd : c.doneClosed = false) :
    c.readLoopExit.status = ReadLoopStatus.exited
    ∧ c.readLoopExit.client.connected = false
    ∧ c.readLoopExit.client.doneClosed = true
    ∧ c.readLoopExit.events.count SessionEvent.DoneClosed = 1
    ∧ c.readLoopExit.events.count SessionEvent.OnDisconnect
        = (if c.onDisconnect then 1 else 0) := by
  simp only [xplane.Client.readLoopExit, hd, Bool.false_eq_true, if_false]
  cases c.onDisconnect <;> simp

theorem readLoop_stop (impl : F64 → Nat) (msgs : List Incoming) (c : xplane.Client)
    (hs : c.stopClosed = true) : c.readLoop impl msgs = c.readLoopExit := by
  cases msgs <;> simp only [xplane.Client.readLoop, hs, if_true]

theorem readLoop_closed (impl : F64 → Nat) (msgs : List Incoming) (c : xplane.Client)
    (hs : c.stopClosed = false) (hc : c.conn = some ⟨true⟩) :
    c.readLoop impl msgs = c.readLoopExit := by
  cases msgs <;>
    simp only [xplane.Client.readLoop, hs, hc, Bool.false_eq_true, if_false, if_true]

theorem readLoop_nil (impl : F64 → Nat) (c : xplane.Client)
    (hs : c.stopClosed = false) (hc : c.conn = some ⟨false⟩) :
    c.readLoop impl [] = ⟨c, [], ReadLoopStatus.blocked⟩ := by
  simp only [xplane.Client.readLoop, hs, hc, Bool.false_eq_true, if_false]

theorem readLoop_cons (impl : F64 → Nat) (msg : Incoming) (rest : List Incoming)
    (c : xplane.Client) (hs : c.stopClosed = false) (hc : c.conn = some ⟨false⟩) :
    c.readLoop impl (msg :: rest)
      = match msg with
        | Incoming.readError => c.readLoopExit
        | Incoming.malformed => c.readLoop impl rest
        | Incoming.frame none _ => c.readLoop impl rest
        | Incoming.frame (some data) now => (c.applyFrame impl data now).readLoop impl rest := by
  simp only [xplane.Client.readLoop, hs, hc, Bool.false_eq_true, if_false]

/-- What holds of every run of the read task of a session that has a connection and
whose `doneCh` is open: either it has ended with the three effects, or it is waiting
and nothing was signalled. -/
theorem readLoop_spec (impl : F64 → Nat) (msgs : List Incoming) (c : xplane.Client)
    (hd : c.doneClosed = false) (hconn : c.conn ≠ none) :
    ((c.readLoop impl msgs).status = ReadLoopStatus.exited
        ∧ (c.readLoop impl msgs).client.connected = false
        ∧ (c.readLoop impl msgs).client.doneClosed = true
        ∧ (c.readLoop impl msgs).events.count SessionEvent.DoneClosed = 1
        ∧ (c.readLoop impl msgs).events.count SessionEvent.OnDisconnect
            = (if c.onDisconnect then 1 else 0))
    ∨ ((c.readLoop impl msgs).status = ReadLoopStatus.blocked
        ∧ (c.readLoop impl msgs).events = []
        ∧ (c.readLoop impl msgs).client.doneClosed = false
        ∧ (c.readLoop impl msgs).client.connected = c.connected
        ∧ c.stopClosed = false ∧ c.conn = some ⟨false⟩
        ∧ Incoming.readError ∉ msgs) := by
  induction msgs generalizing c with
  | nil =>
    by_cases hs : c.stopClosed = true
    · left
      rw [readLoop_stop impl [] c hs]
      exact readLoopExit_spec c hd
    · have hs2 : c.stopClosed = false := by simpa using hs
      obtain ⟨conn, hc⟩ := Option.ne_none_iff_exists'.mp hconn
      obtain ⟨cl⟩ := conn
      cases cl with
      | true =>
        left
        rw [readLoop_closed impl [] c hs2 hc]
        exact readLoopExit_spec c hd
      | false =>
        right
        rw [readLoop_nil impl c hs2 hc]
        exact ⟨rfl, rfl, hd, rfl, hs2, hc, by simp⟩
  | cons msg rest ih =>
    by_cases hs : c.stopClosed = true
    · left
      rw [readLoop_stop impl _ c hs]
      exact readLoopExit_spec c hd
    · have hs2 : c.stopClosed = false := by simpa using hs
      obtain ⟨conn, hc⟩ := Option.ne_none_iff_exists'.mp hconn
      obtain ⟨cl⟩ := conn
      cases cl with
      | true =>
        left
        rw [readLoop_closed impl _ c hs2 hc]
        exact readLoopExit_spec c hd
      | false =>
        rw [readLoop_cons impl msg rest c hs2 hc]
        cases msg with
        | readError =>
          left
          exact readLoopExit_spec c hd
        | malformed =>
          rcases ih c hd hconn with h | h
          · exact Or.inl h
          · right
            obtain ⟨h1, h2, h3, h4, h5, h6, h7⟩ := h
            exact ⟨h1, h2, h3, h4, h5, h6, by simp [h7]⟩
        | frame data now =>
          cases data with
          | none =>
            rcases ih c hd hconn with h | h
            · exact Or.inl h
            · right
              obtain ⟨h1, h2, h3, h4, h5, h6, h7⟩ := h
              exact ⟨h1, h2, h3, h4, h5, h6, by simp [h7]⟩
          | some entries =>
            rcases ih (c.applyFrame impl entries now) hd hconn with h | h
            · exact Or.inl h
            · right
              obtain ⟨h1, h2, h3, h4, h5, h6, h7⟩ := h
              exact ⟨h1, h2, h3, h4, h5, h6, by simp [h7]⟩

theorem readLoop_exited (impl : F64 → Nat) (msgs : List Incoming) (c : xplane.Client)
    (hd : c.doneClosed = false) (hconn : c.conn ≠ none)
    (h : (c.readLoop impl msgs).status ≠ ReadLoopStatus.blocked) :
    (c.readLoop impl msgs).Ended c.onDisconnect := by
  rcases readLoop_spec impl msgs c hd hconn with h1 | h1
  · exact h1
  · exact absurd h1.1 h

/-- What `Disconnect` does on a session whose stop channel is open. -/
theorem Disconnect_ok (c : xplane.Client) (h : c.stopClosed = false) :
    ∃ c1 ev, c.Disconnect = Outcome.ok (c1, ev) ∧ c1.connected = false
      ∧ c1.stopClosed = true ∧ c1.doneClosed = c.doneClosed
      ∧ c1.onDisconnect = c.onDisconnect
      ∧ (c1.conn = none ↔ c.conn = none)
      ∧ SessionEvent.DoneClosed ∉ ev ∧ SessionEvent.OnDisconnect ∉ ev := by
  cases hc : c.conn with
  | none =>
    refine ⟨{ c with stopClosed := true, connected := false }, [SessionEvent.StopClosed],
      ?_, rfl, rfl, rfl, rfl, ?_, by simp, by simp⟩
    · simp only [xplane.Client.Disconnect, h, hc, Bool.false_eq_true, if_false]
    · simp [hc]
  | some conn =>
    refine ⟨{ c with stopClosed := true, conn := some ⟨true⟩, connected := false },
      [SessionEvent.StopClosed, SessionEvent.ConnClosed], ?_, rfl, rfl, rfl, rfl, ?_,
      by simp, by simp⟩
    · simp only [xplane.Client.Disconnect, h, hc, Bool.false_eq_true, if_false]
    · simp

theorem Disconnect_closed (c : xplane.Client) (h : c.stopClosed = true) :
    c.Disconnect = Outcome.panic Fault.closeOfClosedChannel := by
  simp only [xplane.Client.Disconnect, h, if_true]

/-- A failed `Connect` leaves the flags and the channels as they were. -/
theorem Connect_failed_state (env : ConnectEnv) (c : xplane.Client)
    (h : (c.Connect env).err ≠ none) :
    (c.Connect env).client.connected = c.connected
      ∧ (c.Connect env).client.stopClosed = c.stopClosed
      ∧ (c.Connect env).client.doneClosed = c.doneClosed := by
  revert h
  unfold xplane.Client.Connect
  split
  · intro _; exact ⟨rfl, rfl, rfl⟩
  · dsimp only
    split
    · intro _; exact ⟨rfl, rfl, rfl⟩
    · split
      · intro _; exact ⟨rfl, rfl, rfl⟩
      · intro h; exact absurd rfl h

/-- C15 (as amended): whenever the read task of a session ends, the connected flag is
false, the session-ended signal (Done) has been signalled exactly once and the
disconnected-notification, when one is set, has fired.  The read task ends on a read
error, and it ends after `Disconnect()`: that call itself marks the session not
connected and closes the stop signal and the connection, but neither signals Done nor
fires the notification; both come from the read task, which ends as soon as it runs
after the call. -/
theorem session_ended (impl : F64 → Nat) (c : xplane.Client) (hd : c.doneClosed = false)
    (hconn : c.conn ≠ none) :
    (∀ msgs, (c.readLoop impl msgs).status ≠ ReadLoopStatus.blocked →
        (c.readLoop impl msgs).Ended c.onDisconnect)
    ∧ (∀ msgs, Incoming.readError ∈ msgs → (c.readLoop impl msgs).Ended c.onDisconnect)
    ∧ (c.stopClosed = false →
        ∃ c1 ev, c.Disconnect = Outcome.ok (c1, ev) ∧ c1.connected = false
          ∧ c1.doneClosed = false
          ∧ SessionEvent.DoneClosed ∉ ev ∧ SessionEvent.OnDisconnect ∉ ev
          ∧ ∀ msgs, (c1.readLoop impl msgs).Ended c.onDisconnect) := by
  refine ⟨fun msgs h => readLoop_exited impl msgs c hd hconn h, ?_, ?_⟩
  · intro msgs hmem
    rcases readLoop_spec impl msgs c hd hconn with h1 | h1
    · exact h1
    · exact absurd hmem h1.2.2.2.2.2.2
  · intro hs
    obtain ⟨c1, ev, h1, h2, h3, h4, h5, h6, h7, h8⟩ := Disconnect_ok c hs
    refine ⟨c1, ev, h1, h2, by rw [h4, hd], h7, h8, ?_⟩
    intro msgs
    rw [← h5, readLoop_stop impl msgs c1 h3]
    exact readLoopExit_spec c1 (by rw [h4, hd])

/-- C15, an example: the read task of an Active session that meets a read error after a
malformed message ends the session with the three effects. -/
theorem session_ended_witness :
    activeSession.connected = true
    ∧ (activeSession.readLoop impl0 [Incoming.malformed, Incoming.readError]).Ended true :=
  ⟨by decide,
   (session_ended impl0 activeSession (by decide) (by decide)).2.1
      [Incoming.malformed, Incoming.readError]
      (List.mem_cons_of_mem _ (List.mem_cons_self _ _))⟩

/-- C15 as stated fails for `Disconnect()`: on a session that has no read task (here a
new one, with both notifications set) the call returns with the session not connected,
but `doneCh` is still open and no disconnected-notification has fired. -/
theorem Disconnect_without_read_task_counterexample :
    freshSession.onDisconnect = true
    ∧ freshSession.Disconnect
        = Outcome.ok ({ freshSession with stopClosed := true }, [SessionEvent.StopClosed])
    ∧ ({ freshSession with stopClosed := true } : xplane.Client).connected = false
    ∧ ({ freshSession with stopClosed := true } : xplane.Client).doneClosed = false
    ∧ SessionEvent.OnDisconnect ∉ [SessionEvent.StopClosed]
    ∧ SessionEvent.DoneClosed ∉ [SessionEvent.StopClosed] := by
  refine ⟨by decide, by decide, by decide, by decide, by decide, by decide⟩

/-- C16: on a session that never reached Active, a new one (with or without callbacks)
or one whose `Connect` failed at resolving, dialing or subscribing, a call of
`Disconnect()` does not panic and leaves the session not connected. -/
theorem Disconnect_before_active (port : Int) (onConnect onDisconnect : Bool)
    (env : ConnectEnv) :
    (∃ c1 ev, (xplane.NewClient port).Disconnect = Outcome.ok (c1, ev)
        ∧ c1.connected = false)
    ∧ (∃ c1 ev, ((xplane.NewClient port).SetCallbacks onConnect onDisconnect).Disconnect
          = Outcome.ok (c1, ev) ∧ c1.connected = false)
    ∧ ((((xplane.NewClient port).SetCallbacks onConnect onDisconnect).Connect env).err ≠ none →
        (((xplane.NewClient port).SetCallbacks onConnect onDisconnect).Connect
            env).client.connected = false
          ∧ ∃ c1 ev,
              (((xplane.NewClient port).SetCallbacks onConnect onDisconnect).Connect
                env).client.Disconnect = Outcome.ok (c1, ev)
              ∧ c1.connected = false) := by
  refine ⟨?_, ?_, ?_⟩
  · obtain ⟨c1, ev, h1, h2, -⟩ := Disconnect_ok (xplane.NewClient port) rfl
    exact ⟨c1, ev, h1, h2⟩
  · obtain ⟨c1, ev, h1, h2, -⟩ :=
      Disconnect_ok ((xplane.NewClient port).SetCallbacks onConnect onDisconnect) rfl
    exact ⟨c1, ev, h1, h2⟩
  · intro herr
    obtain ⟨hc, hs, -⟩ := Connect_failed_state env
      ((xplane.NewClient port).SetCallbacks onConnect onDisconnect) herr
    refine ⟨hc, ?_⟩
    obtain ⟨c1, ev, h1, h2, -⟩ := Disconnect_ok _ hs
    exact ⟨c1, ev, h1, h2⟩

/-- C16, examples: `Disconnect()` on a session whose `Connect` failed at subscribing,
with the connection already closed, and on one whose `Connect` failed at resolving. -/
theorem Disconnect_before_active_witness :
    ((freshSession.Connect { goodConnectEnv with WriteJSON := fun _ => false }).err
        = some ConnectError.subscribe
      ∧ ∃ c1 ev, (freshSession.Connect
            { goodConnectEnv with WriteJSON := fun _ => false }).client.Disconnect
          = Outcome.ok (c1, ev) ∧ c1.connected = false)
    ∧ ((freshSession.Connect { goodConnectEnv with rest := scenarioRest }).err ≠ none
      ∧ ∃ c1 ev, (freshSession.Connect
            { goodConnectEnv with rest := scenarioRest }).client.Disconnect
          = Outcome.ok (c1, ev) ∧ c1.connected = false) :=
  ⟨⟨by decide,
    ((Disconnect_before_active 8086 true true
      { goodConnectEnv with WriteJSON := fun _ => false }).2.2 (by decide)).2⟩,
   ⟨by decide,
    ((Disconnect_before_active 8086 true true
      { goodConnectEnv with rest := scenarioRest }).2.2 (by decide)).2⟩⟩

/-- C19: `Disconnect` is not idempotent.  On every session whose stop signal is still
open, that is on which `Disconnect()` has not been called, the first call returns with
the connected flag false, and a second call panics: it closes the stop signal, which
is already closed.  The sequence is reachable: when tracking is stopped while the
application holds that session, the handler of the status window closes the
application's stop channel and calls `Disconnect()`, and the supervisor, woken by the
stop channel, calls `Disconnect()` on the same session; whichever comes second
panics. -/
theorem Disconnect_twice (c : xplane.Client) (h : c.stopClosed = false) :
    ∃ c1 ev, c.Disconnect = Outcome.ok (c1, ev) ∧ c1.connected = false
      ∧ c1.Disconnect = Outcome.panic Fault.closeOfClosedChannel
      ∧ (∀ a : App, a.stopCh = some false → a.xplaneClient = some c →
          ∃ a1, a.statusWindowStop = Outcome.ok a1 ∧ a1.stopCh = some true
            ∧ a1.xplaneClient = some c1
            ∧ a1.supervisorStop = Outcome.panic Fault.closeOfClosedChannel)
      ∧ (∀ a : App, a.stopCh = some false → a.xplaneClient = some c →
          ∃ a0 a1, a.stopTracking = Outcome.ok a0 ∧ a0.stopCh = some true
            ∧ a0.supervisorStop = Outcome.ok a1 ∧ a1.xplaneClient = some c1
            ∧ a1.disconnectSession = Outcome.panic Fault.closeOfClosedChannel) := by
  obtain ⟨c1, ev, h1, h2, h3, -⟩ := Disconnect_ok c h
  have h4 := Disconnect_closed c1 h3
  refine ⟨c1, ev, h1, h2, h4, ?_, ?_⟩
  · intro a hs hx
    refine ⟨{ a with stopCh := some true, xplaneClient := some c1 }, ?_, rfl, rfl, ?_⟩
    · simp only [App.statusWindowStop, App.stopTracking, hs, App.disconnectSession, hx, h1]
    · simp only [App.supervisorStop, h4]
  · intro a hs hx
    refine ⟨{ a with stopCh := some true },
      { a with stopCh := some true, xplaneClient := some c1 }, ?_, rfl, ?_, rfl, ?_⟩
    · simp only [App.stopTracking, hs]
    · simp only [App.supervisorStop, hx, h1]
    · simp only [App.disconnectSession, h4]

/-- C19, the example: stopping the tracking of an application that holds an Active
session makes the handler's call succeed and the supervisor's call panic. -/
theorem Disconnect_twice_witness :
    ∃ a1, (trackingApp activeSession).statusWindowStop = Outcome.ok a1
      ∧ a1.supervisorStop = Outcome.panic Fault.closeOfClosedChannel := by
  obtain ⟨c1, ev, -, -, -, h, -⟩ := Disconnect_twice activeSession (by decide)
  obtain ⟨a1, h1, -, -, h2⟩ := h (trackingApp activeSession) rfl rfl
  exact ⟨a1, h1, h2⟩

/-! ### The reconnection supervisor -/

theorem selectStop_spec (stopAt : Option Nat) (t : Nat) (ready : Option Nat) (latency : Nat)
    (pick : Bool) (k : Woke) (w : Nat)
    (h : selectStop stopAt t ready latency pick = (k, w)) :
    t ≤ w ∧ (k = Woke.other → ∃ r, ready = some r ∧ r ≤ w
        ∧ ∀ s, stopAt = some s → max r t ≤ max s t) ∧
      (k = Woke.stop → stopFired stopAt w = true) ∧
      (k = Woke.never → stopAt = none ∧ ready = none) := by
  cases stopAt with
  | none =>
    cases ready with
    | none =>
      simp only [selectStop, Prod.mk.injEq] at h
      obtain ⟨rfl, rfl⟩ := h
      simp
    | some r =>
      simp only [selectStop, Prod.mk.injEq] at h
      obtain ⟨rfl, rfl⟩ := h
      refine ⟨by omega, fun _ => ⟨r, rfl, by omega, by simp⟩, (fun hk => by cases hk),
        (fun hk => by cases hk)⟩
  | some s =>
    cases ready with
    | none =>
      simp only [selectStop, Prod.mk.injEq] at h
      obtain ⟨rfl, rfl⟩ := h
      refine ⟨by omega, (fun hk => by cases hk), fun _ => ?_, (fun hk => by cases hk)⟩
      simp only [stopFired, decide_eq_true_eq]
      omega
    | some r =>
      simp only [selectStop] at h
      split_ifs at h with h1 h2 h3
      all_goals simp only [Prod.mk.injEq] at h
      all_goals obtain ⟨rfl, rfl⟩ := h
      · refine ⟨by omega, (fun hk => by cases hk), fun _ => ?_, (fun hk => by cases hk)⟩
        simp only [stopFired, decide_eq_true_eq]
        omega
      · refine ⟨by omega, fun _ => ⟨r, rfl, by omega, ?_⟩, (fun hk => by cases hk),
          (fun hk => by cases hk)⟩
        intro s2 hs2
        simp only [Option.some.injEq] at hs2
        subst hs2
        omega
      · refine ⟨by omega, fun _ => ⟨r, rfl, by omega, ?_⟩, (fun hk => by cases hk),
          (fun hk => by cases hk)⟩
        intro s2 hs2
        simp only [Option.some.injEq] at hs2
        subst hs2
        omega
      · refine ⟨by omega, (fun hk => by cases hk), fun _ => ?_, (fun hk => by cases hk)⟩
        simp only [stopFired, decide_eq_true_eq]
        omega

theorem waitReconnect_spec (stopAt : Option Nat) (t late latency : Nat) (pick : Bool)
    (k : Woke) (w : Nat) (h : waitReconnect stopAt t late latency pick = (k, w)) :
    t ≤ w ∧ (k = Woke.other → t + reconnectDelay ≤ w
        ∧ ∀ s, stopAt = some s → t + reconnectDelay ≤ s) ∧
      (k = Woke.stop → stopFired stopAt w = true) ∧ k ≠ Woke.never := by
  have hs := selectStop_spec _ _ _ _ _ _ _ h
  refine ⟨hs.1, fun hk => ?_, hs.2.2.1, ?_⟩
  · obtain ⟨r, hr, hle, hfirst⟩ := hs.2.1 hk
    simp only [Option.some.injEq] at hr
    refine ⟨by omega, fun s hs2 => ?_⟩
    have := hfirst s hs2
    have hd : 0 < reconnectDelay := by decide
    omega
  · intro hk
    have := (hs.2.2.2 hk).2
    simp at this

theorem stopActive_cases (atStop : xplane.Client) (w : Nat) :
    (atStop.stopClosed = false
        ∧ stopActive atStop w = [SupervisorEvent.Disconnect w, SupervisorEvent.Returned w])
    ∨ (atStop.stopClosed = true
        ∧ stopActive atStop w = [SupervisorEvent.Disconnect w,
            SupervisorEvent.Panicked w Fault.closeOfClosedChannel]) := by
  cases h : atStop.stopClosed with
  | false =>
    left
    refine ⟨rfl, ?_⟩
    simp only [stopActive, xplane.Client.Disconnect, h, Bool.false_eq_true, if_false]
    cases atStop.conn <;> rfl
  | true =>
    right
    refine ⟨rfl, ?_⟩
    simp only [stopActive, xplane.Client.Disconnect, h, if_true]

theorem connectXPlane_stopped (stopCh : Nat → Option Nat) (turns : List Turn) (t : Nat)
    (h : stopFired (stopCh t) t = true) :
    connectXPlane stopCh turns t = [SupervisorEvent.Returned t] := by
  cases turns <;> simp only [connectXPlane, h, if_true]

theorem connectXPlane_nil (stopCh : Nat → Option Nat) (t : Nat)
    (h : stopFired (stopCh t) t = false) :
    connectXPlane stopCh [] t = [SupervisorEvent.Pending t] := by
  simp only [connectXPlane, h, Bool.false_eq_true, if_false]

/-- One turn of the loop, when the stop has not fired at its start. -/
theorem connectXPlane_cons (stopCh : Nat → Option Nat) (turn : Turn) (rest : List Turn)
    (t : Nat) (h : stopFired (stopCh t) t = false) :
    ∃ body, connectXPlane stopCh (turn :: rest) t
        = SupervisorEvent.NewSession t :: SupervisorEvent.Connect t :: body
      ∧ TurnBody stopCh turn rest t body := by
  rw [connectXPlane]
  simp only [h, Bool.false_eq_true, if_false]
  by_cases hok : turn.connectOk = false
  · rw [if_pos hok]
    rcases hw : waitReconnect (stopCh (t + turn.connectTakes)) (t + turn.connectTakes)
      turn.timerLate turn.latency1 turn.pick1 with ⟨k, w⟩
    have hs := waitReconnect_spec _ _ _ _ _ _ _ hw
    cases k
    · exact ⟨_, rfl, Or.inl ⟨w, rfl, hs.1⟩⟩
    · exact ⟨_, rfl, Or.inr (Or.inl ⟨w, rfl, (hs.2.1 rfl).1, (hs.2.1 rfl).2⟩)⟩
    · exact absurd rfl hs.2.2.2
  · rw [if_neg hok]
    rcases hw : selectStop (stopCh (t + turn.connectTakes)) (t + turn.connectTakes)
      (turn.sessionLasts.map (fun d => t + turn.connectTakes + d)) turn.latency1
      turn.pick1 with ⟨k, w⟩
    have hs := selectStop_spec _ _ _ _ _ _ _ hw
    cases k
    · exact ⟨_, rfl, Or.inr (Or.inr (Or.inl ⟨w, rfl, hs.1⟩))⟩
    · dsimp only
      rcases hw2 : waitReconnect (stopCh w) w turn.timerLate turn.latency2 turn.pick2
        with ⟨k2, w2⟩
      have hs2 := waitReconnect_spec _ _ _ _ _ _ _ hw2
      cases k2
      · exact ⟨_, rfl, Or.inr (Or.inr (Or.inr (Or.inr (Or.inl ⟨w, w2, rfl, hs.1, hs2.1⟩))))⟩
      · exact ⟨_, rfl, Or.inr (Or.inr (Or.inr (Or.inr (Or.inr
          ⟨w, w2, rfl, hs.1, (hs2.2.1 rfl).1, (hs2.2.1 rfl).2⟩))))⟩
      · exact absurd rfl hs2.2.2.2
    · exact ⟨_, rfl, Or.inr (Or.inr (Or.inr (Or.inl ⟨w, rfl, hs.1, (hs.2.2.2 rfl).1⟩)))⟩

theorem stopFired_some (s t : Nat) : stopFired (some s) t = true ↔ s ≤ t := by
  simp [stopFired]

theorem getLast?_cons_of_some {α : Type} (a x : α) (l : List α) (h : l.getLast? = some x) :
    (a :: l).getLast? = some x := by
  cases l with
  | nil => simp at h
  | cons b l => rw [List.getLast?_cons_cons]; exact h

theorem connectXPlane_time_le (stopCh : Nat → Option Nat) (turns : List Turn) :
    ∀ t e, e ∈ connectXPlane stopCh turns t → t ≤ e.time := by
  induction turns with
  | nil =>
    intro t e h
    simp only [connectXPlane] at h
    split_ifs at h <;> simp only [List.mem_singleton] at h <;> subst h <;>
      simp [SupervisorEvent.time]
  | cons turn rest ih =>
    intro t e h
    cases hst : stopFired (stopCh t) t with
    | true =>
      rw [connectXPlane_stopped stopCh _ t hst, List.mem_singleton] at h
      subst h
      simp [SupervisorEvent.time]
    | false =>
      obtain ⟨body, hb, hshape⟩ := connectXPlane_cons stopCh turn rest t hst
      rw [hb] at h
      rcases hshape with ⟨w, rfl, h1⟩ | ⟨w, rfl, h1, _⟩ | ⟨w, rfl, h1⟩ | ⟨w, rfl, h1, _⟩ |
        ⟨w, w2, rfl, h1, h2⟩ | ⟨w, w2, rfl, h1, h2, _⟩
      · simp only [List.mem_cons, List.mem_singleton, List.not_mem_nil, or_false] at h
        rcases h with rfl | rfl | rfl | rfl <;> (simp only [SupervisorEvent.time]; omega)
      · simp only [List.mem_cons] at h
        rcases h with rfl | rfl | rfl | h
        · simp [SupervisorEvent.time]
        · simp [SupervisorEvent.time]
        · simp [SupervisorEvent.time]
        · have := ih w e h
          omega
      · rcases stopActive_cases turn.atStop w with ⟨_, hsa⟩ | ⟨_, hsa⟩ <;>
        · rw [hsa] at h
          simp only [List.mem_cons, List.mem_singleton, List.not_mem_nil, or_false] at h
          rcases h with rfl | rfl | rfl | rfl | rfl <;>
            (simp only [SupervisorEvent.time]; omega)
      · simp only [List.mem_cons, List.mem_singleton, List.not_mem_nil, or_false] at h
        rcases h with rfl | rfl | rfl | rfl <;> (simp only [SupervisorEvent.time]; omega)
      · simp only [List.mem_cons, List.mem_singleton, List.not_mem_nil, or_false] at h
        rcases h with rfl | rfl | rfl | rfl | rfl <;>
          (simp only [SupervisorEvent.time]; omega)
      · simp only [List.mem_cons] at h
        have hd : 0 < reconnectDelay := by decide
        rcases h with rfl | rfl | rfl | rfl | h
        · simp [SupervisorEvent.time]
        · simp [SupervisorEvent.time]
        · simp [SupervisorEvent.time]
        · simp only [SupervisorEvent.time]
          omega
        · have := ih w2 e h
          omega

theorem connectXPlane_sorted (stopCh : Nat → Option Nat) (turns : List Turn) :
    ∀ t, (connectXPlane stopCh turns t).Pairwise (fun e1 e2 => e1.time ≤ e2.time) := by
  induction turns with
  | nil =>
    intro t
    simp only [connectXPlane]
    split_ifs <;> simp
  | cons turn rest ih =>
    intro t
    cases hst : stopFired (stopCh t) t with
    | true =>
      rw [connectXPlane_stopped stopCh _ t hst]
      simp
    | false =>
      obtain ⟨body, hb, hshape⟩ := connectXPlane_cons stopCh turn rest t hst
      rw [hb]
      have hd : 0 < reconnectDelay := by decide
      rcases hshape with ⟨w, rfl, h1⟩ | ⟨w, rfl, h1, _⟩ | ⟨w, rfl, h1⟩ | ⟨w, rfl, h1, _⟩ |
        ⟨w, w2, rfl, h1, h2⟩ | ⟨w, w2, rfl, h1, h2, _⟩
      · simp [SupervisorEvent.time]
        omega
      · simp only [List.pairwise_cons, List.mem_cons]
        refine ⟨?_, ?_, ?_, ih w⟩
        · rintro e (rfl | rfl | he)
          · simp [SupervisorEvent.time]
          · simp [SupervisorEvent.time]
          · refine le_trans ?_ (connectXPlane_time_le stopCh rest w e he)
            simp only [SupervisorEvent.time]
            omega
        · rintro e (rfl | he)
          · simp [SupervisorEvent.time]
          · refine le_trans ?_ (connectXPlane_time_le stopCh rest w e he)
            simp only [SupervisorEvent.time]
            omega
        · intro e he
          refine le_trans ?_ (connectXPlane_time_le stopCh rest w e he)
          simp only [SupervisorEvent.time]
          omega
      · rcases stopActive_cases turn.atStop w with ⟨_, hsa⟩ | ⟨_, hsa⟩ <;>
        · rw [hsa]
          simp [SupervisorEvent.time]
          omega
      · simp [SupervisorEvent.time]
        omega
      · simp [SupervisorEvent.time]
        omega
      · simp only [List.pairwise_cons, List.mem_cons]
        refine ⟨?_, ?_, ?_, ?_, ih w2⟩
        · rintro e (rfl | rfl | rfl | he)
          · simp [SupervisorEvent.time]
          · simp [SupervisorEvent.time]
          · simp only [SupervisorEvent.time]
            omega
          · refine le_trans ?_ (connectXPlane_time_le stopCh rest w2 e he)
            simp only [SupervisorEvent.time]
            omega
        · rintro e (rfl | rfl | he)
          · simp [SupervisorEvent.time]
          · simp only [SupervisorEvent.time]
            omega
          · refine le_trans ?_ (connectXPlane_time_le stopCh rest w2 e he)
            simp only [SupervisorEvent.time]
            omega
        · rintro e (rfl | he)
          · simp only [SupervisorEvent.time]
            omega
          · refine le_trans ?_ (connectXPlane_time_le stopCh rest w2 e he)
            simp only [SupervisorEvent.time]
            omega
        · intro e he
          refine le_trans ?_ (connectXPlane_time_le stopCh rest w2 e he)
          simp only [SupervisorEvent.time]
          omega

theorem connectXPlane_delay (stopCh : Nat → Option Nat) (turns : List Turn) :
    ∀ t, (connectXPlane stopCh turns t).Pairwise DelayKept := by
  induction turns with
  | nil =>
    intro t
    simp only [connectXPlane]
    split_ifs <;> simp
  | cons turn rest ih =>
    intro t
    cases hst : stopFired (stopCh t) t with
    | true =>
      rw [connectXPlane_stopped stopCh _ t hst]
      simp
    | false =>
      obtain ⟨body, hb, hshape⟩ := connectXPlane_cons stopCh turn rest t hst
      rw [hb]
      rcases hshape with ⟨w, rfl, h1⟩ | ⟨w, rfl, h1, _⟩ | ⟨w, rfl, h1⟩ | ⟨w, rfl, h1, _⟩ |
        ⟨w, w2, rfl, h1, h2⟩ | ⟨w, w2, rfl, h1, h2, _⟩
      · simp [DelayKept, SupervisorEvent.isAttempt]
      · simp only [List.pairwise_cons]
        refine ⟨?_, ?_, ?_, ih w⟩
        · intro e _ t1 he
          cases he
        · intro e _ t1 he
          cases he
        · intro e he t1 h1 _
          cases h1
          have := connectXPlane_time_le stopCh rest w e he
          omega
      · rcases stopActive_cases turn.atStop w with ⟨_, hsa⟩ | ⟨_, hsa⟩ <;>
        · rw [hsa]
          simp [DelayKept, SupervisorEvent.isAttempt]
      · simp [DelayKept, SupervisorEvent.isAttempt]
      · simp [DelayKept, SupervisorEvent.isAttempt]
      · simp only [List.pairwise_cons]
        refine ⟨?_, ?_, ?_, ?_, ih w2⟩ <;>
        · intro e _ t1 he
          cases he

theorem forall_suffix_nil {α : Type} (P : α → List α → Prop) :
    ∀ x post, (x :: post) <:+ ([] : List α) → P x post := by
  intro x post h
  have := List.eq_nil_of_suffix_nil h
  cases this

theorem forall_suffix_cons {α : Type} (P : α → List α → Prop) (a : α) (l : List α)
    (ha : P a l) (hl : ∀ x post, (x :: post) <:+ l → P x post) :
    ∀ x post, (x :: post) <:+ (a :: l) → P x post := by
  intro x post h
  rcases List.suffix_cons_iff.mp h with h1 | h1
  · simp only [List.cons.injEq] at h1
    obtain ⟨rfl, rfl⟩ := h1
    exact ha
  · exact hl x post h1

theorem connectXPlane_stop_ends_wait (stopCh : Nat → Option Nat) (turns : List Turn) :
    ∀ t x post, (x :: post) <:+ connectXPlane stopCh turns t →
      StopEndsWait stopCh x post := by
  induction turns with
  | nil =>
    intro t
    simp only [connectXPlane]
    split_ifs
    · refine forall_suffix_cons _ _ _ ?_ (forall_suffix_nil _)
      rintro t1 (h | h) <;> cases h
    · refine forall_suffix_cons _ _ _ ?_ (forall_suffix_nil _)
      rintro t1 (h | h) <;> cases h
  | cons turn rest ih =>
    intro t
    have skip : ∀ (e : SupervisorEvent) (l : List SupervisorEvent),
        (∀ t1, e ≠ SupervisorEvent.ConnectFailed t1) →
        (∀ t1, e ≠ SupervisorEvent.SessionEnded t1) → StopEndsWait stopCh e l := by
      intro e l h1 h2 t1 h
      rcases h with h | h
      · exact absurd h (h1 t1)
      · exact absurd h (h2 t1)
    cases hst : stopFired (stopCh t) t with
    | true =>
      rw [connectXPlane_stopped stopCh _ t hst]
      exact forall_suffix_cons _ _ _ (skip _ _ (by simp) (by simp)) (forall_suffix_nil _)
    | false =>
      obtain ⟨body, hb, hshape⟩ := connectXPlane_cons stopCh turn rest t hst
      rw [hb]
      refine forall_suffix_cons _ _ _ (skip _ _ (by simp) (by simp)) ?_
      refine forall_suffix_cons _ _ _ (skip _ _ (by simp) (by simp)) ?_
      rcases hshape with ⟨w, rfl, h1⟩ | ⟨w, rfl, h1, h2⟩ | ⟨w, rfl, h1⟩ | ⟨w, rfl, h1, _⟩ |
        ⟨w, w2, rfl, h1, h2⟩ | ⟨w, w2, rfl, h1, h2, h3⟩
      · refine forall_suffix_cons _ _ _ ?_ ?_
        · intro t1 _ s _ _
          exact ⟨w, rfl⟩
        · exact forall_suffix_cons _ _ _ (skip _ _ (by simp) (by simp))
            (forall_suffix_nil _)
      · refine forall_suffix_cons _ _ _ ?_ (ih w)
        intro t1 ht1 s hs hlt
        rcases ht1 with ht1 | ht1
        · simp only [SupervisorEvent.ConnectFailed.injEq] at ht1
          subst ht1
          have := h2 s hs
          omega
        · cases ht1
      · refine forall_suffix_cons _ _ _ (skip _ _ (by simp) (by simp)) ?_
        rcases stopActive_cases turn.atStop w with ⟨_, hsa⟩ | ⟨_, hsa⟩ <;>
        · rw [hsa]
          exact forall_suffix_cons _ _ _ (skip _ _ (by simp) (by simp))
            (forall_suffix_cons _ _ _ (skip _ _ (by simp) (by simp)) (forall_suffix_nil _))
      · exact forall_suffix_cons _ _ _ (skip _ _ (by simp) (by simp))
          (forall_suffix_cons _ _ _ (skip _ _ (by simp) (by simp)) (forall_suffix_nil _))
      · refine forall_suffix_cons _ _ _ (skip _ _ (by simp) (by simp)) ?_
        refine forall_suffix_cons _ _ _ ?_ ?_
        · intro t1 _ s _ _
          exact ⟨w2, rfl⟩
        · exact forall_suffix_cons _ _ _ (skip _ _ (by simp) (by simp))
            (forall_suffix_nil _)
      · refine forall_suffix_cons _ _ _ (skip _ _ (by simp) (by simp)) ?_
        refine forall_suffix_cons _ _ _ ?_ (ih w2)
        intro t1 ht1 s hs hlt
        rcases ht1 with ht1 | ht1
        · cases ht1
        · simp only [SupervisorEvent.SessionEnded.injEq] at ht1
          subst ht1
          have := h3 s hs
          omega

theorem connectXPlane_active_wait (stopCh : Nat → Option Nat) (turns : List Turn) :
    ∀ t x post, (x :: post) <:+ connectXPlane stopCh turns t → ActiveWaitEnds x post := by
  induction turns with
  | nil =>
    intro t
    simp only [connectXPlane]
    split_ifs
    · refine forall_suffix_cons _ _ _ ?_ (forall_suffix_nil _)
      intro t1 h
      cases h
    · refine forall_suffix_cons _ _ _ ?_ (forall_suffix_nil _)
      intro t1 h
      cases h
  | cons turn rest ih =>
    intro t
    have skip : ∀ (e : SupervisorEvent) (l : List SupervisorEvent),
        (∀ t1, e ≠ SupervisorEvent.Connected t1) → ActiveWaitEnds e l := by
      intro e l h1 t1 h
      exact absurd h (h1 t1)
    cases hst : stopFired (stopCh t) t with
    | true =>
      rw [connectXPlane_stopped stopCh _ t hst]
      exact forall_suffix_cons _ _ _ (skip _ _ (by simp)) (forall_suffix_nil _)
    | false =>
      obtain ⟨body, hb, hshape⟩ := connectXPlane_cons stopCh turn rest t hst
      rw [hb]
      refine forall_suffix_cons _ _ _ (skip _ _ (by simp)) ?_
      refine forall_suffix_cons _ _ _ (skip _ _ (by simp)) ?_
      rcases hshape with ⟨w, rfl, h1⟩ | ⟨w, rfl, h1, h2⟩ | ⟨w, rfl, h1⟩ | ⟨w, rfl, h1, _⟩ |
        ⟨w, w2, rfl, h1, h2⟩ | ⟨w, w2, rfl, h1, h2, h3⟩
      · exact forall_suffix_cons _ _ _ (skip _ _ (by simp))
          (forall_suffix_cons _ _ _ (skip _ _ (by simp)) (forall_suffix_nil _))
      · exact forall_suffix_cons _ _ _ (skip _ _ (by simp)) (ih w)
      · rcases stopActive_cases turn.atStop w with ⟨_, hsa⟩ | ⟨_, hsa⟩
        · rw [hsa]
          refine forall_suffix_cons _ _ _ ?_ ?_
          · intro t1 _
            exact Or.inr (Or.inr (Or.inl ⟨w, rfl⟩))
          · exact forall_suffix_cons _ _ _ (skip _ _ (by simp))
              (forall_suffix_cons _ _ _ (skip _ _ (by simp)) (forall_suffix_nil _))
        · rw [hsa]
          refine forall_suffix_cons _ _ _ ?_ ?_
          · intro t1 _
            exact Or.inr (Or.inr (Or.inr ⟨w, rfl⟩))
          · exact forall_suffix_cons _ _ _ (skip _ _ (by simp))
              (forall_suffix_cons _ _ _ (skip _ _ (by simp)) (forall_suffix_nil _))
      · refine forall_suffix_cons _ _ _ ?_ ?_
        · intro t1 _
          exact Or.inr (Or.inl ⟨w, rfl⟩)
        · exact forall_suffix_cons _ _ _ (skip _ _ (by simp)) (forall_suffix_nil _)
      · refine forall_suffix_cons _ _ _ ?_ ?_
        · intro t1 _
          exact Or.inl ⟨w, _, rfl⟩
        · exact forall_suffix_cons _ _ _ (skip _ _ (by simp))
            (forall_suffix_cons _ _ _ (skip _ _ (by simp)) (forall_suffix_nil _))
      · refine forall_suffix_cons _ _ _ ?_ ?_
        · intro t1 _
          exact Or.inl ⟨w, _, rfl⟩
        · exact forall_suffix_cons _ _ _ (skip _ _ (by simp)) (ih w2)

theorem connectXPlane_attempt_lt (s : Nat) (turns : List Turn) :
    ∀ t e, e ∈ connectXPlane (fun _ => some s) turns t → e.isAttempt = true →
      e.time < s := by
  induction turns with
  | nil =>
    intro t e h
    simp only [connectXPlane] at h
    split_ifs at h <;> simp only [List.mem_singleton] at h <;> subst h <;>
      simp [SupervisorEvent.isAttempt]
  | cons turn rest ih =>
    intro t e h
    cases hst : stopFired ((fun _ => some s) t) t with
    | true =>
      rw [connectXPlane_stopped (fun _ => some s) _ t hst, List.mem_singleton] at h
      subst h
      simp [SupervisorEvent.isAttempt]
    | false =>
      have hlt : t < s := by
        simp only [stopFired, decide_eq_false_iff_not] at hst
        omega
      obtain ⟨body, hb, hshape⟩ := connectXPlane_cons (fun _ => some s) turn rest t hst
      rw [hb] at h
      rcases hshape with ⟨w, rfl, h1⟩ | ⟨w, rfl, h1, _⟩ | ⟨w, rfl, h1⟩ | ⟨w, rfl, h1, _⟩ |
        ⟨w, w2, rfl, h1, h2⟩ | ⟨w, w2, rfl, h1, h2, _⟩
      · simp only [List.mem_cons, List.mem_singleton, List.not_mem_nil, or_false] at h
        rcases h with rfl | rfl | rfl | rfl <;>
          simp [SupervisorEvent.isAttempt, SupervisorEvent.time, hlt]
      · simp only [List.mem_cons] at h
        rcases h with rfl | rfl | rfl | h
        · simp [SupervisorEvent.time, hlt]
        · simp [SupervisorEvent.time, hlt]
        · simp [SupervisorEvent.isAttempt]
        · exact ih w e h
      · rcases stopActive_cases turn.atStop w with ⟨_, hsa⟩ | ⟨_, hsa⟩ <;>
        · rw [hsa] at h
          simp only [List.mem_cons, List.mem_singleton, List.not_mem_nil, or_false] at h
          rcases h with rfl | rfl | rfl | rfl | rfl <;>
            simp [SupervisorEvent.isAttempt, SupervisorEvent.time, hlt]
      · simp only [List.mem_cons, List.mem_singleton, List.not_mem_nil, or_false] at h
        rcases h with rfl | rfl | rfl | rfl <;>
          simp [SupervisorEvent.isAttempt, SupervisorEvent.time, hlt]
      · simp only [List.mem_cons, List.mem_singleton, List.not_mem_nil, or_false] at h
        rcases h with rfl | rfl | rfl | rfl | rfl <;>
          simp [SupervisorEvent.isAttempt, SupervisorEvent.time, hlt]
      · simp only [List.mem_cons] at h
        rcases h with rfl | rfl | rfl | rfl | h
        · simp [SupervisorEvent.time, hlt]
        · simp [SupervisorEvent.time, hlt]
        · simp [SupervisorEvent.isAttempt]
        · simp [SupervisorEvent.isAttempt]
        · exact ih w2 e h

/-- The loop has ended: its last event is a return or a panic. -/
theorem connectXPlane_ends (s : Nat) (turns : List Turn) :
    ∀ t, s ≤ t + turns.length * reconnectDelay →
      (∃ w, (connectXPlane (fun _ => some s) turns t).getLast?
          = some (SupervisorEvent.Returned w))
      ∨ (∃ w, (connectXPlane (fun _ => some s) turns t).getLast?
          = some (SupervisorEvent.Panicked w Fault.closeOfClosedChannel)) := by
  induction turns with
  | nil =>
    intro t h
    have : stopFired ((fun _ => some s) t) t = true := by
      simp only [stopFired, decide_eq_true_eq]
      simpa using h
    exact Or.inl ⟨t, by rw [connectXPlane_stopped (fun _ => some s) _ t this]; rfl⟩
  | cons turn rest ih =>
    intro t h
    simp only [List.length_cons, Nat.add_mul, Nat.one_mul] at h
    have lift : ∀ (pre : List SupervisorEvent) (l : List SupervisorEvent),
        ((∃ w, l.getLast? = some (SupervisorEvent.Returned w))
          ∨ (∃ w, l.getLast? = some (SupervisorEvent.Panicked w Fault.closeOfClosedChannel))) →
        ((∃ w, (pre ++ l).getLast? = some (SupervisorEvent.Returned w))
          ∨ (∃ w, (pre ++ l).getLast?
              = some (SupervisorEvent.Panicked w Fault.closeOfClosedChannel))) := by
      intro pre l hl
      induction pre with
      | nil => exact hl
      | cons a pre ihp =>
        rcases ihp with ⟨w, hw⟩ | ⟨w, hw⟩
        · exact Or.inl ⟨w, getLast?_cons_of_some _ _ _ hw⟩
        · exact Or.inr ⟨w, getLast?_cons_of_some _ _ _ hw⟩
    cases hst : stopFired ((fun _ => some s) t) t with
    | true =>
      exact Or.inl ⟨t, by rw [connectXPlane_stopped (fun _ => some s) _ t hst]; rfl⟩
    | false =>
      obtain ⟨body, hb, hshape⟩ := connectXPlane_cons (fun _ => some s) turn rest t hst
      rw [hb]
      rcases hshape with ⟨w, rfl, h1⟩ | ⟨w, rfl, h1, _⟩ | ⟨w, rfl, h1⟩ | ⟨w, rfl, h1, h2⟩ |
        ⟨w, w2, rfl, h1, h2⟩ | ⟨w, w2, rfl, h1, h2, _⟩
      · exact Or.inl ⟨w, rfl⟩
      · exact lift [_, _, _] _ (ih w (by omega))
      · rcases stopActive_cases turn.atStop w with ⟨_, hsa⟩ | ⟨_, hsa⟩
        · rw [hsa]
          exact Or.inl ⟨w, rfl⟩
        · rw [hsa]
          exact Or.inr ⟨w, rfl⟩
      · cases h2
      · exact Or.inl ⟨w2, rfl⟩
      · exact lift [_, _, _, _] _ (ih w2 (by omega))

/-- The supervisor loop `connectXPlane`, in every run, whatever `Connect`, the sessions,
the scheduler and the other tasks do.  The events are in the order of time.  After a
failed `Connect` at the time `t1` every later creation of a session and every later
call of `Connect` is at `t1 + reconnectDelay` (5 seconds) or later.  When the stop
channel read by a wait for the reconnect delay is closed before the delay has elapsed,
the loop returns from that wait, with no further session and no further `Connect`.
The wait on an active session ends with the end of the session, or never, or with the
stop case: `Disconnect()` and return, or a panic of that `Disconnect()`.  And when
`a.stopCh` is one channel throughout, closed at the time `s`, every creation of a
session and every call of `Connect` is before `s`, and the loop ends, with a return or
with that panic, once turns enough to reach `s` are given. -/
theorem connectXPlane_delay_and_stop (stopCh : Nat → Option Nat) (turns : List Turn)
    (t0 : Nat) :
    (connectXPlane stopCh turns t0).Pairwise (fun e1 e2 => e1.time ≤ e2.time)
    ∧ (connectXPlane stopCh turns t0).Pairwise DelayKept
    ∧ (∀ x post, (x :: post) <:+ connectXPlane stopCh turns t0 →
        StopEndsWait stopCh x post ∧ ActiveWaitEnds x post)
    ∧ ∀ s, (∀ t, stopCh t = some s) →
      (∀ e ∈ connectXPlane stopCh turns t0, e.isAttempt = true → e.time < s)
      ∧ (s ≤ t0 + turns.length * reconnectDelay →
          (∃ w, (connectXPlane stopCh turns t0).getLast?
              = some (SupervisorEvent.Returned w))
          ∨ (∃ w, (connectXPlane stopCh turns t0).getLast?
              = some (SupervisorEvent.Panicked w Fault.closeOfClosedChannel))) := by
  refine ⟨connectXPlane_sorted stopCh turns t0, connectXPlane_delay stopCh turns t0,
    fun x post h => ⟨connectXPlane_stop_ends_wait stopCh turns t0 x post h,
      connectXPlane_active_wait stopCh turns t0 x post h⟩, ?_⟩
  intro s hs
  have hc : stopCh = fun _ => some s := funext hs
  subst hc
  exact ⟨connectXPlane_attempt_lt s turns t0, connectXPlane_ends s turns t0⟩

/-- Three failures in a row: `Connect` fails after one second in every turn.  Without a
stop the attempts are at 0, 6, 12 and 18 seconds, each 5 seconds after the failure
before it; with a stop at 15 seconds, during the wait after the third failure, the loop
returns at 15 seconds and there is no fourth attempt. -/
theorem connectXPlane_three_failures :
    connectXPlane (fun _ => none) [failingTurn, failingTurn, failingTurn, failingTurn] 0 =
      [SupervisorEvent.NewSession 0, SupervisorEvent.Connect 0,
         SupervisorEvent.ConnectFailed 1000000000,
       SupervisorEvent.NewSession 6000000000, SupervisorEvent.Connect 6000000000,
         SupervisorEvent.ConnectFailed 7000000000,
       SupervisorEvent.NewSession 12000000000, SupervisorEvent.Connect 12000000000,
         SupervisorEvent.ConnectFailed 13000000000,
       SupervisorEvent.NewSession 18000000000, SupervisorEvent.Connect 18000000000,
         SupervisorEvent.ConnectFailed 19000000000,
       SupervisorEvent.Pending 24000000000] ∧
    connectXPlane (fun _ => some 15000000000)
        [failingTurn, failingTurn, failingTurn, failingTurn] 0 =
      [SupervisorEvent.NewSession 0, SupervisorEvent.Connect 0,
         SupervisorEvent.ConnectFailed 1000000000,
       SupervisorEvent.NewSession 6000000000, SupervisorEvent.Connect 6000000000,
         SupervisorEvent.ConnectFailed 7000000000,
       SupervisorEvent.NewSession 12000000000, SupervisorEvent.Connect 12000000000,
         SupervisorEvent.ConnectFailed 13000000000,
       SupervisorEvent.Returned 15000000000] := by
  decide

/-- C13, the failing input: a session is active, the user stops tracking at 3 seconds,
and the handler of the status window has called `Disconnect()` on the session when the
woken supervisor runs its stop case.  The `Disconnect()` of the supervisor then closes
the closed stop channel of the session and panics: the loop does not return.  Had the
session not been disconnected yet, the loop would have returned. -/
theorem connectXPlane_stop_on_active_panics :
    activeSession.connected = true
    ∧ activeSession.Disconnect = Outcome.ok (disconnectedSession,
        [SessionEvent.StopClosed, SessionEvent.ConnClosed])
    ∧ connectXPlane (fun _ => some 3000000000) [activeTurn disconnectedSession] 0 =
      [SupervisorEvent.NewSession 0, SupervisorEvent.Connect 0,
       SupervisorEvent.Connected 1000000000, SupervisorEvent.Disconnect 3000000000,
       SupervisorEvent.Panicked 3000000000 Fault.closeOfClosedChannel]
    ∧ connectXPlane (fun _ => some 3000000000) [activeTurn activeSession] 0 =
      [SupervisorEvent.NewSession 0, SupervisorEvent.Connect 0,
       SupervisorEvent.Connected 1000000000, SupervisorEvent.Disconnect 3000000000,
       SupervisorEvent.Returned 3000000000] := by
  decide

/-! ### The login window -/

/-- A call of `Authenticate` that returns a bundle and no error: what was sent and what
the answer was. -/
theorem Authenticate_success (env : AuthEnv) (c : bushtalk.Client) (u p : GoString)
    (b : AuthResponse) (hb : (c.Authenticate env u p).resp = some b) :
    env.Do (c.authRequest u p) = some ⟨200, some b⟩
      ∧ (c.Authenticate env u p).client = { baseURL := c.baseURL, token := b.IDToken }
      ∧ (c.Authenticate env u p).sent = [c.authRequest u p] := by
  cases h1 : env.NewRequestOk (c.baseURL ++ str "/api/authenticate") with
  | false =>
    simp [bushtalk.Client.Authenticate, h1] at hb
  | true =>
    cases hd : env.Do (c.authRequest u p) with
    | none =>
      simp [bushtalk.Client.Authenticate, h1, hd] at hb
    | some resp =>
      obtain ⟨code, body⟩ := resp
      by_cases h2 : code = 200
      · subst h2
        cases body with
        | none => simp [bushtalk.Client.Authenticate, h1, hd] at hb
        | some b2 =>
          simp [bushtalk.Client.Authenticate, h1, hd] at hb ⊢
          subst hb
          exact ⟨rfl, rfl⟩
      · simp [bushtalk.Client.Authenticate, h1, hd, h2] at hb

/-- A successful `handleLogin`: what was sent, to which URL, and with which answer. -/
theorem handleLogin_success (env : AuthEnv) (l : LoginWindow) (cfg : Config)
    (r : LoginResult) (token : GoString)
    (hr : l.handleLogin env cfg = Outcome.ok r) (hs : r.onSuccess = some token) :
    r.cfg.ApiURL = l.apiURLEntry
      ∧ r.window.client = { baseURL := l.apiURLEntry, token := token }
      ∧ r.sent = [(bushtalk.NewClient l.apiURLEntry).authRequest l.usernameEntry
          l.passwordEntry]
      ∧ ∃ bundle, env.Do ((bushtalk.NewClient l.apiURLEntry).authRequest l.usernameEntry
            l.passwordEntry) = some ⟨200, some bundle⟩ ∧ bundle.IDToken = token := by
  simp only [LoginWindow.handleLogin, Config.withForm] at hr
  by_cases h1 : l.usernameEntry = [] ∨ l.passwordEntry = []
  · rw [if_pos h1] at hr
    cases hr
    cases hs
  rw [if_neg h1] at hr
  by_cases h2 : scanID l.portEntry ≤ 0
  · rw [if_pos h2] at hr
    cases hr
    cases hs
  rw [if_neg h2] at hr
  have ha := Authenticate_success env (bushtalk.NewClient l.apiURLEntry) l.usernameEntry
    l.passwordEntry
  generalize (bushtalk.NewClient l.apiURLEntry).Authenticate env l.usernameEntry
    l.passwordEntry = ar at hr ha
  obtain ⟨resp, err, client, sent⟩ := ar
  cases err with
  | some e =>
    simp only at hr
    cases hr
    cases hs
  | none =>
    cases resp with
    | none =>
      simp only at hr
      cases hr
    | some b =>
      obtain ⟨hdo, hcl, hsent⟩ := ha b rfl
      simp only at hcl hsent
      subst hcl hsent
      simp only at hr
      by_cases h3 : l.rememberCheck = true
      · rw [if_pos h3] at hr
        cases hr
        cases hs
        exact ⟨rfl, rfl, rfl, b, hdo, rfl⟩
      · rw [if_neg h3] at hr
        cases hr
        cases hs
        exact ⟨rfl, rfl, rfl, b, hdo, rfl⟩

/-- Every request `SendPosition` hands to the transport goes to the base URL of the
client + "/api/track" and carries the token of the client as bearer. -/
theorem SendPosition_sent_request (env : HttpEnv) (c : bushtalk.Client)
    (payload : TrackPayload) (q : Request) (hq : q ∈ (c.SendPosition env payload).sent) :
    q.URL = c.baseURL ++ str "/api/track"
      ∧ GoMap.get q.Header (str "Authorization") = some (str "Bearer " ++ c.token) := by
  have key : ∀ body, q = c.trackRequest body →
      q.URL = c.baseURL ++ str "/api/track"
        ∧ GoMap.get q.Header (str "Authorization") = some (str "Bearer " ++ c.token) := by
    intro body hb
    subst hb
    exact ⟨rfl, trackRequest_authorization c body⟩
  simp only [bushtalk.Client.SendPosition] at hq
  by_cases h1 : c.token = []
  · simp [h1] at hq
  · cases hm : Marshal payload with
    | none => simp [h1, hm] at hq
    | some body =>
      cases h2 : env.NewRequestOk (c.baseURL ++ str "/api/track") with
      | false => simp [h1, hm, h2] at hq
      | true =>
        cases hd : env.Do (c.trackRequest body) with
        | none =>
          simp [h1, hm, h2, hd] at hq
          exact key body hq
        | some resp =>
          simp only [h1, hm, h2, hd, if_false, Bool.true_eq_false] at hq
          split_ifs at hq <;>
          · simp only [List.mem_singleton] at hq
            exact key body hq

/-- With a token, a record that marshals and a request that can be built, `SendPosition`
hands exactly one request to the transport. -/
theorem SendPosition_sent_of_built (env : HttpEnv) (c : bushtalk.Client)
    (payload body : TrackPayload) (htok : c.token ≠ []) (hm : Marshal payload = some body)
    (hreq : env.NewRequestOk (c.baseURL ++ str "/api/track") = true) :
    (c.SendPosition env payload).sent = [c.trackRequest body] := by
  simp only [bushtalk.Client.SendPosition, htok, hm, hreq, if_false, Bool.true_eq_false]
  cases hd : env.Do (c.trackRequest body) with
  | none => rfl
  | some resp =>
    simp only
    split_ifs <;> rfl

/-- C21: `main` gives the client of the application the API URL of the start-up
configuration, and a successful login does not change it.  For every state of the
application and of its login form: when `handleLogin` succeeds with a token, it has
authenticated through a new client for the URL entered in the form (one request, to
the entered URL + "/api/authenticate", answered with status 200 and a bundle whose
`id_token` is that token) and stored the entered URL in the configuration, while the
client of the application has only received the token and keeps its base URL.  So
every request `SendPosition` sends afterwards goes to the old base URL + "/api/track"
with that token as bearer, it does send one whenever the token is not empty, the
record marshals and the request is built, and if the entered URL differs from the base
URL the application publishes to a URL other than the configured one. -/
theorem login_keeps_startup_url (env : AuthEnv) (a : App) (l : LoginWindow)
    (r : LoginResult) (token : GoString) (hl : a.loginWindow = some l)
    (hr : l.handleLogin env a.cfg = Outcome.ok r) (hs : r.onSuccess = some token) :
    (∀ cfg0, (main cfg0).bushtalkClient.baseURL = cfg0.ApiURL)
    ∧ ∃ a1, a.handleLogin env = Outcome.ok a1
      ∧ a1.bushtalkClient = { baseURL := a.bushtalkClient.baseURL, token := token }
      ∧ a1.cfg.ApiURL = l.apiURLEntry
      ∧ r.window.client = { baseURL := l.apiURLEntry, token := token }
      ∧ r.sent = [(bushtalk.NewClient l.apiURLEntry).authRequest l.usernameEntry
          l.passwordEntry]
      ∧ (∀ q ∈ r.sent, q.URL = l.apiURLEntry ++ str "/api/authenticate")
      ∧ (∃ bundle, env.Do ((bushtalk.NewClient l.apiURLEntry).authRequest l.usernameEntry
            l.passwordEntry) = some ⟨200, some bundle⟩ ∧ bundle.IDToken = token)
      ∧ (∀ (henv : HttpEnv) (payload : TrackPayload),
          ∀ q ∈ (a1.bushtalkClient.SendPosition henv payload).sent,
            q.URL = a.bushtalkClient.baseURL ++ str "/api/track"
              ∧ GoMap.get q.Header (str "Authorization") = some (str "Bearer " ++ token))
      ∧ (∀ (henv : HttpEnv) (payload body : TrackPayload), token ≠ [] →
          Marshal payload = some body →
          henv.NewRequestOk (a.bushtalkClient.baseURL ++ str "/api/track") = true →
          (a1.bushtalkClient.SendPosition henv payload).sent
            = [a1.bushtalkClient.trackRequest body])
      ∧ (l.apiURLEntry ≠ a.bushtalkClient.baseURL →
          a1.bushtalkClient.baseURL ≠ a1.cfg.ApiURL) := by
  refine ⟨?_, ?_⟩
  · intro cfg0
    simp only [main]
    split_ifs <;> rfl
  obtain ⟨hurl, hclient, hsent, hdo⟩ := handleLogin_success env l a.cfg r token hr hs
  refine ⟨(a.afterLogin r).loginSucceeded token,
    ?_, rfl, hurl, hclient, hsent, ?_, hdo, ?_, ?_, ?_⟩
  · simp only [App.handleLogin, hl, hr, hs]
  · intro q hq
    rw [hsent, List.mem_singleton] at hq
    subst hq
    rfl
  · intro henv payload q hq
    have hc : ((a.afterLogin r).loginSucceeded token).bushtalkClient
        = { baseURL := a.bushtalkClient.baseURL, token := token } := rfl
    rw [hc] at hq
    exact SendPosition_sent_request henv _ payload q hq
  · intro henv payload body htok hm hreq
    have hc : ((a.afterLogin r).loginSucceeded token).bushtalkClient
        = { baseURL := a.bushtalkClient.baseURL, token := token } := rfl
    rw [hc]
    exact SendPosition_sent_of_built henv _ payload body htok hm hreq
  · intro hne
    show a.bushtalkClient.baseURL ≠ r.cfg.ApiURL
    rw [hurl]
    exact fun h => hne h.symm

/-- C21 at a concrete login: the application starts with the default configuration, so
with the base URL "https://bushtalkradio.com"; the user enters the API URL
"https://staging.example" and the service there answers with a bundle.  Afterwards the
configuration holds the entered URL, the client of the application has the token of
the bundle and still the start-up URL, and the position is posted to
"https://bushtalkradio.com/api/track". -/
theorem login_keeps_startup_url_witness :
    (main DefaultConfig).loginWindow
        = some (NewLoginWindow DefaultConfig (bushtalk.NewClient DefaultConfig.ApiURL)).Show
    ∧ ∃ a1, loginApp.handleLogin (authEnv 200 (some scenarioBundle)) = Outcome.ok a1
      ∧ a1.bushtalkClient
          = { baseURL := str "https://bushtalkradio.com", token := str "id-1" }
      ∧ a1.cfg.ApiURL = str "https://staging.example"
      ∧ (a1.bushtalkClient.SendPosition (statusEnv 200)
            (toPayload scenarioSession.position)).sent.map Request.URL
          = [str "https://bushtalkradio.com/api/track"] :=
  ⟨by decide,
   match (login_keeps_startup_url (authEnv 200 (some scenarioBundle)) loginApp typedLogin _
      (str "id-1") rfl rfl rfl).2 with
   | ⟨a1, h1, h2, h3, _, _, _, _, _, h9, _⟩ =>
     ⟨a1, h1, h2, h3, by
       rw [h9 (statusEnv 200) (toPayload scenarioSession.position)
         (toPayload scenarioSession.position) (by decide) (by decide) rfl]
       rw [h2]
       rfl⟩⟩

/-! ### Keys that do not scan -/

theorem skipSpaceAux_eq_trimLeftAux (n : Nat) :
    ∀ s t, skipSpaceAux n s = some t → trimLeftAux n s = t := by
  induction n with
  | zero =>
    intro s t h
    simp only [skipSpaceAux, Option.some.injEq] at h
    exact h
  | succ n ih =>
    intro s t h
    cases s with
    | nil =>
      simp only [skipSpaceAux, Option.some.injEq] at h
      subst h
      rfl
    | cons r rest =>
      simp only [skipSpaceAux] at h
      by_cases h1 : r = 13 ∧ rest.head? = some 10
      · rw [if_pos h1] at h
        obtain ⟨h13, _⟩ := h1
        subst h13
        have hl : leadingSpace (13 :: rest) = some [13] := by
          simp [leadingSpace, whiteSpace, List.find?, List.isPrefixOf]
        simp only [trimLeftAux, hl]
        exact ih rest t h
      · rw [if_neg h1] at h
        by_cases h2 : r = 10
        · rw [if_pos h2] at h
          cases h
        · rw [if_neg h2] at h
          simp only [trimLeftAux]
          cases hl : leadingSpace (r :: rest) with
          | none =>
            simp only [hl, Option.some.injEq] at h
            exact h
          | some w =>
            simp only [hl] at h
            exact ih _ t h

theorem ParseInt_underscore (t : GoString) : ParseInt (95 :: t) = none := by
  simp [ParseInt]

theorem ParseInt_sign_underscore (c : Nat) (t : GoString) (hc : c = 43 ∨ c = 45) :
    ParseInt (c :: 95 :: t) = none := by
  simp [ParseInt, hc]

theorem scanID_of_not_integer (key : GoString)
    (h : beginsWithInteger (withoutLeadingSpace key) = false) : scanID key = 0 := by
  simp only [scanID]
  cases hs : skipSpaceAux key.length key with
  | none => rfl
  | some s =>
    have ht := skipSpaceAux_eq_trimLeftAux _ _ _ hs
    rw [withoutLeadingSpace, ht] at h
    simp only
    cases s with
    | nil => simp
    | cons c rest =>
      simp only [beginsWithInteger] at h
      by_cases hc : c = 43 ∨ c = 45
      · rw [if_pos hc] at h
        simp only [List.head?_cons, Option.some.injEq, hc, if_true]
        cases rest with
        | nil => simp
        | cons d r2 =>
          simp only [Bool.and_eq_false_iff, decide_eq_false_iff_not] at h
          by_cases hd : d = 95
          · subst hd
            simp [isDigitChar, ParseInt_sign_underscore _ _ hc]
          · have : isDigitChar d = false := by
              simp only [isDigitChar, Bool.or_eq_false_iff, Bool.and_eq_false_iff,
                decide_eq_false_iff_not, beq_eq_false_iff_ne, ne_eq]
              exact ⟨h, hd⟩
            simp [this]
      · rw [if_neg hc] at h
        simp only [List.head?_cons, Option.some.injEq, hc, if_false]
        simp only [Bool.and_eq_false_iff, decide_eq_false_iff_not] at h
        by_cases hd : c = 95
        · subst hd
          simp [isDigitChar, ParseInt_underscore]
        · have : isDigitChar c = false := by
            simp only [isDigitChar, Bool.or_eq_false_iff, Bool.and_eq_false_iff,
              decide_eq_false_iff_not, beq_eq_false_iff_ne, ne_eq]
            exact ⟨h, hd⟩
          simp [this]

theorem leadingSpace_space (xs : GoString) : leadingSpace (32 :: xs) = some [32] := by
  simp [leadingSpace, whiteSpace, List.find?, List.isPrefixOf]

theorem leadingSpace_digit (d : Nat) (xs : GoString) (h : 48 ≤ d ∧ d ≤ 57) :
    leadingSpace (d :: xs) = none := by
  rw [leadingSpace, List.find?_eq_none]
  intro w hw
  simp only [whiteSpace, List.mem_cons, List.mem_singleton, List.not_mem_nil, or_false] at hw
  rcases hw with rfl | rfl | rfl | rfl | rfl | rfl | rfl | rfl | rfl | rfl | rfl | rfl | rfl |
    rfl | rfl | rfl | rfl | rfl | rfl | rfl | rfl | rfl | rfl | rfl | rfl <;>
    simp [List.isPrefixOf] <;> omega

theorem skipSpaceAux_spaces (k : Nat) :
    ∀ n s, skipSpaceAux (k + n) (List.replicate k 32 ++ s) = skipSpaceAux n s := by
  induction k with
  | zero => intro n s; simp
  | succ k ih =>
    intro n s
    have : k + 1 + n = (k + n) + 1 := by omega
    rw [this, List.replicate_succ, List.cons_append, skipSpaceAux]
    simp only [leadingSpace_space, List.length_singleton, List.drop_succ_cons, List.drop_zero]
    rw [if_neg (by simp), if_neg (by decide)]
    exact ih n s

theorem skipSpaceAux_digit (n d : Nat) (xs : GoString) (h : 48 ≤ d ∧ d ≤ 57) :
    skipSpaceAux (n + 1) (d :: xs) = some (d :: xs) := by
  rw [skipSpaceAux]
  rw [if_neg (by omega), if_neg (by omega), leadingSpace_digit d xs h]

theorem isDigitChar_of_digit (d : Nat) (h : 48 ≤ d ∧ d ≤ 57) : isDigitChar d = true := by
  simp [isDigitChar, h.1, h.2]

theorem takeWhile_digits (ds rest : GoString) (hdig : ∀ d ∈ ds, 48 ≤ d ∧ d ≤ 57)
    (hrest : ∀ c, rest.head? = some c → isDigitChar c = false) :
    (ds ++ rest).takeWhile isDigitChar = ds := by
  induction ds with
  | nil =>
    cases rest with
    | nil => rfl
    | cons c r => simp [List.takeWhile, hrest c rfl]
  | cons d ds ih =>
    have hd := isDigitChar_of_digit d (hdig d (List.mem_cons_self _ _))
    simp only [List.cons_append, List.takeWhile_cons, hd, if_true]
    rw [ih (fun x hx => hdig x (List.mem_cons_of_mem _ hx))]

/-- A key made of spaces and a decimal number is read as that number. -/
theorem scanID_spaces_digits (k : Nat) (ds rest : GoString) (hds : ds ≠ [])
    (hdig : ∀ d ∈ ds, 48 ≤ d ∧ d ≤ 57)
    (hrest : ∀ c, rest.head? = some c → isDigitChar c = false)
    (hval : ds.foldl (fun acc d => acc * 10 + (d - 48)) 0 < 2 ^ 63) :
    scanID (List.replicate k 32 ++ (ds ++ rest))
      = ((ds.foldl (fun acc d => acc * 10 + (d - 48)) 0 : Nat) : Int) := by
  obtain ⟨d, ds2, rfl⟩ := List.exists_cons_of_ne_nil hds
  have hd := hdig d (List.mem_cons_self _ _)
  have hskip : skipSpaceAux (List.replicate k 32 ++ (d :: ds2 ++ rest)).length
      (List.replicate k 32 ++ (d :: ds2 ++ rest)) = some (d :: ds2 ++ rest) := by
    have hl : (List.replicate k 32 ++ (d :: ds2 ++ rest)).length
        = k + ((ds2 ++ rest).length + 1) := by simp
    rw [hl, skipSpaceAux_spaces]
    exact skipSpaceAux_digit _ d (ds2 ++ rest) hd
  have hsign : ¬ (d = 43 ∨ d = 45) := by omega
  have htw := takeWhile_digits (d :: ds2) rest hdig hrest
  simp only [scanID, hskip]
  simp only [List.cons_append, List.head?_cons, Option.some.injEq, hsign, if_false,
    List.take_zero, List.length_nil, List.drop_zero, List.nil_append] at htw ⊢
  rw [htw]
  have hall : (d :: ds2).all (fun d => decide (48 ≤ d) && decide (d ≤ 57)) = true := by
    rw [List.all_eq_true]
    intro x hx
    have := hdig x hx
    simp [this.1, this.2]
  simp only [ParseInt, hsign, if_false, hall, if_true]
  have h45 : ¬ d = 45 := by omega
  simp only [h45, if_false]
  rw [if_pos hval]
  rfl

theorem updateEntry_tail (impl : F64 → Nat) (rm : GoMap Int GoString) (p : Position)
    (e : GoString × JValue) (h : GoMap.get rm (scanID e.1) = some DatarefTailNum) :
    updateEntry impl rm p e = { p with TailNumber := DecodeTailNumber impl e.2 } := by
  simp only [updateEntry, h]
  rw [if_neg (by decide), if_neg (by decide), if_neg (by decide), if_neg (by decide),
    if_neg (by decide), if_pos trivial]

/-- C22 (as amended): a frame key that, after its leading white space, does not begin
with a decimal integer is treated as the identifier 0, the zero value the failed scan
leaves: its entry is handled exactly as the entry with the key "0" and the same value.
So when no instrument has the identifier 0 the entry changes nothing, in a frame too;
when a numeric instrument has the identifier 0, a numeric value overwrites the field
of that instrument and any other value leaves it as it was; and when the tail number
has the identifier 0, the decoded value overwrites the tail number.  A key made of one
or more spaces and then decimal digits, whose value is below 2^63 and which no further
digit or underscore follows, does not begin with a decimal integer, yet it is read as
that value: the scan skips the spaces. -/
theorem updateEntry_key_without_integer (impl : F64 → Nat) (rm : GoMap Int GoString)
    (p : Position) (key : GoString) (value : JValue)
    (h : beginsWithInteger (withoutLeadingSpace key) = false) :
    scanID key = 0
    ∧ updateEntry impl rm p (key, value) = updateEntry impl rm p (str "0", value)
    ∧ (GoMap.get rm 0 = none → updateEntry impl rm p (key, value) = p)
    ∧ (∀ nf ∈ numericFields, GoMap.get rm 0 = some nf.1 →
        (∀ v, value = JValue.number v → nf.2 (updateEntry impl rm p (key, value)) = v)
        ∧ ((∀ v, value ≠ JValue.number v) →
            nf.2 (updateEntry impl rm p (key, value)) = nf.2 p))
    ∧ (GoMap.get rm 0 = some DatarefTailNum →
        updateEntry impl rm p (key, value)
          = { p with TailNumber := DecodeTailNumber impl value })
    ∧ (∀ pre post now, GoMap.get rm 0 = none →
        updatePosition impl rm p (pre ++ (key, value) :: post) now
          = updatePosition impl rm p (pre ++ post) now)
    ∧ (∀ (k : Nat) (ds rest : GoString), ds ≠ [] → (∀ d ∈ ds, 48 ≤ d ∧ d ≤ 57) →
        (∀ c, rest.head? = some c → isDigitChar c = false) → decimalValue ds < 2 ^ 63 →
        beginsWithInteger (List.replicate (k + 1) 32 ++ (ds ++ rest)) = false
          ∧ scanID (List.replicate (k + 1) 32 ++ (ds ++ rest)) = (decimalValue ds : Int)) := by
  have h0 : scanID key = 0 := scanID_of_not_integer key h
  have hz : scanID (str "0") = 0 := by decide
  have habs : GoMap.get rm 0 = none → ∀ q, updateEntry impl rm q (key, value) = q := by
    intro hn q
    apply updateEntry_absent
    show (GoMap.get rm (scanID key)).isSome = false
    rw [h0, hn]
    rfl
  refine ⟨h0, ?_, fun hn => habs hn p, ?_, ?_, ?_, ?_⟩
  · simp only [updateEntry, h0, hz]
  · intro nf hnf hget
    constructor
    · intro v hv
      subst hv
      rw [updateEntry_numeric impl rm p _ nf hnf]
      simp only [feeds, h0, hget, if_true, Option.getD_some]
    · intro hv
      rw [updateEntry_numeric impl rm p _ nf hnf]
      simp only [feeds, h0, hget, if_true]
      cases value with
      | number v => exact absurd rfl (hv v)
      | _ => rfl
  · intro hget
    exact updateEntry_tail impl rm p (key, value) (by rw [h0]; exact hget)
  · intro pre post now hn
    simp only [updatePosition, List.foldl_append, List.foldl_cons, habs hn]
  · intro k ds rest hds hdig hrest hval
    exact ⟨by simp [beginsWithInteger, List.replicate_succ],
      scanID_spaces_digits (k + 1) ds rest hds hdig hrest hval⟩

/-- C22, the examples "abc" and "": both keys give the identifier 0.  With latitude
at 10 and longitude at 11 their entries change nothing; with latitude at 0 the entry
`"abc": 37.5` overwrites the latitude.  The key " 12" is read as 12. -/
theorem updateEntry_key_without_integer_witness :
    scanID (str "abc") = 0 ∧ scanID (str "") = 0
    ∧ updateEntry impl0 scenarioReverseMap scenarioPrior
        (str "abc", JValue.number (F64.ofRatio false 375 10)) = scenarioPrior
    ∧ updateEntry impl0 scenarioReverseMap scenarioPrior
        (str "", JValue.number (F64.ofRatio false 375 10)) = scenarioPrior
    ∧ (updateEntry impl0 [(0, DatarefLatitude)] scenarioPrior
        (str "abc", JValue.number (F64.ofRatio false 375 10))).Latitude
          = F64.ofRatio false 375 10
    ∧ scanID (str " 12") = 12 :=
  ⟨(updateEntry_key_without_integer impl0 scenarioReverseMap scenarioPrior (str "abc")
      (JValue.number (F64.ofRatio false 375 10)) (by decide)).1,
   (updateEntry_key_without_integer impl0 scenarioReverseMap scenarioPrior (str "")
      (JValue.number (F64.ofRatio false 375 10)) (by decide)).1,
   (updateEntry_key_without_integer impl0 scenarioReverseMap scenarioPrior (str "abc")
      (JValue.number (F64.ofRatio false 375 10)) (by decide)).2.2.1 (by decide),
   (updateEntry_key_without_integer impl0 scenarioReverseMap scenarioPrior (str "")
      (JValue.number (F64.ofRatio false 375 10)) (by decide)).2.2.1 (by decide),
   ((updateEntry_key_without_integer impl0 [(0, DatarefLatitude)] scenarioPrior (str "abc")
      (JValue.number (F64.ofRatio false 375 10)) (by decide)).2.2.2.1
      (DatarefLatitude, Position.Latitude) (by simp [numericFields]) (by decide)).1 _ rfl,
   ((updateEntry_key_without_integer impl0 scenarioReverseMap scenarioPrior (str "abc")
      (JValue.number (F64.ofRatio false 375 10)) (by decide)).2.2.2.2.2.2 0 (str "12") []
      (by decide) (by decide) (by simp) (by decide)).2⟩

/-- C22 as stated fails for a key with leading white space: the key " 12" does not
begin with a decimal integer, yet `Sscanf` skips the space and reads the identifier 12,
not 0.  With latitude at 12, and no instrument at 0, the entry `" 12": 37.5` overwrites
the latitude. -/
theorem updateEntry_leading_space_counterexample :
    beginsWithInteger (str " 12") = false
    ∧ scanID (str " 12") = 12
    ∧ GoMap.get [((12 : Int), DatarefLatitude)] 0 = none
    ∧ (updateEntry impl0 [(12, DatarefLatitude)] scenarioPrior
        (str " 12", JValue.number (F64.ofRatio false 375 10))).Latitude
          = F64.ofRatio false 375 10
    ∧ updateEntry impl0 [(12, DatarefLatitude)] scenarioPrior
        (str " 12", JValue.number (F64.ofRatio false 375 10)) ≠ scenarioPrior := by
  decide

end Bushtalk
